import Mathlib

set_option autoImplicit false

/-!
# gdenticon: the identicon generator, embedded from `gdenticon.go`

The Go functions are Lean functions of the same names.

* `float32` is `F32`, IEEE-754 binary32: every operation takes the exact result and rounds
  it once, to nearest, ties to even (no fused multiply-add); conversions between `int` and
  `float32` behave as on amd64.
* `int` and `int64` are `Int`; the values that occur stay far below 64 bits.
* A function that can panic returns `Except Panic`; a method with a pointer receiver returns
  the updated receiver.
* A `string` is a Lean `String`. The hash is indexed only after validation, when each
  character is one byte; a Go string that is not valid UTF-8 fails validation as any
  string with a non-hex character does.
* The map `pathsByColor` is a list of entries with distinct keys; `range` over it may visit
  the entries in any order, so `toSVG` is a relation between the renderer and its results.

## IEEE-754 binary32, the `float32` of the Go source
-/

/-- A `float32` value: NaN, an infinity, or a finite value `(-1)^neg * m * 2^e` kept in the
IEEE layout: `m < 2^24`, `-149 ≤ e ≤ 104`, and `2^23 ≤ m` unless `e = -149`. -/
inductive F32 where
  | nan : F32
  | inf (neg : Bool) : F32
  | fin (neg : Bool) (m : Nat) (e : Int) : F32
deriving DecidableEq, Repr, Inhabited

namespace F32

/-- Number of binary digits of `n`, by halving at most `fuel` times. -/
def bitLenAux : Nat → Nat → Nat
  | 0, _ => 0
  | fuel + 1, n => if n = 0 then 0 else bitLenAux fuel (n / 2) + 1

/-- Number of binary digits of `n` (`0` for `0`). -/
def bitLen (n : Nat) : Nat := bitLenAux n n

/-- Numerator and denominator of `n / d * 2^s`. -/
def scaled (n d : Nat) (s : Int) : Nat × Nat :=
  (n * 2 ^ s.toNat, d * 2 ^ (-s).toNat)

/-- Finite value or overflow to infinity. -/
def pack (neg : Bool) (m : Nat) (e : Int) : F32 :=
  if 104 < e then inf neg else fin neg m e

/-- Round-to-nearest, ties-to-even, of the real number `(-1)^neg * (n / d) * 2^e`. -/
def roundRat (neg : Bool) (n d : Nat) (e : Int) : F32 :=
  if n = 0 then fin neg 0 (-149)
  else
    let s1 : Int := 23 - ((bitLen n : Int) - (bitLen d : Int))
    let s2 : Int := if (scaled n d s1).1 / (scaled n d s1).2 < 2 ^ 23 then s1 + 1 else s1
    let ex : Int := max (e - s2) (-149)
    let N := (scaled n d (e - ex)).1
    let D := (scaled n d (e - ex)).2
    let q := N / D
    let r := N % D
    let m := if D < 2 * r ∨ (2 * r = D ∧ q % 2 = 1) then q + 1 else q
    if m = 2 ^ 24 then pack neg (2 ^ 23) (ex + 1) else pack neg m ex

/-- The float32 nearest to the decimal constant `n / d` (Go converts untyped constants so). -/
def lit (n d : Nat) : F32 := roundRat false n d 0

/-- Conversion `float32(n)` of an integer. -/
def ofInt (n : Int) : F32 := roundRat (decide (n < 0)) n.natAbs 1 0

def zero : F32 := fin false 0 (-149)

/-- Unary minus. -/
def neg : F32 → F32
  | nan => nan
  | inf s => inf (!s)
  | fin s m e => fin (!s) m e

/-- The integer `k` with `(-1)^s * m * 2^e = k * 2^e0`, for `e0 ≤ e`. -/
def aligned (s : Bool) (m : Nat) (e e0 : Int) : Int :=
  let k : Int := (m * 2 ^ (e - e0).toNat : Nat)
  if s then -k else k

/-- Addition, `a + b`. -/
def add : F32 → F32 → F32
  | nan, _ => nan
  | _, nan => nan
  | inf a, inf b => if a = b then inf a else nan
  | inf a, fin _ _ _ => inf a
  | fin _ _ _, inf b => inf b
  | fin sa ma ea, fin sb mb eb =>
    let e0 := min ea eb
    let sum := aligned sa ma ea e0 + aligned sb mb eb e0
    if sum = 0 then fin (sa && sb) 0 (-149)
    else roundRat (decide (sum < 0)) sum.natAbs 1 e0

/-- Subtraction, `a - b`. -/
def sub (a b : F32) : F32 := add a (neg b)

/-- Multiplication, `a * b`. -/
def mul : F32 → F32 → F32
  | nan, _ => nan
  | _, nan => nan
  | inf a, inf b => inf (a != b)
  | inf a, fin sb mb _ => if mb = 0 then nan else inf (a != sb)
  | fin sa ma _, inf b => if ma = 0 then nan else inf (sa != b)
  | fin sa ma ea, fin sb mb eb => roundRat (sa != sb) (ma * mb) 1 (ea + eb)

/-- Division, `a / b`. -/
def div : F32 → F32 → F32
  | nan, _ => nan
  | _, nan => nan
  | inf _, inf _ => nan
  | inf a, fin sb _ _ => inf (a != sb)
  | fin sa _ _, inf b => fin (sa != b) 0 (-149)
  | fin sa ma ea, fin sb mb eb =>
    if mb = 0 then (if ma = 0 then nan else inf (sa != sb))
    else roundRat (sa != sb) ma mb (ea - eb)

instance : Add F32 := ⟨add⟩
instance : Sub F32 := ⟨sub⟩
instance : Mul F32 := ⟨mul⟩
instance : Div F32 := ⟨div⟩
instance : Neg F32 := ⟨neg⟩

/-- Comparison `a < b` (false when either side is NaN). -/
def lt : F32 → F32 → Bool
  | nan, _ => false
  | _, nan => false
  | inf a, inf b => a && !b
  | inf a, fin _ _ _ => a
  | fin _ _ _, inf b => !b
  | fin sa ma ea, fin sb mb eb =>
    decide (aligned sa ma ea (min ea eb) < aligned sb mb eb (min ea eb))

/-- Comparison `a == b` (false when either side is NaN, true for `-0 == +0`). -/
def eq : F32 → F32 → Bool
  | nan, _ => false
  | _, nan => false
  | inf a, inf b => a == b
  | inf _, fin _ _ _ => false
  | fin _ _ _, inf _ => false
  | fin sa ma ea, fin sb mb eb =>
    decide (aligned sa ma ea (min ea eb) = aligned sb mb eb (min ea eb))

/-- Comparison `a <= b`. -/
def le (a b : F32) : Bool := lt a b || eq a b

/-- Comparison `a > b`. -/
def gt (a b : F32) : Bool := lt b a

/-- The smallest `int` (64 bits), which the conversion `int(x)` yields on amd64 when `x` is
NaN, infinite or out of range (the Go specification leaves that value to the implementation). -/
def minInt64 : Int := -(2 ^ 63)

/-- Conversion `int(x)`: truncation toward zero. -/
def toInt : F32 → Int
  | nan => minInt64
  | inf _ => minInt64
  | fin s m e =>
    let t : Nat := (scaled m 1 e).1 / (scaled m 1 e).2
    if s then (if t ≤ 2 ^ 63 then -(t : Int) else minInt64)
    else (if t < 2 ^ 63 then (t : Int) else minInt64)

/-- Formatting with `%.1f`: the exact value rounded half-to-even to one decimal. -/
def fmt1 : F32 → String
  | nan => "NaN"
  | inf s => if s then "-Inf" else "+Inf"
  | fin s m e =>
    let N := (scaled (m * 10) 1 e).1
    let D := (scaled (m * 10) 1 e).2
    let q := N / D
    let r := N % D
    let k := if D < 2 * r ∨ (2 * r = D ∧ q % 2 = 1) then q + 1 else q
    (if s then "-" else "") ++ toString (k / 10) ++ "." ++ toString (k % 10)

end F32


/-! ## Panics, slices -/

/-- A Go panic: the value passed to `panic`, or the text of a runtime error. -/
abbrev Panic := String

/-- Runtime error raised by an index or a slice bound outside its range. -/
def indexOutOfRange : Panic := "runtime error: index out of range"

/-- The element `l[i]` of a slice, for a Go `int` index. -/
def sliceAt {α : Type} (l : List α) (i : Int) : Except Panic α :=
  if i < 0 then .error indexOutOfRange
  else match l[i.toNat]? with
    | some a => .ok a
    | none => .error indexOutOfRange

/-- Go remainder `a % b` of two `int`s: truncated, with the sign of the dividend. -/
def goMod (a b : Int) : Int := Int.tmod a b

/-! ## Strings, `regexp` and `strconv` -/

/-- The class `[0-9a-f]` under the flag `(?i)`: no other character folds to one of
these. -/
def isHexDigit (c : Char) : Bool :=
  (decide (48 ≤ c.toNat) && decide (c.toNat ≤ 57)) ||
  (decide (97 ≤ c.toNat) && decide (c.toNat ≤ 102)) ||
  (decide (65 ≤ c.toNat) && decide (c.toNat ≤ 70))

/-- The call `regexp.MatchString("(?i)^[0-9a-f]{n,}$", s)`: the whole text consists of
characters of the class, at least `n` of them. -/
def matchHex (n : Nat) (s : String) : Bool :=
  s.data.all isHexDigit && decide (n ≤ s.data.length)

/-- Value of a digit in base 16, as `strconv` reads it. -/
def hexVal (c : Char) : Option Nat :=
  if 48 ≤ c.toNat ∧ c.toNat ≤ 57 then some (c.toNat - 48)
  else if 97 ≤ c.toNat ∧ c.toNat ≤ 102 then some (c.toNat - 87)
  else if 65 ≤ c.toNat ∧ c.toNat ≤ 70 then some (c.toNat - 55)
  else none

/-- The digits of `strconv.ParseUint(s, 16, 64)` folded from the left; `none` is a syntax
error. -/
def parseDigits : List Char → Nat → Option Nat
  | [], acc => some acc
  | c :: cs, acc =>
    match hexVal c with
    | some d => parseDigits cs (acc * 16 + d)
    | none => none

/-- First result of `strconv.ParseInt(s, 16, 0)` (the error is discarded by every caller):
`0` on a syntax error, the nearest `int64` on a range error. -/
def ParseInt16 (s : String) : Int :=
  let body (neg : Bool) (cs : List Char) : Int :=
    match cs with
    | [] => 0
    | _ :: _ =>
      match parseDigits cs 0 with
      | none => 0
      | some v =>
        if neg then (if 2 ^ 63 < v then -(2 ^ 63) else -(v : Int))
        else (if 2 ^ 63 ≤ v then 2 ^ 63 - 1 else (v : Int))
  match s.data with
  | [] => 0
  | c :: cs =>
    if c = '+' then body false cs
    else if c = '-' then body true cs
    else body false (c :: cs)

/-- The expression `string(s[i])`; the hash is indexed only after it has been validated, when
every character is one byte. -/
def charAt (s : String) (i : Int) : Except Panic String :=
  (sliceAt s.data i).map (fun c => String.mk [c])

/-- The slice `s[i:]`. -/
def strFrom (s : String) (i : Int) : Except Panic String :=
  if i < 0 ∨ (s.data.length : Int) < i then .error indexOutOfRange
  else .ok (String.mk (s.data.drop i.toNat))

/-- Output of `fmt.Sprintf("%x", v)` for an `int`. -/
def fmtHex (v : Int) : String :=
  (if v < 0 then "-" else "") ++ String.mk (Nat.toDigits 16 v.natAbs)

/-- Output of `fmt.Sprintf("%d", v)` for an `int`. -/
def fmtInt (v : Int) : String :=
  (if v < 0 then "-" else "") ++ toString v.natAbs

/-! ## Point, SVGPath, SVGRenderer -/

/-- Point -/
structure Point where
  x : F32
  y : F32
deriving DecidableEq, Repr

def Point_new (x y : F32) : Point := ⟨x, y⟩

/-- SVGPath -/
abbrev SVGPath := String

def SVGPath_new : SVGPath := ""

def SVGPath.addPolygon (sp : SVGPath) (points : List Point) : Except Panic SVGPath :=
  match points with
  | [] => .error indexOutOfRange
  | p0 :: rest =>
    let dataString := rest.foldl
      (fun ds p => ds ++ ("L" ++ F32.fmt1 p.x ++ " " ++ F32.fmt1 p.y))
      ("M" ++ F32.fmt1 p0.x ++ " " ++ F32.fmt1 p0.y)
    .ok (sp ++ (dataString ++ "Z"))

def SVGPath.addCircle (sp : SVGPath) (point : Point) (diameter : F32)
    (counterClockwise : Bool) : SVGPath :=
  let sweepFlag : Int := if counterClockwise then 0 else 1
  let radius := diameter / F32.lit 2 1
  sp ++ ("M" ++ F32.fmt1 point.x ++ " " ++ F32.fmt1 (point.y + radius) ++
    "a" ++ F32.fmt1 radius ++ "," ++ F32.fmt1 radius ++ " 0 1," ++
    F32.fmt1 (F32.ofInt sweepFlag) ++ " " ++ F32.fmt1 diameter ++ ",0" ++
    "a" ++ F32.fmt1 radius ++ "," ++ F32.fmt1 radius ++ " 0 1," ++
    F32.fmt1 (F32.ofInt sweepFlag) ++ " " ++ F32.fmt1 (-diameter) ++ ",0")

/-- The assignment `m[k] = v` on a Go map, kept as a list of entries with distinct keys. -/
def mapSet (m : List (String × SVGPath)) (k : String) (v : SVGPath) :
    List (String × SVGPath) :=
  m.filter (fun kv => kv.1 != k) ++ [(k, v)]

/-- The lookup `m[k]` on a Go map. -/
def mapGet (m : List (String × SVGPath)) (k : String) : Option SVGPath :=
  (m.find? (fun kv => kv.1 == k)).map Prod.snd

/-- SVGRenderer -/
structure SVGRenderer where
  pathsByColor : List (String × SVGPath)
  path : SVGPath
  size : F32
deriving DecidableEq, Repr

def SVGRenderer_new (size : F32) : SVGRenderer :=
  { pathsByColor := [], path := SVGPath_new, size := size }

def SVGRenderer.beginShape (sr : SVGRenderer) (_color : String) : SVGRenderer :=
  { sr with path := SVGPath_new }

def SVGRenderer.endShape (sr : SVGRenderer) (color : String) : SVGRenderer :=
  { sr with pathsByColor := mapSet sr.pathsByColor color sr.path }

def SVGRenderer.addPolygon (sr : SVGRenderer) (points : List Point) :
    Except Panic SVGRenderer :=
  (SVGPath.addPolygon sr.path points).map (fun p => { sr with path := p })

def SVGRenderer.addCircle (sr : SVGRenderer) (point : Point) (diameter : F32)
    (counterClockwise : Bool) : SVGRenderer :=
  { sr with path := SVGPath.addCircle sr.path point diameter counterClockwise }

/-- The header written by `toSVG`. -/
def svgHeader (size : Int) : String :=
  "<svg xmlns=\"http://www.w3.org/2000/svg\" width=\"" ++ fmtInt size ++
  "\" height=\"" ++ fmtInt size ++ "\" viewBox=\"0 0 " ++ fmtInt size ++ " " ++
  fmtInt size ++ "\" preserveAspectRation=\"xMidYMid meet\">"

/-- The path element written by `toSVG` for one map entry. -/
def svgPathElement (entry : String × SVGPath) : String :=
  "<path fill=\"" ++ entry.1 ++ "\" d=\"" ++ entry.2 ++ "\"/>"

/-- The body of `toSVG` when `range sr.pathsByColor` visits the entries in the order
`order`. -/
def SVGRenderer.toSVGIn (sr : SVGRenderer) (order : List (String × SVGPath)) : String :=
  order.foldl (fun svg entry => svg ++ svgPathElement entry)
    (svgHeader (F32.toInt sr.size)) ++ "</svg>"

/-- The results `toSVG` can return: Go leaves the order in which `range` visits a map
unspecified, and it may change from one loop to the next, so every arrangement of the
entries is a possible order. -/
def SVGRenderer.toSVG (sr : SVGRenderer) (svg : String) : Prop :=
  ∃ order : List (String × SVGPath), order.Perm sr.pathsByColor ∧ svg = sr.toSVGIn order

/-! ## Transform and Graphics -/

/-- Transform -/
structure Transform where
  x : F32
  y : F32
  size : F32
  rotation : F32
deriving DecidableEq, Repr

def Transform_new (x y size rotation : F32) : Transform := ⟨x, y, size, rotation⟩

/-- The variadic `wh` is the list of the extra arguments. -/
def Transform.transformPoint (t : Transform) (x y : F32) (wh : List F32) : Point :=
  let right := t.x + t.size
  let bottom := t.y + t.size
  let w := match wh with
    | [w, _] => w
    | _ => F32.zero
  let h := match wh with
    | [_, h] => h
    | _ => F32.zero
  if F32.eq t.rotation (F32.lit 1 1) then Point_new (right - y - h) (t.y + x)
  else if F32.eq t.rotation (F32.lit 2 1) then Point_new (right - x - w) (bottom - y - h)
  else if F32.eq t.rotation (F32.lit 3 1) then Point_new (t.x + y) (bottom - x - w)
  else Point_new (t.x + x) (t.y + y)

def noTransform : Transform := Transform_new F32.zero F32.zero F32.zero F32.zero

/-- Graphics; the renderer it points to is the one `iconGenerator` was given. -/
structure Graphics where
  renderer : SVGRenderer
  transform : Transform
deriving DecidableEq, Repr

def Graphics_new (renderer : SVGRenderer) : Graphics :=
  { renderer := renderer, transform := noTransform }

/-- The loop of `Graphics.addPolygon`: from index `i` in steps of `di` while
`i < len(points) && i >= 0`; the loop runs at most `len(points)` times, `fuel` bounds the
number of iterations. -/
def Graphics.addPolygonLoop (transform : Transform) (points : List F32) (di : Int) :
    Nat → Int → List Point → Except Panic (List Point)
  | 0, _, transformedPoints => .ok transformedPoints
  | fuel + 1, i, transformedPoints =>
    if i < (points.length : Int) ∧ 0 ≤ i then
      match sliceAt points i, sliceAt points (i + 1) with
      | .ok px, .ok py =>
        Graphics.addPolygonLoop transform points di fuel (i + di)
          (transformedPoints ++ [transform.transformPoint px py []])
      | _, _ => .error indexOutOfRange
    else .ok transformedPoints

def Graphics.addPolygon (g : Graphics) (points : List F32) (invert : Bool) :
    Except Panic Graphics :=
  let di : Int := if invert then -2 else 2
  let i : Int := if invert then (points.length : Int) - 2 else 0
  match Graphics.addPolygonLoop g.transform points di (points.length + 1) i [] with
  | .error e => .error e
  | .ok transformedPoints =>
    (g.renderer.addPolygon transformedPoints).map (fun r => { g with renderer := r })

def Graphics.addCircle (g : Graphics) (x y size : F32) (invert : Bool) : Graphics :=
  let p := g.transform.transformPoint x y [size, size]
  { g with renderer := g.renderer.addCircle p size invert }

def Graphics.addRectangle (g : Graphics) (x y w h : F32) (invert : Bool) :
    Except Panic Graphics :=
  g.addPolygon [x, y, x + w, y, x + w, y + h, x, y + h] invert

/-- The list `addTriangle` hands to `addPolygon`:
`append(points[:startind], points[startind + 2:]...)`. -/
def trianglePoints (x y w h r : F32) : Except Panic (List F32) :=
  let points := [x + w, y, x + w, y + h, x, y + h, x, y]
  let startind : Int := goMod (F32.toInt r) 4 * 2
  if startind < 0 ∨ (points.length : Int) < startind + 2 then .error indexOutOfRange
  else .ok (points.take startind.toNat ++ points.drop (startind.toNat + 2))

def Graphics.addTriangle (g : Graphics) (x y w h r : F32) (invert : Bool) :
    Except Panic Graphics :=
  match trianglePoints x y w h r with
  | .error e => .error e
  | .ok points => g.addPolygon points invert

def Graphics.addRhombus (g : Graphics) (x y w h : F32) (invert : Bool) :
    Except Panic Graphics :=
  g.addPolygon [x + w / F32.lit 2 1, y, x + w, y + h / F32.lit 2 1,
                x + w / F32.lit 2 1, y + h, x, y + h / F32.lit 2 1] invert

/-- Config -/
structure Config where
  saturation : F32
  colorLightness : F32 → F32
  grayscaleLightness : F32 → F32

/-! ## The shape catalog -/

/-- A shape procedure `func (g *Graphics, cell float32, index int)`. -/
abbrev Shape := Graphics → F32 → Int → Except Panic Graphics

open F32 in
/-- The entry `shapes["center"]`. -/
def shapesCenter : List Shape := [
  fun g cell _ =>
    let k := cell * lit 42 100
    g.addPolygon [zero, zero,
                  cell, zero,
                  cell, cell - k * lit 2 1,
                  cell - k, cell,
                  zero, cell] false,
  fun g cell _ =>
    let w := cell * lit 5 10
    let h := cell * lit 8 10
    g.addTriangle (cell - w) zero w h (lit 2 1) false,
  fun g cell _ =>
    let s := cell / lit 3 1
    g.addRectangle s s (cell - s) (cell - s) false,
  fun g cell _ =>
    let inner0 := cell * lit 1 10
    let inner :=
      if gt inner0 (lit 1 1) then ofInt (toInt inner0)
      else if gt inner0 (lit 5 10) then lit 1 1
      else inner0
    let outer :=
      if lt cell (lit 6 1) then lit 1 1
      else if lt cell (lit 8 1) then lit 2 1
      else ofInt (toInt (cell / lit 4 1))
    g.addRectangle outer outer (cell - inner - outer) (cell - inner - outer) false,
  fun g cell _ =>
    let m := cell * lit 15 100
    let s := cell * lit 5 10
    .ok (g.addCircle (cell - s - m) (cell - s - m) s false),
  fun g cell _ =>
    let inner := ofInt (toInt (cell * lit 1 10))
    let outer := ofInt (toInt (inner * lit 4 1))
    match g.addRectangle zero zero cell cell false with
    | .error e => .error e
    | .ok g1 =>
      g1.addPolygon [outer, outer,
                     cell - inner, outer,
                     outer + (cell - outer - inner) / lit 2 1, cell - inner] true,
  fun g cell _ =>
    g.addPolygon [zero, zero,
                  cell, zero,
                  cell, cell * lit 7 10,
                  cell * lit 4 10, cell * lit 4 10,
                  cell * lit 7 10, cell,
                  zero, cell] false,
  fun g cell _ =>
    g.addTriangle (cell / lit 2 1) (cell / lit 2 1) (cell / lit 2 1) (cell / lit 2 1)
      (lit 3 1) false,
  fun g cell _ =>
    match g.addRectangle zero zero cell (cell / lit 2 1) false with
    | .error e => .error e
    | .ok g1 =>
      match g1.addRectangle zero (cell / lit 2 1) (cell / lit 2 1) (cell / lit 2 1) false with
      | .error e => .error e
      | .ok g2 =>
        g2.addTriangle (cell / lit 2 1) (cell / lit 2 1) (cell / lit 2 1) (cell / lit 2 1)
          (lit 1 1) false,
  fun g cell _ =>
    let inner0 := cell * lit 14 100
    let inner := if gt cell (lit 8 1) then ofInt (toInt inner0) else inner0
    let outer :=
      if lt cell (lit 4 1) then lit 1 1
      else if lt cell (lit 6 1) then lit 2 1
      else ofInt (toInt (cell * lit 35 100))
    match g.addRectangle zero zero cell cell false with
    | .error e => .error e
    | .ok g1 =>
      g1.addRectangle outer outer (cell - outer - inner) (cell - outer - inner) true,
  fun g cell _ =>
    let inner := cell * lit 12 100
    let outer := inner * lit 3 1
    match g.addRectangle zero zero cell cell false with
    | .error e => .error e
    | .ok g1 => .ok (g1.addCircle outer outer (cell - inner - outer) true),
  fun g cell _ =>
    g.addTriangle (cell / lit 2 1) (cell / lit 2 1) (cell / lit 2 1) (cell / lit 2 1)
      (lit 3 1) false,
  fun g cell _ =>
    let m := cell * lit 25 100
    match g.addRectangle zero zero cell cell false with
    | .error e => .error e
    | .ok g1 => g1.addRhombus m m (cell - m) (cell - m) true,
  fun g cell index =>
    let m := cell * lit 4 10
    let s := cell * lit 12 10
    if index = 0 then .ok (g.addCircle m m s false) else .ok g]

open F32 in
/-- The entry `shapes["outer"]`. -/
def shapesOuter : List Shape := [
  fun g cell _ => g.addTriangle zero zero cell cell zero false,
  fun g cell _ => g.addTriangle zero (cell / lit 2 1) cell (cell / lit 2 1) zero false,
  fun g cell _ => g.addRhombus zero zero cell cell false,
  fun g cell _ =>
    let m := cell / lit 6 1
    .ok (g.addCircle m m (cell - lit 2 1 * m) false)]

/-- The map `shapes`; a key that is absent yields the empty slice. -/
def shapes (family : String) : List Shape :=
  if family = "center" then shapesCenter
  else if family = "outer" then shapesOuter
  else []

/-! ## Color theme -/

def decToHex (v : Int) : String :=
  if v < 0 then "00"
  else if v < 16 then "0" ++ fmtHex v
  else if v < 256 then fmtHex v
  else "ff"

open F32 in
def hueToRgb (m1 m2 h0 : F32) : String :=
  let h := if lt h0 zero then h0 + lit 6 1 else if gt h0 (lit 6 1) then h0 - lit 6 1 else h0
  let rgb :=
    if lt h (lit 1 1) then m1 + (m2 - m1) * h
    else if lt h (lit 3 1) then m2
    else if lt h (lit 4 1) then m1 + (m2 - m1) * (lit 4 1 - h)
    else m1
  decToHex (toInt (lit 255 1 * rgb))

open F32 in
def hsl (h s l : F32) : String :=
  if eq s zero then
    let hexPart := decToHex (toInt (l * lit 255 1))
    "#" ++ hexPart ++ hexPart ++ hexPart
  else
    let m2 := if le l (lit 5 10) then l * (s + lit 1 1) else l + s - l * s
    let m1 := l * lit 2 1 - m2
    "#" ++ hueToRgb m1 m2 (h * lit 6 1 + lit 2 1) ++ hueToRgb m1 m2 (h * lit 6 1) ++
      hueToRgb m1 m2 (h * lit 6 1 - lit 2 1)

open F32 in
def correctors : List F32 :=
  [lit 55 100, lit 5 10, lit 5 10, lit 46 100, lit 6 10, lit 55 100, lit 55 100]

open F32 in
def correctedHsl (h s l0 : F32) : Except Panic String :=
  match sliceAt correctors (toInt (h * lit 6 1 + lit 5 10)) with
  | .error e => .error e
  | .ok corrector =>
    let l :=
      if lt l0 (lit 5 10) then l0 * corrector * lit 2 1
      else corrector + (l0 - lit 5 10) * (lit 1 1 - corrector) * lit 2 1
    .ok (hsl h s l)

open F32 in
/-- Gets a set of identicon color candidates for a specified hue and config. -/
def colorTheme (hue : F32) (config : Config) : Except Panic (List String) :=
  -- Dark gray
  let c0 := hsl zero zero (config.grayscaleLightness zero)
  -- Mid color
  match correctedHsl hue config.saturation (config.colorLightness (lit 5 10)) with
  | .error e => .error e
  | .ok c1 =>
    -- Light gray
    let c2 := hsl zero zero (config.grayscaleLightness (lit 1 1))
    -- Light color
    match correctedHsl hue config.saturation (config.colorLightness (lit 1 1)) with
    | .error e => .error e
    | .ok c3 =>
      -- Dark color
      match correctedHsl hue config.saturation (config.colorLightness zero) with
      | .error e => .error e
      | .ok c4 => .ok [c0, c1, c2, c3, c4]

/-- The loop of `indexof` from position `p` on. -/
def indexofFrom : List Int → Int → Int → Int
  | [], _, _ => -1
  | v :: rest, value, p => if v = value then p else indexofFrom rest value (p + 1)

def indexof (slice : List Int) (value : Int) : Int := indexofFrom slice value 0

open F32 in
/-- The closure `lightness(configName, defaultMin, defaultMax)` of `getCurrentConfig`. -/
def lightness (defaultMin defaultMax : F32) (value0 : F32) : F32 :=
  let value := defaultMin + value0 * (defaultMax - defaultMin)
  if lt value zero then zero
  else if gt value (lit 1 1) then lit 1 1
  else value

open F32 in
def getCurrentConfig : Config :=
  { saturation := lit 5 10,
    colorLightness := lightness (lit 4 10) (lit 8 10),
    grayscaleLightness := lightness (lit 3 10) (lit 9 10) }

/-! ## The icon generator -/

/-- The closure `isDuplicate` of `iconGenerator`; it reads the variable `color_indexs`. -/
def isDuplicate (color_indexs : List Int) (values : List Int) (index : Int) : Bool :=
  if 0 ≤ indexof values index then
    values.any (fun v => decide (0 ≤ indexof color_indexs v))
  else false

/-- One round of the loop `for i := 0; i < 3; i ++` that fills `color_indexs`;
`ncolors` is `len(avaliableColors)`. -/
def colorIndexStep (hash : String) (ncolors : Int) (color_indexs : List Int) (i : Int) :
    Except Panic (List Int) :=
  match (charAt hash (8 + i)).map ParseInt16 with
  | .error e => .error e
  | .ok _index =>
    let index0 := goMod _index ncolors
    let index :=
      if isDuplicate color_indexs [0, 4] index0 || isDuplicate color_indexs [2, 3] index0
      then 1 else index0
    .ok (color_indexs ++ [index])

/-- The loop `for i := 0; i < 3; i ++` that fills `color_indexs`. -/
def colorIndexes (hash : String) (ncolors : Int) : Except Panic (List Int) :=
  match colorIndexStep hash ncolors [] 0 with
  | .error e => .error e
  | .ok c1 =>
    match colorIndexStep hash ncolors c1 1 with
    | .error e => .error e
    | .ok c2 => colorIndexStep hash ncolors c2 2

/-- The loop `for i := 0; i < len(coords); i ++` of `renderShape`, from round `i` on, with
`r` the current rotation counter. -/
def renderCells (shape : Shape) (x y cell : F32) :
    List (List Int) → Int → Int → Graphics → Except Panic Graphics
  | [], _, _, graphics => .ok graphics
  | coord :: coords, i, r, graphics =>
    match sliceAt coord 0, sliceAt coord 1 with
    | .ok col, .ok row =>
      let transform := Transform_new (x + F32.ofInt col * cell) (y + F32.ofInt row * cell)
        cell (F32.ofInt (goMod r 4))
      let g1 := { graphics with transform := transform }
      match shape g1 cell i with
      | .error e => .error e
      | .ok g2 => renderCells shape x y cell coords (i + 1) (r + 1) g2
    | _, _ => .error indexOutOfRange

/-- The closure `renderShape` of `iconGenerator`; it reads `hash`, `avaliableColors`,
`color_indexs`, `x`, `y`, `cell` and works on `graphics` and the renderer behind it. -/
def renderShape (hash : String) (avaliableColors : List String) (color_indexs : List Int)
    (x y cell : F32) (graphics : Graphics) (colorIndex : Int) (shapes : List Shape)
    (index rota_ind : Int) (coords : List (List Int)) : Except Panic Graphics :=
  match (if 0 < rota_ind then (charAt hash rota_ind).map ParseInt16 else .ok 0) with
  | .error e => .error e
  | .ok r =>
    match (charAt hash index).map ParseInt16 with
    | .error e => .error e
    | .ok shape_ind =>
      if shapes.length = 0 then .error "runtime error: integer divide by zero"
      else
        match sliceAt shapes (goMod shape_ind (shapes.length : Int)) with
        | .error e => .error e
        | .ok shape =>
          match sliceAt color_indexs colorIndex with
          | .error e => .error e
          | .ok ci =>
            match sliceAt avaliableColors ci with
            | .error e => .error e
            | .ok color =>
              let g0 := { graphics with renderer := graphics.renderer.beginShape color }
              match renderCells shape x y cell coords 0 r g0 with
              | .error e => .error e
              | .ok g1 => .ok { g1 with renderer := g1.renderer.endShape color }

open F32 in
/-- The function `iconGenerator`; the result is the renderer it leaves behind, or the
panic. -/
def iconGenerator (renderer : SVGRenderer) (hash : String) (size0 : F32) (config : Config) :
    Except Panic SVGRenderer :=
  if ! matchHex 11 hash then
    if ! matchHex 1 hash then .error "Invalid hash: Not consisted of hex digits."
    else .error "Invalid hash. Too short!"
  else
    let padding := lit 8 100 * size0
    let size := size0 - padding * lit 2 1
    let graphics := Graphics_new renderer
    let cell := size / lit 4 1
    let x := padding + size / lit 2 1 - cell * lit 2 1
    let y := x
    match (strFrom hash ((hash.data.length : Int) - 7)).map ParseInt16 with
    | .error e => .error e
    | .ok _hue =>
      let hue := ofInt _hue / lit 268435455 1
      match colorTheme hue config with
      | .error e => .error e
      | .ok avaliableColors =>
        match colorIndexes hash (avaliableColors.length : Int) with
        | .error e => .error e
        | .ok color_indexs =>
          -- Sides
          match renderShape hash avaliableColors color_indexs x y cell graphics 0
              (shapes "outer") 2 3
              [[1, 0], [2, 0], [2, 3], [1, 3], [0, 1], [3, 1], [3, 2], [0, 2]] with
          | .error e => .error e
          | .ok g1 =>
            -- Corners
            match renderShape hash avaliableColors color_indexs x y cell g1 1
                (shapes "outer") 4 5 [[0, 0], [3, 0], [3, 3], [0, 3]] with
            | .error e => .error e
            | .ok g2 =>
              -- Center
              match renderShape hash avaliableColors color_indexs x y cell g2 2
                  (shapes "center") 1 0 [[1, 1], [2, 1], [2, 2], [1, 2]] with
              | .error e => .error e
              | .ok g3 => .ok g3.renderer


/-! ## Real values of floats, used to state bounds -/

namespace F32

/-- The rational number a finite float stands for (`0` for NaN and the infinities). -/
def toRat : F32 → ℚ
  | fin s m e => (if s then -1 else 1) * (m : ℚ) * (2 : ℚ) ^ e
  | _ => 0

/-- A finite float as a whole number of units of `2^-149`, the spacing of the smallest
floats (every finite float32 is such a multiple); `none` for NaN and the infinities. -/
def toUnits : F32 → Option Int
  | fin s m e => if -149 ≤ e then some (aligned s m e (-149)) else none
  | _ => none

/-- The sum `a + b` is computed without rounding: both operands and the result are finite
and the result is the exact sum. -/
def exactAdd (a b : F32) : Bool :=
  match toUnits a, toUnits b, toUnits (a + b) with
  | some ua, some ub, some us => decide (us = ua + ub)
  | _, _, _ => false

/-- The difference `a - b` is computed without rounding. -/
def exactSub (a b : F32) : Bool :=
  match toUnits a, toUnits b, toUnits (a - b) with
  | some ua, some ub, some us => decide (us = ua - ub)
  | _, _, _ => false

end F32

deriving instance DecidableEq for Except

/-! ## Notions used to state the properties -/

/-- A color string: `#` followed by exactly six hexadecimal digits. -/
def isColorString (s : String) : Bool :=
  match s.data with
  | '#' :: ds => decide (ds.length = 6) && ds.all isHexDigit
  | _ => false

/-- A hash the specification calls valid: at least 11 characters, all of them hexadecimal
digits `0-9`, `a-f`, `A-F`. -/
def ValidHash (hash : String) : Prop :=
  11 ≤ hash.length ∧ ∀ c ∈ hash.data, c ∈ "0123456789abcdefABCDEF".data

instance (hash : String) : Decidable (ValidHash hash) := by
  unfold ValidHash; infer_instance

/-- The rule of the specification for one color index: a candidate in `{0,4}` (or in
`{2,3}`) is replaced by `1` when an index chosen earlier lies in the same set. -/
def specChosenIndex (earlier : List Int) (candidate : Int) : Int :=
  if (candidate ∈ [0, 4] ∧ ∃ k ∈ earlier, k ∈ [0, 4]) ∨
     (candidate ∈ [2, 3] ∧ ∃ k ∈ earlier, k ∈ [2, 3]) then 1
  else candidate

/-- The graphics state `g1` differs from `g` at most in the current path buffer and the
active transform: the recorded paths and the size are the same. -/
def Graphics.Keeps (g g1 : Graphics) : Prop :=
  g1.renderer.pathsByColor = g.renderer.pathsByColor ∧ g1.renderer.size = g.renderer.size

/-- A shape procedure that returns normally on every input and leaves the recorded paths
alone. -/
def ShapeOk (sh : Shape) : Prop :=
  ∀ (g : Graphics) (cell : F32) (i : Int), ∃ g1, sh g cell i = .ok g1 ∧ g.Keeps g1

/-- The corners `addTriangle` starts from, in order. -/
def triangleCorners (x y w h : F32) : List (F32 × F32) :=
  [(x + w, y), (x + w, y + h), (x, y + h), (x, y)]

/-- A list of points as the flat list of coordinates `addPolygon` takes. -/
def flatPoints (ps : List (F32 × F32)) : List F32 :=
  ps.flatMap (fun p => [p.1, p.2])

/-- The hash with the letters `a` to `z` replaced by their capitals. -/
def strToUpper (s : String) : String := String.mk (s.data.map Char.toUpper)

/-- The hash with the letters `A` to `Z` replaced by their small letters. -/
def strToLower (s : String) : String := String.mk (s.data.map Char.toLower)

/-- The side of a grid cell as `iconGenerator` computes it from its argument `size`:
`padding := 0.08 * size; size -= padding * 2; cell := size / 4`. -/
def gridCell (size0 : F32) : F32 :=
  (size0 - F32.lit 8 100 * size0 * F32.lit 2 1) / F32.lit 4 1

/-- The grid origin `x` (and `y`) as `iconGenerator` computes it:
`x = padding + size / 2 - cell * 2`, with `size` already reduced by the padding. -/
def gridOrigin (size0 : F32) : F32 :=
  F32.lit 8 100 * size0 + (size0 - F32.lit 8 100 * size0 * F32.lit 2 1) / F32.lit 2 1 -
    (size0 - F32.lit 8 100 * size0 * F32.lit 2 1) / F32.lit 4 1 * F32.lit 2 1

/-- One invocation of a shape procedure by the loop of `renderShape`: the transform that is
active during the call, and the arguments `cell` and `i` of the call. -/
structure ShapeCall where
  transform : Transform
  cell : F32
  index : Int
deriving DecidableEq, Repr

/-- The invocations the loop of `renderShape` makes for the coordinate pairs `coords`, when
it is entered with the loop counter `i` and the rotation counter `r`. -/
def cellCalls (x y cell : F32) : List (List Int) → Int → Int → List ShapeCall
  | [], _, _ => []
  | coord :: coords, i, r =>
    { transform := Transform_new (x + F32.ofInt (coord.getD 0 0) * cell)
        (y + F32.ofInt (coord.getD 1 0) * cell) cell (F32.ofInt (goMod r 4)),
      cell := cell, index := i } :: cellCalls x y cell coords (i + 1) (r + 1)

/-- Carrying out a list of invocations of one shape procedure, one after the other. -/
def runCalls (shape : Shape) : List ShapeCall → Graphics → Except Panic Graphics
  | [], graphics => .ok graphics
  | call :: calls, graphics =>
    match shape { graphics with transform := call.transform } call.cell call.index with
    | .error e => .error e
    | .ok g2 => runCalls shape calls g2

/-- A flat list of coordinates read as `(x, y)` pairs, in order. -/
def pairsOf : List F32 → List (F32 × F32)
  | a :: b :: rest => (a, b) :: pairsOf rest
  | _ => []

/-- Every addition and subtraction `transformPoint` performs for its result at this input
is exact (finite operands, finite result, no rounding). -/
def Transform.exactAt (t : Transform) (x y : F32) (wh : List F32) : Bool :=
  let right := t.x + t.size
  let bottom := t.y + t.size
  let w := match wh with
    | [w, _] => w
    | _ => F32.zero
  let h := match wh with
    | [_, h] => h
    | _ => F32.zero
  if F32.eq t.rotation (F32.lit 1 1) then
    F32.exactAdd t.x t.size && F32.exactSub right y && F32.exactSub (right - y) h &&
      F32.exactAdd t.y x
  else if F32.eq t.rotation (F32.lit 2 1) then
    F32.exactAdd t.x t.size && F32.exactSub right x && F32.exactSub (right - x) w &&
      F32.exactAdd t.y t.size && F32.exactSub bottom y && F32.exactSub (bottom - y) h
  else if F32.eq t.rotation (F32.lit 3 1) then
    F32.exactAdd t.x y && F32.exactAdd t.y t.size && F32.exactSub bottom x &&
      F32.exactSub (bottom - x) w
  else F32.exactAdd t.x x && F32.exactAdd t.y y

/-- The value of the hex digit at position `i` of the hash, `none` when there is no hex
digit at that position. -/
def hexDigitAt (hash : String) (i : Nat) : Option Nat :=
  (hash.data[i]?).bind hexVal

/-- The coordinate pairs of the sides pass. -/
def sidesCoords : List (List Int) :=
  [[1, 0], [2, 0], [2, 3], [1, 3], [0, 1], [3, 1], [3, 2], [0, 2]]

/-- The coordinate pairs of the corners pass. -/
def cornersCoords : List (List Int) := [[0, 0], [3, 0], [3, 3], [0, 3]]

/-- The coordinate pairs of the center pass. -/
def centerCoords : List (List Int) := [[1, 1], [2, 1], [2, 2], [1, 2]]

/-- The values a run of `iconGenerator` goes through after the validation of the hash:
`_hue`, the hex digits at the positions 1 to 5 of the hash, the palette
`avaliableColors`, the three entries of `color_indexs`, and for the passes sides (0),
corners (1) and center (2) the color and the shape `renderShape` selects and the graphics
state in which the loop of `renderShape` ends, before `endShape`. -/
structure RunTrace where
  hueValue : Nat
  d1 : Nat
  d2 : Nat
  d3 : Nat
  d4 : Nat
  d5 : Nat
  colors : List String
  k0 : Int
  k1 : Int
  k2 : Int
  c0 : String
  c1 : String
  c2 : String
  sh0 : Shape
  sh1 : Shape
  sh2 : Shape
  g1 : Graphics
  g2 : Graphics
  g3 : Graphics

/-- The trace `t` is the one of the run `iconGenerator renderer hash size config`: every
value of `t` is the result of the step of the code that computes it, applied to the values
before it, and the run returns the renderer of the last state. The steps are, in the order
of the code: the parse of the last 7 characters; `colorTheme` at the hue
`float32(_hue) / 0xfffffff`; the loop filling `color_indexs`; and the three calls of
`renderShape`, each with the color `avaliableColors[color_indexs[colorIndex]]`, the shape
`shapes[digit % len(shapes)]`, its loop over the cells (`renderCells`) started from
`beginShape(color)`, and `endShape(color)` after it. -/
structure IsRunTrace (renderer : SVGRenderer) (hash : String) (size : F32) (config : Config)
    (t : RunTrace) : Prop where
  tail : (strFrom hash ((hash.data.length : Int) - 7)).map ParseInt16 = .ok (t.hueValue : Int)
  palette : colorTheme (F32.ofInt (t.hueValue : Int) / F32.lit 268435455 1) config =
    .ok t.colors
  indexes : colorIndexes hash (t.colors.length : Int) = .ok [t.k0, t.k1, t.k2]
  color0 : sliceAt t.colors t.k0 = .ok t.c0
  color1 : sliceAt t.colors t.k1 = .ok t.c1
  color2 : sliceAt t.colors t.k2 = .ok t.c2
  digit1 : hexDigitAt hash 1 = some t.d1
  digit2 : hexDigitAt hash 2 = some t.d2
  digit3 : hexDigitAt hash 3 = some t.d3
  digit4 : hexDigitAt hash 4 = some t.d4
  digit5 : hexDigitAt hash 5 = some t.d5
  shape0 : sliceAt (shapes "outer") (goMod (t.d2 : Int) ((shapes "outer").length : Int)) =
    .ok t.sh0
  shape1 : sliceAt (shapes "outer") (goMod (t.d4 : Int) ((shapes "outer").length : Int)) =
    .ok t.sh1
  shape2 : sliceAt (shapes "center") (goMod (t.d1 : Int) ((shapes "center").length : Int)) =
    .ok t.sh2
  sidesLoop : renderCells t.sh0 (gridOrigin size) (gridOrigin size) (gridCell size)
      sidesCoords 0 (t.d3 : Int)
      { Graphics_new renderer with
        renderer := (Graphics_new renderer).renderer.beginShape t.c0 } = .ok t.g1
  sides : renderShape hash t.colors [t.k0, t.k1, t.k2] (gridOrigin size) (gridOrigin size)
      (gridCell size) (Graphics_new renderer) 0 (shapes "outer") 2 3 sidesCoords =
    .ok { t.g1 with renderer := t.g1.renderer.endShape t.c0 }
  cornersLoop : renderCells t.sh1 (gridOrigin size) (gridOrigin size) (gridCell size)
      cornersCoords 0 (t.d5 : Int)
      { t.g1 with renderer := (t.g1.renderer.endShape t.c0).beginShape t.c1 } = .ok t.g2
  corners : renderShape hash t.colors [t.k0, t.k1, t.k2] (gridOrigin size) (gridOrigin size)
      (gridCell size) { t.g1 with renderer := t.g1.renderer.endShape t.c0 } 1
      (shapes "outer") 4 5 cornersCoords =
    .ok { t.g2 with renderer := t.g2.renderer.endShape t.c1 }
  centerLoop : renderCells t.sh2 (gridOrigin size) (gridOrigin size) (gridCell size)
      centerCoords 0 0
      { t.g2 with renderer := (t.g2.renderer.endShape t.c1).beginShape t.c2 } = .ok t.g3
  center : renderShape hash t.colors [t.k0, t.k1, t.k2] (gridOrigin size) (gridOrigin size)
      (gridCell size) { t.g2 with renderer := t.g2.renderer.endShape t.c1 } 2
      (shapes "center") 1 0 centerCoords =
    .ok { t.g3 with renderer := t.g3.renderer.endShape t.c2 }
  result : iconGenerator renderer hash size config = .ok (t.g3.renderer.endShape t.c2)

/-- The invocations of a pass as the specification words them: the `i`-th coordinate pair
`(col, row)` is drawn with the Transform `(x + col*cell, y + row*cell, cell, (d + i) mod 4)`
and the shape is invoked with `(cell, i)`. -/
def specCellCalls (x y cell : F32) (d : Nat) (coords : List (List Int)) : List ShapeCall :=
  (List.range coords.length).map (fun i =>
    ShapeCall.mk
      (Transform_new (x + F32.ofInt ((coords.getD i []).getD 0 0) * cell)
        (y + F32.ofInt ((coords.getD i []).getD 1 0) * cell) cell
        (F32.ofInt (((d + i) % 4 : Nat) : Int)))
      cell (i : Int))

/-! # Properties -/
namespace F32

theorem bitLenAux_lt (fuel : Nat) : ∀ n, n ≤ fuel → n < 2 ^ bitLenAux fuel n := by
  induction fuel with
  | zero => intro n hn; simp [bitLenAux]; omega
  | succ k ih =>
    intro n hn
    unfold bitLenAux
    split
    · omega
    · have h := ih (n / 2) (by omega)
      rw [pow_succ]; omega

theorem bitLenAux_le (fuel : Nat) : ∀ n, n ≤ fuel → 0 < n → 2 ^ bitLenAux fuel n ≤ 2 * n := by
  induction fuel with
  | zero => intro n hn h0; omega
  | succ k ih =>
    intro n hn h0
    unfold bitLenAux
    rw [if_neg (by omega)]
    by_cases h1 : n / 2 = 0
    · have : n = 1 := by omega
      subst this
      cases k <;> simp [bitLenAux]
    · have h := ih (n / 2) (by omega) (by omega)
      rw [pow_succ]; omega

theorem bitLen_lt (n : Nat) : n < 2 ^ bitLen n := bitLenAux_lt n n le_rfl
theorem bitLen_le (n : Nat) (h : 0 < n) : 2 ^ bitLen n ≤ 2 * n := bitLenAux_le n n le_rfl h

theorem scaled_ratio (n d : Nat) (s : Int) :
    ((scaled n d s).1 : ℚ) / ((scaled n d s).2 : ℚ) = (n : ℚ) / d * (2 : ℚ) ^ s := by
  unfold scaled
  rcases le_total 0 s with h | h
  · obtain ⟨k, rfl⟩ := Int.eq_ofNat_of_zero_le h
    have : (-(k : Int)).toNat = 0 := by omega
    simp [this]
    ring
  · obtain ⟨k, hk⟩ := Int.eq_ofNat_of_zero_le (neg_nonneg.mpr h)
    have hs : s = -(k : Int) := by omega
    subst hs
    have : (-(k : Int)).toNat = 0 := by omega
    simp [this]
    field_simp

end F32

namespace F32

theorem roundRat_norm (n d : Nat) (hn : 0 < n) (hd : 0 < d) (s2 : Int)
    (hs2 : s2 = if (scaled n d (23 - ((bitLen n : Int) - (bitLen d : Int)))).1 /
        (scaled n d (23 - ((bitLen n : Int) - (bitLen d : Int)))).2 < 2 ^ 23
      then 23 - ((bitLen n : Int) - (bitLen d : Int)) + 1
      else 23 - ((bitLen n : Int) - (bitLen d : Int))) :
    2 ^ 23 ≤ (scaled n d s2).1 / (scaled n d s2).2 := by
  split at hs2
  · subst hs2
    have hD : 0 < (scaled n d (23 - ((bitLen n : Int) - (bitLen d : Int)) + 1)).2 := by
      unfold scaled; positivity
    rw [Nat.le_div_iff_mul_le hD]
    have hr := scaled_ratio n d (23 - ((bitLen n : Int) - (bitLen d : Int)) + 1)
    have hDq : (0 : ℚ) < ((scaled n d (23 - ((bitLen n : Int) - (bitLen d : Int)) + 1)).2 : ℚ) := by
      exact_mod_cast hD
    have h1 : (2 : ℚ) ^ (bitLen n) ≤ 2 * n := by exact_mod_cast bitLen_le n hn
    have h2 : (d : ℚ) ≤ 2 ^ (bitLen d) := by exact_mod_cast (bitLen_lt d).le
    have hdq : (0 : ℚ) < d := by exact_mod_cast hd
    have hpn : (0 : ℚ) < 2 ^ (bitLen n) := by positivity
    have key : (2 : ℚ) ^ 23 ≤ (n : ℚ) / d * (2 : ℚ) ^ (23 - ((bitLen n : Int) - (bitLen d : Int)) + 1) := by
      have e1 : (2 : ℚ) ^ (23 - ((bitLen n : Int) - (bitLen d : Int)) + 1)
          = 2 ^ 24 * 2 ^ (bitLen d) / 2 ^ (bitLen n) := by
        have : (23 - ((bitLen n : Int) - (bitLen d : Int)) + 1) = (24 : Int) + (bitLen d : Int) - (bitLen n : Int) := by ring
        rw [this, zpow_sub₀ (by norm_num), zpow_add₀ (by norm_num), zpow_natCast, zpow_natCast]
        norm_num
      rw [e1]
      rw [div_mul_div_comm, le_div_iff₀ (by positivity)]
      nlinarith [mul_le_mul h1 h2 (by positivity) (by positivity)]
    rw [← hr, le_div_iff₀ hDq] at key
    exact_mod_cast key
  · subst hs2
    omega

end F32

namespace F32

theorem two_zpow_pos (e : Int) : (0 : ℚ) < (2 : ℚ) ^ e := by positivity

/-- Upper bounds survive rounding: a value below a float stays below it. -/
theorem roundRat_le (sgn : Bool) (n d : Nat) (e : Int) (hd : 0 < d) (mb : Nat) (eb : Int)
    (hmb : mb < 2 ^ 24) (heb : -149 ≤ eb) (heb2 : eb ≤ 104)
    (hx : (n : ℚ) / d * (2 : ℚ) ^ e ≤ (mb : ℚ) * (2 : ℚ) ^ eb) :
    ∃ m1 e1, roundRat sgn n d e = fin sgn m1 e1 ∧
      (m1 : ℚ) * (2 : ℚ) ^ e1 ≤ (mb : ℚ) * (2 : ℚ) ^ eb := by
  unfold roundRat
  by_cases hn : n = 0
  · rw [if_pos hn]
    exact ⟨0, -149, rfl, by simp; positivity⟩
  rw [if_neg hn]
  have hn0 : 0 < n := Nat.pos_of_ne_zero hn
  dsimp only
  generalize hs2 : (if (scaled n d (23 - ((bitLen n : Int) - (bitLen d : Int)))).1 /
        (scaled n d (23 - ((bitLen n : Int) - (bitLen d : Int)))).2 < 2 ^ 23
      then 23 - ((bitLen n : Int) - (bitLen d : Int)) + 1
      else 23 - ((bitLen n : Int) - (bitLen d : Int))) = s2
  have hnorm := roundRat_norm n d hn0 hd s2 hs2.symm
  generalize hex : max (e - s2) (-149) = ex
  have hex1 : -149 ≤ ex := by rw [← hex]; exact le_max_right _ _
  have hex2 : -149 < ex → e - ex = s2 := by
    intro h
    have : ex = e - s2 := by
      rw [← hex] at h ⊢
      rcases le_total (e - s2) (-149) with h1 | h1
      · rw [max_eq_right h1] at h; omega
      · rw [max_eq_left h1]
    omega
  generalize hN : (scaled n d (e - ex)).1 = N
  generalize hD : (scaled n d (e - ex)).2 = D
  have hDpos : 0 < D := by rw [← hD]; unfold scaled; positivity
  have hDq : (0 : ℚ) < (D : ℚ) := by exact_mod_cast hDpos
  have hr := scaled_ratio n d (e - ex)
  rw [hN, hD] at hr
  have hxe : (n : ℚ) / d * (2 : ℚ) ^ e = (N : ℚ) / D * (2 : ℚ) ^ ex := by
    rw [hr, mul_assoc, ← zpow_add₀ (by norm_num : (2 : ℚ) ≠ 0)]
    congr 2; ring
  rw [hxe] at hx
  have hpex := two_zpow_pos ex
  have hqn : 2 ^ 23 ≤ N / D ∨ ex = -149 := by
    rcases eq_or_lt_of_le hex1 with h | h
    · right; exact h.symm
    · left
      have := hex2 h
      rw [this] at hN hD
      rw [← hN, ← hD]; exact hnorm
  generalize hq : N / D = q at hqn
  generalize hrm : N % D = r
  have hdm : D * q + r = N := by rw [← hq, ← hrm]; exact Nat.div_add_mod N D
  have hrlt : r < D := by rw [← hrm]; exact Nat.mod_lt _ hDpos
  have hNq : (N : ℚ) = D * q + r := by exact_mod_cast hdm.symm
  have hB : (mb : ℚ) * (2 : ℚ) ^ eb < 2 ^ 24 * (2 : ℚ) ^ (104 : Int) := by
    have h1 : (mb : ℚ) < 2 ^ 24 := by exact_mod_cast hmb
    have h2 : (2 : ℚ) ^ eb ≤ (2 : ℚ) ^ (104 : Int) := zpow_le_zpow_right₀ (by norm_num) heb2
    have h3 := two_zpow_pos eb
    calc (mb : ℚ) * (2 : ℚ) ^ eb < 2 ^ 24 * (2 : ℚ) ^ eb := mul_lt_mul_of_pos_right h1 h3
      _ ≤ 2 ^ 24 * (2 : ℚ) ^ (104 : Int) := mul_le_mul_of_nonneg_left h2 (by positivity)
  -- the rounded mantissa stays below the bound
  have hbound : ∀ m : Nat, (m = q ∨ (m = q + 1 ∧ 0 < r)) →
      (m : ℚ) * (2 : ℚ) ^ ex ≤ (mb : ℚ) * (2 : ℚ) ^ eb := by
    intro m hm
    have hqle : (q : ℚ) * (2 : ℚ) ^ ex ≤ (N : ℚ) / D * (2 : ℚ) ^ ex := by
      apply mul_le_mul_of_nonneg_right _ hpex.le
      rw [le_div_iff₀ hDq, hNq]
      have : (0 : ℚ) ≤ r := by positivity
      linarith [mul_comm (q : ℚ) D]
    rcases hm with rfl | ⟨rfl, hr0⟩
    · exact le_trans hqle hx
    · have hqlt : (q : ℚ) * (2 : ℚ) ^ ex < (mb : ℚ) * (2 : ℚ) ^ eb := by
        refine lt_of_lt_of_le ?_ hx
        apply mul_lt_mul_of_pos_right _ hpex
        rw [lt_div_iff₀ hDq, hNq]
        have : (0 : ℚ) < r := by exact_mod_cast hr0
        linarith [mul_comm (q : ℚ) D]
      rcases le_or_lt ex eb with h | h
      · obtain ⟨k, hk⟩ := Int.eq_ofNat_of_zero_le (sub_nonneg.mpr h)
        have hebk : eb = ex + k := by omega
        have e2 : (2 : ℚ) ^ eb = 2 ^ k * (2 : ℚ) ^ ex := by
          rw [hebk, zpow_add₀ (by norm_num), zpow_natCast]; ring
        rw [e2, ← mul_assoc] at hqlt ⊢
        have h4 : (q : ℚ) < (mb : ℚ) * 2 ^ k := lt_of_mul_lt_mul_right hqlt hpex.le
        have h5 : q < mb * 2 ^ k := by exact_mod_cast h4
        have h6 : ((q + 1 : Nat) : ℚ) ≤ ((mb * 2 ^ k : Nat) : ℚ) := by exact_mod_cast h5
        push_cast at h6 ⊢
        exact mul_le_mul_of_nonneg_right h6 hpex.le
      · exfalso
        have hq23 : 2 ^ 23 ≤ q := by
          rcases hqn with h' | h'
          · exact h'
          · omega
        have hq23q : (2 : ℚ) ^ 23 ≤ q := by exact_mod_cast hq23
        have h1 : (mb : ℚ) < 2 ^ 24 := by exact_mod_cast hmb
        have h2 : (2 : ℚ) ^ eb ≤ (2 : ℚ) ^ (ex - 1) :=
          zpow_le_zpow_right₀ (by norm_num) (by omega)
        have h3 : (2 : ℚ) ^ (ex - 1) = (2 : ℚ) ^ ex / 2 := by
          rw [zpow_sub₀ (by norm_num)]; norm_num
        have h4 := two_zpow_pos eb
        have : (mb : ℚ) * (2 : ℚ) ^ eb < 2 ^ 23 * (2 : ℚ) ^ ex := by
          calc (mb : ℚ) * (2 : ℚ) ^ eb < 2 ^ 24 * (2 : ℚ) ^ eb := mul_lt_mul_of_pos_right h1 h4
            _ ≤ 2 ^ 24 * ((2 : ℚ) ^ ex / 2) := by
                rw [← h3]; exact mul_le_mul_of_nonneg_left h2 (by positivity)
            _ = 2 ^ 23 * (2 : ℚ) ^ ex := by ring
        linarith [mul_le_mul_of_nonneg_right hq23q hpex.le]
  generalize hm : (if D < 2 * r ∨ (2 * r = D ∧ q % 2 = 1) then q + 1 else q) = m
  have hmcase : m = q ∨ (m = q + 1 ∧ 0 < r) := by
    rw [← hm]
    split
    · right; refine ⟨rfl, ?_⟩; omega
    · left; rfl
  have hmb' := hbound m hmcase
  have hqm : q ≤ m := by rcases hmcase with h | h <;> omega
  by_cases h24 : m = 2 ^ 24
  · rw [if_pos h24]
    have hval : ((2 ^ 23 : Nat) : ℚ) * (2 : ℚ) ^ (ex + 1) = (m : ℚ) * (2 : ℚ) ^ ex := by
      rw [h24, zpow_add₀ (by norm_num)]; push_cast; ring
    have hlt : ex + 1 ≤ 104 := by
      by_contra hcon
      have h2 : (2 : ℚ) ^ (104 : Int) ≤ (2 : ℚ) ^ ex := zpow_le_zpow_right₀ (by norm_num) (by omega)
      have : (m : ℚ) = 2 ^ 24 := by rw [h24]; push_cast; rfl
      rw [this] at hmb'
      linarith [mul_le_mul_of_nonneg_left h2 (by positivity : (0 : ℚ) ≤ 2 ^ 24)]
    unfold pack
    rw [if_neg (by omega)]
    exact ⟨2 ^ 23, ex + 1, rfl, by rw [hval]; exact hmb'⟩
  · rw [if_neg h24]
    have hlt : ex ≤ 104 := by
      by_contra hcon
      have hq23 : 2 ^ 23 ≤ q := by
        rcases hqn with h' | h'
        · exact h'
        · omega
      have hq23q : (2 : ℚ) ^ 23 ≤ m := by exact_mod_cast le_trans hq23 hqm
      have h2 : (2 : ℚ) ^ (105 : Int) ≤ (2 : ℚ) ^ ex := zpow_le_zpow_right₀ (by norm_num) (by omega)
      have h3 : (2 : ℚ) ^ (105 : Int) = 2 * (2 : ℚ) ^ (104 : Int) := by
        rw [show (105 : Int) = 104 + 1 by norm_num, zpow_add₀ (by norm_num)]; ring
      have h4 : (2 : ℚ) ^ 23 * (2 : ℚ) ^ (105 : Int) ≤ (m : ℚ) * (2 : ℚ) ^ ex :=
        mul_le_mul hq23q h2 (by positivity) (by positivity)
      rw [h3] at h4
      linarith
    unfold pack
    rw [if_neg (by omega)]
    exact ⟨m, ex, rfl, hmb'⟩

end F32

namespace F32

theorem roundRat_zero (sgn : Bool) (d : Nat) (e : Int) : roundRat sgn 0 d e = fin sgn 0 (-149) := by
  simp [roundRat]

theorem lit_1 : lit 1 1 = fin false 8388608 (-23) := by decide
theorem lit_2 : lit 2 1 = fin false 8388608 (-22) := by decide
theorem lit_3 : lit 3 1 = fin false 12582912 (-22) := by decide
theorem lit_6 : lit 6 1 = fin false 12582912 (-21) := by decide
theorem lit_half : lit 5 10 = fin false 8388608 (-24) := by decide
theorem lit_hueDiv : lit 268435455 1 = fin false 8388608 5 := by decide

/-- The value of an aligned mantissa. -/
theorem aligned_val (s : Bool) (m : Nat) (e e0 : Int) (h : e0 ≤ e) :
    ((aligned s m e e0 : Int) : ℚ) * (2 : ℚ) ^ e0 = toRat (fin s m e) := by
  obtain ⟨k, hk⟩ := Int.eq_ofNat_of_zero_le (sub_nonneg.mpr h)
  have he : e = e0 + k := by omega
  subst he
  have hk2 : (e0 + (k : Int) - e0).toNat = k := by omega
  simp only [aligned, toRat, hk2]
  rw [zpow_add₀ (by norm_num), zpow_natCast]
  cases s <;> simp <;> ring

theorem toRat_one : toRat (fin false 8388608 (-23)) = 1 := by
  simp only [toRat]
  rw [show (-23 : Int) = -(23 : ℕ) by norm_num, zpow_neg, zpow_natCast]
  norm_num

/-- A float that is `>= 0` and `<= 1` stands for a number between 0 and 1. -/
theorem unit_of_le (h : F32) (h0 : le zero h = true) (h1 : le h (lit 1 1) = true) :
    ∃ s m e, h = fin s m e ∧ (s = true → m = 0) ∧ (m : ℚ) * (2 : ℚ) ^ e ≤ 1 := by
  rw [lit_1] at h1
  cases h with
  | nan => simp [le, lt, eq, zero] at h0
  | inf b => cases b <;> simp [le, lt, eq, zero] at h0 h1
  | fin s m e =>
    have hsm : s = true → m = 0 := by
      intro hs
      subst hs
      simp only [le, lt, eq, zero, Bool.or_eq_true, decide_eq_true_eq] at h0
      have h0' : aligned false 0 (-149) (min (-149) e) ≤ aligned true m e (min (-149) e) := by
        rcases h0 with h | h
        · exact h.le
        · exact h.le
      simp only [aligned] at h0'
      simp at h0'
      have hp : 0 < 2 ^ (e - min (-149) e).toNat := by positivity
      rcases Nat.eq_zero_or_pos m with hm | hm
      · exact hm
      · exfalso
        have : 0 < m * 2 ^ (e - min (-149) e).toNat := Nat.mul_pos hm hp
        have h3 : (0 : Int) < ((m * 2 ^ (e - min (-149) e).toNat : Nat) : Int) := by exact_mod_cast this
        push_cast at h3
        omega
    refine ⟨s, m, e, rfl, hsm, ?_⟩
    cases s
    · simp only [le, lt, eq, Bool.or_eq_true, decide_eq_true_eq] at h1
      have h1' : aligned false m e (min e (-23)) ≤ aligned false 8388608 (-23) (min e (-23)) := by
        rcases h1 with h | h
        · exact h.le
        · exact h.le
      have hq : ((aligned false m e (min e (-23)) : Int) : ℚ) ≤ ((aligned false 8388608 (-23) (min e (-23)) : Int) : ℚ) := by
        exact_mod_cast h1'
      have hp := two_zpow_pos (min e (-23))
      have h2 := mul_le_mul_of_nonneg_right hq hp.le
      rw [aligned_val _ _ _ _ (min_le_left _ _), aligned_val _ _ _ _ (min_le_right _ _)] at h2
      rw [toRat_one] at h2
      simpa [toRat] using h2
    · rw [hsm rfl]; simp

end F32

namespace F32

theorem toInt_of_le (m : Nat) (e : Int) (b : Nat) (hb : b < 2 ^ 63)
    (h : (m : ℚ) * (2 : ℚ) ^ e < (b : ℚ) + 1) :
    ∃ k : Nat, k ≤ b ∧ toInt (fin false m e) = (k : Int) := by
  have hr := scaled_ratio m 1 e
  have hD : 0 < (scaled m 1 e).2 := by unfold scaled; positivity
  have hDq : (0 : ℚ) < ((scaled m 1 e).2 : ℚ) := by exact_mod_cast hD
  have hle : (scaled m 1 e).1 / (scaled m 1 e).2 ≤ b := by
    have h1 : (((scaled m 1 e).1 / (scaled m 1 e).2 : Nat) : ℚ) ≤
        ((scaled m 1 e).1 : ℚ) / ((scaled m 1 e).2 : ℚ) := Nat.cast_div_le
    rw [hr] at h1
    have h2 : (((scaled m 1 e).1 / (scaled m 1 e).2 : Nat) : ℚ) < (b : ℚ) + 1 := by
      refine lt_of_le_of_lt h1 ?_
      simpa using h
    have h3 : (scaled m 1 e).1 / (scaled m 1 e).2 < b + 1 := by exact_mod_cast h2
    omega
  refine ⟨(scaled m 1 e).1 / (scaled m 1 e).2, hle, ?_⟩
  simp only [toInt, Bool.false_eq_true, if_false]
  rw [if_pos (by omega)]

/-- The index `int(h * 6 + 0.5)` into the corrector table lies in `0..6` whenever the hue
stands for a number between 0 and 1. -/
theorem hueIndex_lt (s : Bool) (m : Nat) (e : Int) (hsm : s = true → m = 0)
    (hle : (m : ℚ) * (2 : ℚ) ^ e ≤ 1) :
    ∃ k : Nat, k ≤ 6 ∧ toInt (fin s m e * lit 6 1 + lit 5 10) = (k : Int) := by
  rw [lit_6, lit_half]
  show ∃ k : Nat, k ≤ 6 ∧ toInt (add (mul (fin s m e) (fin false 12582912 (-21)))
    (fin false 8388608 (-24))) = (k : Int)
  have hpe := two_zpow_pos e
  have c21 : (2 : ℚ) ^ (-21 : Int) = 1 / 2097152 := by
    rw [show (-21 : Int) = -(21 : ℕ) by norm_num, zpow_neg, zpow_natCast]; norm_num
  have c24 : (2 : ℚ) ^ (-24 : Int) = 1 / 16777216 := by
    rw [show (-24 : Int) = -(24 : ℕ) by norm_num, zpow_neg, zpow_natCast]; norm_num
  -- the product
  have hx : ((m * 12582912 : Nat) : ℚ) / ((1 : Nat) : ℚ) * (2 : ℚ) ^ (e + -21) ≤
      ((12582912 : Nat) : ℚ) * (2 : ℚ) ^ (-21 : Int) := by
    rw [zpow_add₀ (by norm_num), c21]
    push_cast
    nlinarith
  obtain ⟨m6, e6, h6, hb6⟩ := roundRat_le (s != false) (m * 12582912) 1 (e + -21) one_pos
    12582912 (-21) (by norm_num) (by norm_num) (by norm_num) hx
  have hs6 : s = true → m6 = 0 := by
    intro hs
    rw [hsm hs, Nat.zero_mul, roundRat_zero] at h6
    injection h6 with _ h _
    exact h.symm
  have hmul : mul (fin s m e) (fin false 12582912 (-21)) = fin s m6 e6 := by
    simp only [mul]
    rw [h6]; cases s <;> rfl
  rw [hmul]
  -- the sum
  have ha1 : (0 : Int) ≤ aligned s m6 e6 (min e6 (-24)) := by
    unfold aligned
    cases s
    · simp
    · simp [hs6 rfl]
  have ha2 : (0 : Int) < aligned false 8388608 (-24) (min e6 (-24)) := by
    unfold aligned
    simp
  have hsum : (0 : Int) < aligned s m6 e6 (min e6 (-24)) + aligned false 8388608 (-24) (min e6 (-24)) := by
    omega
  have hv1 : toRat (fin s m6 e6) ≤ (m6 : ℚ) * (2 : ℚ) ^ e6 := by
    cases s
    · simp [toRat]
    · simp [toRat, hs6 rfl]
  have hx2 : (((aligned s m6 e6 (min e6 (-24)) + aligned false 8388608 (-24) (min e6 (-24))).natAbs : Nat) : ℚ)
      / ((1 : Nat) : ℚ) * (2 : ℚ) ^ (min e6 (-24)) ≤ ((13631488 : Nat) : ℚ) * (2 : ℚ) ^ (-21 : Int) := by
    have habs : (((aligned s m6 e6 (min e6 (-24)) + aligned false 8388608 (-24) (min e6 (-24))).natAbs : Nat) : ℚ)
        = (((aligned s m6 e6 (min e6 (-24)) + aligned false 8388608 (-24) (min e6 (-24)) : Int)) : ℚ) := by
      rw [Nat.cast_natAbs, abs_of_pos hsum]
    rw [habs]
    push_cast
    rw [div_one, add_mul, aligned_val _ _ _ _ (min_le_left _ _), aligned_val _ _ _ _ (min_le_right _ _)]
    have : toRat (fin false 8388608 (-24)) = 1 / 2 := by
      simp only [toRat]; rw [c24]; norm_num
    rw [this, c21]
    rw [c21] at hb6
    push_cast at hb6
    linarith
  obtain ⟨m7, e7, h7, hb7⟩ := roundRat_le false _ 1 (min e6 (-24)) one_pos
    13631488 (-21) (by norm_num) (by norm_num) (by norm_num) hx2
  have hadd : add (fin s m6 e6) (fin false 8388608 (-24)) = fin false m7 e7 := by
    simp only [add]
    rw [if_neg (by omega)]
    rw [← h7]
    congr 1
    simp; omega
  rw [hadd]
  apply toInt_of_le m7 e7 6 (by norm_num)
  rw [c21] at hb7
  push_cast at hb7 ⊢
  linarith

end F32

namespace F32

/-- The hue `float32(v) / 0xfffffff` of a 7-digit value `v` stands for a number between 0
and 1. -/
theorem hue_unit (v : Int) (h0 : 0 ≤ v) (h1 : v < 2 ^ 28) :
    ∃ m e, ofInt v / lit 268435455 1 = fin false m e ∧ (m : ℚ) * (2 : ℚ) ^ e ≤ 1 := by
  rw [lit_hueDiv]
  obtain ⟨n, rfl⟩ := Int.eq_ofNat_of_zero_le h0
  have hn : n < 2 ^ 28 := by exact_mod_cast h1
  have c5 : (2 : ℚ) ^ (5 : Int) = 32 := by
    rw [show (5 : Int) = (5 : ℕ) by norm_num, zpow_natCast]; norm_num
  have c23 : (2 : ℚ) ^ (-23 : Int) = 1 / 8388608 := by
    rw [show (-23 : Int) = -(23 : ℕ) by norm_num, zpow_neg, zpow_natCast]; norm_num
  have hx : ((n : Nat) : ℚ) / ((1 : Nat) : ℚ) * (2 : ℚ) ^ (0 : Int) ≤
      ((8388608 : Nat) : ℚ) * (2 : ℚ) ^ (5 : Int) := by
    rw [c5]
    have : (n : ℚ) < 2 ^ 28 := by exact_mod_cast hn
    norm_num at this ⊢
    linarith
  obtain ⟨ma, ea, ha, hba⟩ := roundRat_le false n 1 0 one_pos 8388608 5 (by norm_num)
    (by norm_num) (by norm_num) hx
  have hof : ofInt (n : Int) = fin false ma ea := by
    unfold ofInt
    rw [← ha]
    congr 1
  rw [hof]
  have hx2 : ((ma : Nat) : ℚ) / ((8388608 : Nat) : ℚ) * (2 : ℚ) ^ (ea - 5) ≤
      ((8388608 : Nat) : ℚ) * (2 : ℚ) ^ (-23 : Int) := by
    rw [zpow_sub₀ (by norm_num), c5, c23]
    rw [c5] at hba
    push_cast at hba ⊢
    have hp := two_zpow_pos ea
    rw [div_mul_div_comm, div_le_iff₀ (by norm_num)]
    linarith
  obtain ⟨mh, eh, hh, hbh⟩ := roundRat_le false ma 8388608 (ea - 5) (by norm_num) 8388608 (-23)
    (by norm_num) (by norm_num) (by norm_num) hx2
  refine ⟨mh, eh, ?_, ?_⟩
  · show div (fin false ma ea) (fin false 8388608 5) = fin false mh eh
    simp only [div]
    rw [if_neg (by norm_num)]
    exact hh
  · rw [c23] at hbh
    push_cast at hbh
    linarith

end F32

theorem decToHex_small : ∀ n : Nat, n < 256 →
    ((decToHex (n : Int)).data.length = 2 ∧ (decToHex (n : Int)).data.all isHexDigit = true) := by
  decide!

theorem decToHex_two (v : Int) :
    ∃ a b : Char, decToHex v = String.mk [a, b] ∧ isHexDigit a = true ∧ isHexDigit b = true := by
  have key : (decToHex v).data.length = 2 ∧ (decToHex v).data.all isHexDigit = true := by
    by_cases h0 : v < 0
    · simp only [decToHex, if_pos h0]; decide
    · by_cases h1 : v < 256
      · obtain ⟨n, rfl⟩ := Int.eq_ofNat_of_zero_le (not_lt.mp h0)
        exact decToHex_small n (by exact_mod_cast h1)
      · have h16 : ¬ v < 16 := by omega
        simp only [decToHex, if_neg h0, if_neg h1, if_neg h16]; decide
  obtain ⟨hl, ha⟩ := key
  rcases hd : (decToHex v).data with _ | ⟨a, _ | ⟨b, _ | ⟨c, r⟩⟩⟩
  · rw [hd] at hl; simp at hl
  · rw [hd] at hl; simp at hl
  · refine ⟨a, b, ?_, ?_, ?_⟩
    · rw [← hd]
    · rw [hd] at ha; simp at ha; exact ha.1
    · rw [hd] at ha; simp at ha; exact ha.2
  · rw [hd] at hl; simp at hl

theorem hueToRgb_two (m1 m2 h : F32) :
    ∃ a b : Char, hueToRgb m1 m2 h = String.mk [a, b] ∧ isHexDigit a = true ∧ isHexDigit b = true := by
  unfold hueToRgb
  exact decToHex_two _

theorem hsl_color (h s l : F32) : isColorString (hsl h s l) = true := by
  unfold hsl
  split
  · obtain ⟨a, b, hab, ha, hb⟩ := decToHex_two (F32.toInt (l * F32.lit 255 1))
    simp only [hab]
    simp [isColorString, ha, hb, String.data_append]
  · obtain ⟨a, b, hab, ha, hb⟩ := hueToRgb_two
      (l * F32.lit 2 1 - (if F32.le l (F32.lit 5 10) = true then l * (s + F32.lit 1 1) else l + s - l * s))
      (if F32.le l (F32.lit 5 10) = true then l * (s + F32.lit 1 1) else l + s - l * s)
      (h * F32.lit 6 1 + F32.lit 2 1)
    obtain ⟨c, d, hcd, hc, hd⟩ := hueToRgb_two
      (l * F32.lit 2 1 - (if F32.le l (F32.lit 5 10) = true then l * (s + F32.lit 1 1) else l + s - l * s))
      (if F32.le l (F32.lit 5 10) = true then l * (s + F32.lit 1 1) else l + s - l * s)
      (h * F32.lit 6 1)
    obtain ⟨e, f, hef, he, hf⟩ := hueToRgb_two
      (l * F32.lit 2 1 - (if F32.le l (F32.lit 5 10) = true then l * (s + F32.lit 1 1) else l + s - l * s))
      (if F32.le l (F32.lit 5 10) = true then l * (s + F32.lit 1 1) else l + s - l * s)
      (h * F32.lit 6 1 - F32.lit 2 1)
    simp only [hab, hcd, hef]
    simp [isColorString, ha, hb, hc, hd, he, hf, String.data_append]

theorem correctedHsl_ok (s : Bool) (m : Nat) (e : Int) (hsm : s = true → m = 0)
    (hle : (m : ℚ) * (2 : ℚ) ^ e ≤ 1) (sat l : F32) :
    ∃ c, correctedHsl (F32.fin s m e) sat l = .ok c ∧ isColorString c = true := by
  obtain ⟨k, hk, hidx⟩ := F32.hueIndex_lt s m e hsm hle
  unfold correctedHsl
  rw [hidx]
  have : ∃ c, sliceAt correctors (k : Int) = .ok c := by
    unfold sliceAt
    rw [if_neg (by omega)]
    have hlen : (k : Int).toNat < correctors.length := by
      simp [correctors]; omega
    rw [List.getElem?_eq_getElem hlen]
    exact ⟨_, rfl⟩
  obtain ⟨c, hc⟩ := this
  rw [hc]
  exact ⟨_, rfl, hsl_color _ _ _⟩

theorem colorTheme_ok (s : Bool) (m : Nat) (e : Int) (hsm : s = true → m = 0)
    (hle : (m : ℚ) * (2 : ℚ) ^ e ≤ 1) (config : Config) :
    ∃ l, colorTheme (F32.fin s m e) config = .ok l ∧ l.length = 5 ∧
      ∀ c ∈ l, isColorString c = true := by
  obtain ⟨c1, h1, hc1⟩ := correctedHsl_ok s m e hsm hle config.saturation
    (config.colorLightness (F32.lit 5 10))
  obtain ⟨c3, h3, hc3⟩ := correctedHsl_ok s m e hsm hle config.saturation
    (config.colorLightness (F32.lit 1 1))
  obtain ⟨c4, h4, hc4⟩ := correctedHsl_ok s m e hsm hle config.saturation
    (config.colorLightness F32.zero)
  unfold colorTheme
  rw [h1]; dsimp only
  rw [h3]; dsimp only
  rw [h4]
  refine ⟨_, rfl, rfl, ?_⟩
  intro c hc
  simp only [List.mem_cons, List.mem_singleton, List.not_mem_nil, or_false] at hc
  rcases hc with rfl | rfl | rfl | rfl | rfl
  · exact hsl_color _ _ _
  · exact hc1
  · exact hsl_color _ _ _
  · exact hc3
  · exact hc4

/-! ## The hash -/

theorem matchHex_iff (n : Nat) (s : String) :
    matchHex n s = true ↔ (∀ c ∈ s.data, isHexDigit c = true) ∧ n ≤ s.data.length := by
  simp [matchHex, List.all_eq_true]

theorem hexVal_of_isHexDigit (c : Char) (h : isHexDigit c = true) :
    ∃ d : Nat, d < 16 ∧ hexVal c = some d := by
  simp only [isHexDigit, Bool.or_eq_true, Bool.and_eq_true, decide_eq_true_eq] at h
  unfold hexVal
  rcases h with (h | h) | h
  · rw [if_pos h]; exact ⟨_, by omega, rfl⟩
  · rw [if_neg (by omega), if_pos h]; exact ⟨_, by omega, rfl⟩
  · rw [if_neg (by omega), if_neg (by omega), if_pos h]; exact ⟨_, by omega, rfl⟩

theorem parseDigits_hex : ∀ (l : List Char) (acc : Nat), (∀ c ∈ l, isHexDigit c = true) →
    ∃ v : Nat, parseDigits l acc = some v ∧ v < (acc + 1) * 16 ^ l.length := by
  intro l
  induction l with
  | nil => intro acc _; exact ⟨acc, rfl, by simp⟩
  | cons c cs ih =>
    intro acc h
    obtain ⟨d, hd, hv⟩ := hexVal_of_isHexDigit c (h c (List.mem_cons_self _ _))
    obtain ⟨v, hp, hlt⟩ := ih (acc * 16 + d) (fun x hx => h x (List.mem_cons_of_mem _ hx))
    refine ⟨v, ?_, ?_⟩
    · simp only [parseDigits, hv]; exact hp
    · refine lt_of_lt_of_le hlt ?_
      rw [List.length_cons, pow_succ]
      have : acc * 16 + d + 1 ≤ (acc + 1) * 16 := by omega
      calc (acc * 16 + d + 1) * 16 ^ cs.length ≤ ((acc + 1) * 16) * 16 ^ cs.length :=
            Nat.mul_le_mul_right _ this
        _ = (acc + 1) * (16 ^ cs.length * 16) := by ring

/-- On a non-empty string of at most 15 hex digits `ParseInt` returns their value. -/
theorem ParseInt16_hex (l : List Char) (hne : l ≠ []) (hlen : l.length ≤ 15)
    (h : ∀ c ∈ l, isHexDigit c = true) :
    ∃ v : Nat, parseDigits l 0 = some v ∧ v < 16 ^ l.length ∧ ParseInt16 (String.mk l) = (v : Int) := by
  obtain ⟨v, hp, hlt⟩ := parseDigits_hex l 0 h
  rw [Nat.zero_add, Nat.one_mul] at hlt
  refine ⟨v, hp, hlt, ?_⟩
  have hv63 : v < 2 ^ 63 := by
    refine lt_of_lt_of_le hlt ?_
    calc 16 ^ l.length ≤ 16 ^ 15 := Nat.pow_le_pow_right (by norm_num) hlen
      _ ≤ 2 ^ 63 := by norm_num
  cases l with
  | nil => exact absurd rfl hne
  | cons c cs =>
    have hc := h c (List.mem_cons_self _ _)
    have hplus : c ≠ '+' := by rintro rfl; simp [isHexDigit] at hc
    have hminus : c ≠ '-' := by rintro rfl; simp [isHexDigit] at hc
    simp only [ParseInt16, if_neg hplus, if_neg hminus, hp]
    rw [if_neg (not_le.mpr hv63)]
    simp

theorem sliceAt_ok {α : Type} (l : List α) (i : Nat) (h : i < l.length) :
    sliceAt l (i : Int) = .ok l[i] := by
  unfold sliceAt
  rw [if_neg (by omega)]
  simp [List.getElem?_eq_getElem h]

theorem charAt_ok (s : String) (i : Nat) (h : i < s.data.length) :
    charAt s (i : Int) = .ok (String.mk [s.data[i]]) := by
  unfold charAt
  rw [sliceAt_ok _ _ h]
  rfl

/-- The value of the hex digit at position `i` of a validated hash. -/
theorem digitAt_ok (s : String) (hs : ∀ c ∈ s.data, isHexDigit c = true) (i : Nat)
    (h : i < s.data.length) :
    ∃ d : Nat, d < 16 ∧ hexVal s.data[i] = some d ∧
      (charAt s (i : Int)).map ParseInt16 = .ok (d : Int) := by
  have hc : isHexDigit s.data[i] = true := hs _ (List.getElem_mem _)
  obtain ⟨v, hp, hlt, hv⟩ := ParseInt16_hex [s.data[i]] (by simp) (by simp)
    (by intro c hc'; simp at hc'; rw [hc']; exact hc)
  obtain ⟨d, hd, hd2⟩ := hexVal_of_isHexDigit _ hc
  have : v = d := by
    simp [parseDigits, hd2] at hp
    exact hp.symm
  subst this
  refine ⟨v, hd, hd2, ?_⟩
  rw [charAt_ok s i h]
  simp only [Except.map, hv]

theorem strFrom_ok (s : String) (k : Nat) (h : k ≤ s.data.length) :
    strFrom s ((s.data.length : Int) - k) = .ok (String.mk (s.data.drop (s.data.length - k))) := by
  unfold strFrom
  rw [if_neg (by omega)]
  congr 3
  omega

/-- The value read from the last seven digits of a validated hash. -/
theorem tailValue_ok (s : String) (hs : ∀ c ∈ s.data, isHexDigit c = true)
    (h : 7 ≤ s.data.length) :
    ∃ v : Nat, v < 2 ^ 28 ∧ (strFrom s ((s.data.length : Int) - 7)).map ParseInt16 = .ok (v : Int) := by
  have := strFrom_ok s 7 h
  simp only [Nat.cast_ofNat] at this
  rw [this]
  have hl : (s.data.drop (s.data.length - 7)).length = 7 := by
    rw [List.length_drop]; omega
  obtain ⟨v, _, hlt, hv⟩ := ParseInt16_hex (s.data.drop (s.data.length - 7))
    (by intro hn; rw [hn] at hl; simp at hl) (by omega)
    (fun c hc => hs c (List.mem_of_mem_drop hc))
  rw [hl] at hlt
  exact ⟨v, by norm_num at hlt ⊢; exact hlt, by simp only [Except.map, hv]⟩

/-! ## Color indices -/

theorem indexofFrom_nonneg_iff (l : List Int) (v : Int) : ∀ p : Int, 0 ≤ p →
    (0 ≤ indexofFrom l v p ↔ v ∈ l) := by
  induction l with
  | nil => intro p _; simp [indexofFrom]
  | cons a rest ih =>
    intro p hp
    unfold indexofFrom
    by_cases h : a = v
    · rw [if_pos h]; simp [h, hp]
    · rw [if_neg h, ih (p + 1) (by omega)]
      simp only [List.mem_cons]
      constructor
      · intro hm; exact Or.inr hm
      · rintro (hm | hm)
        · exact absurd hm.symm h
        · exact hm

theorem indexof_nonneg_iff (l : List Int) (v : Int) : 0 ≤ indexof l v ↔ v ∈ l :=
  indexofFrom_nonneg_iff l v 0 le_rfl

theorem isDuplicate_iff (cs values : List Int) (index : Int) :
    isDuplicate cs values index = true ↔ index ∈ values ∧ ∃ k ∈ cs, k ∈ values := by
  unfold isDuplicate
  by_cases h : 0 ≤ indexof values index
  · rw [if_pos h]
    simp only [List.any_eq_true, decide_eq_true_eq, indexof_nonneg_iff]
    rw [indexof_nonneg_iff] at h
    constructor
    · rintro ⟨x, hx, hxc⟩; exact ⟨h, x, hxc, hx⟩
    · rintro ⟨_, k, hk, hkv⟩; exact ⟨k, hkv, hk⟩
  · rw [if_neg h]
    rw [indexof_nonneg_iff] at h
    simp [h]

/-- One round of the color-index loop follows the rule of the specification. -/
theorem colorIndexStep_spec (hash : String) (hs : ∀ c ∈ hash.data, isHexDigit c = true)
    (cs : List Int) (i : Nat) (h : 8 + i < hash.data.length) :
    ∃ d : Nat, d < 16 ∧ hexVal hash.data[8 + i] = some d ∧
      colorIndexStep hash 5 cs (i : Int) = .ok (cs ++ [specChosenIndex cs ((d % 5 : Nat) : Int)]) := by
  obtain ⟨d, hd, hv, hp⟩ := digitAt_ok hash hs (8 + i) h
  refine ⟨d, hd, hv, ?_⟩
  unfold colorIndexStep
  have : (8 : Int) + (i : Int) = ((8 + i : Nat) : Int) := by push_cast; ring
  rw [this, hp]
  simp only [goMod]
  have hm : Int.tmod (d : Int) 5 = ((d % 5 : Nat) : Int) := (Int.ofNat_tmod d 5).symm
  rw [hm]
  congr 2
  unfold specChosenIndex
  have e1 := isDuplicate_iff cs [0, 4] ((d % 5 : Nat) : Int)
  have e2 := isDuplicate_iff cs [2, 3] ((d % 5 : Nat) : Int)
  by_cases c1 : isDuplicate cs [0, 4] ((d % 5 : Nat) : Int) = true
  · rw [if_pos (by rw [c1]; rfl), if_pos (Or.inl (e1.mp c1))]
  · by_cases c2 : isDuplicate cs [2, 3] ((d % 5 : Nat) : Int) = true
    · rw [if_pos (by rw [c2, Bool.or_true]), if_pos (Or.inr (e2.mp c2))]
    · have n1 : ¬ (((d % 5 : Nat) : Int) ∈ [0, 4] ∧ ∃ k ∈ cs, k ∈ [0, 4]) := fun hh => c1 (e1.mpr hh)
      have n2 : ¬ (((d % 5 : Nat) : Int) ∈ [2, 3] ∧ ∃ k ∈ cs, k ∈ [2, 3]) := fun hh => c2 (e2.mpr hh)
      rw [Bool.not_eq_true] at c1 c2
      rw [if_neg (by rw [c1, c2]; decide), if_neg]
      rintro (hh | hh)
      · exact n1 hh
      · exact n2 hh

theorem specChosenIndex_range (cs : List Int) (k : Int) (h0 : 0 ≤ k) (h5 : k < 5) :
    0 ≤ specChosenIndex cs k ∧ specChosenIndex cs k < 5 := by
  unfold specChosenIndex
  split <;> omega

/-- The three color indices of a validated hash. -/
theorem colorIndexes_ok (hash : String) (hs : ∀ c ∈ hash.data, isHexDigit c = true)
    (hl : 11 ≤ hash.data.length) :
    ∃ d0 d1 d2 : Nat, hexVal (hash.data[8]) = some d0 ∧ hexVal (hash.data[9]) = some d1 ∧
      hexVal (hash.data[10]) = some d2 ∧
      colorIndexes hash 5 =
        .ok [specChosenIndex [] ((d0 % 5 : Nat) : Int),
             specChosenIndex [specChosenIndex [] ((d0 % 5 : Nat) : Int)] ((d1 % 5 : Nat) : Int),
             specChosenIndex [specChosenIndex [] ((d0 % 5 : Nat) : Int),
               specChosenIndex [specChosenIndex [] ((d0 % 5 : Nat) : Int)] ((d1 % 5 : Nat) : Int)]
               ((d2 % 5 : Nat) : Int)] := by
  obtain ⟨d0, _, hv0, h0⟩ := colorIndexStep_spec hash hs [] 0 (by omega)
  obtain ⟨d1, _, hv1, h1⟩ := colorIndexStep_spec hash hs
    [specChosenIndex [] ((d0 % 5 : Nat) : Int)] 1 (by omega)
  obtain ⟨d2, _, hv2, h2⟩ := colorIndexStep_spec hash hs
    [specChosenIndex [] ((d0 % 5 : Nat) : Int),
     specChosenIndex [specChosenIndex [] ((d0 % 5 : Nat) : Int)] ((d1 % 5 : Nat) : Int)] 2 (by omega)
  refine ⟨d0, d1, d2, hv0, hv1, hv2, ?_⟩
  unfold colorIndexes
  simp only [Nat.cast_zero, Nat.cast_one, Nat.cast_ofNat, List.nil_append, List.cons_append] at h0 h1 h2
  rw [h0]; dsimp only
  rw [h1]; dsimp only
  rw [h2]

/-! ## Graphics -/

theorem Graphics.Keeps.refl (g : Graphics) : g.Keeps g := ⟨rfl, rfl⟩

theorem Graphics.Keeps.trans {g g1 g2 : Graphics} (h1 : g.Keeps g1) (h2 : g1.Keeps g2) :
    g.Keeps g2 := ⟨h2.1.trans h1.1, h2.2.trans h1.2⟩

theorem addPolygonLoop_ok (t : Transform) (points : List F32) (di : Int)
    (hlen : points.length % 2 = 0) (hdi : di % 2 = 0) :
    ∀ (fuel : Nat) (i : Int) (acc : List Point), i % 2 = 0 →
      ∃ res, Graphics.addPolygonLoop t points di fuel i acc = .ok res ∧ acc.length ≤ res.length := by
  intro fuel
  induction fuel with
  | zero => intro i acc _; exact ⟨acc, rfl, le_rfl⟩
  | succ k ih =>
    intro i acc hi
    unfold Graphics.addPolygonLoop
    by_cases hc : i < (points.length : Int) ∧ 0 ≤ i
    · rw [if_pos hc]
      obtain ⟨n, rfl⟩ := Int.eq_ofNat_of_zero_le hc.2
      have hn : n < points.length := by omega
      have hn1 : n + 1 < points.length := by omega
      have e1 : ((n : Int) + 1) = ((n + 1 : Nat) : Int) := by push_cast; ring
      rw [sliceAt_ok points n hn, e1, sliceAt_ok points (n + 1) hn1]
      dsimp only
      obtain ⟨res, hres, hl⟩ := ih ((n : Int) + di)
        (acc ++ [t.transformPoint points[n] points[n + 1] []]) (by omega)
      refine ⟨res, hres, ?_⟩
      rw [List.length_append] at hl
      omega
    · rw [if_neg hc]
      exact ⟨acc, rfl, le_rfl⟩

/-- A polygon with an even, positive number of coordinates is drawn without a panic. -/
theorem addPolygon_ok (g : Graphics) (points : List F32) (invert : Bool)
    (hlen : points.length % 2 = 0) (hpos : 0 < points.length) :
    ∃ g1, g.addPolygon points invert = .ok g1 ∧ g.Keeps g1 := by
  unfold Graphics.addPolygon
  dsimp only
  have hdi : (if invert = true then (-2 : Int) else 2) % 2 = 0 := by cases invert <;> decide
  have hi : (if invert = true then (points.length : Int) - 2 else 0) % 2 = 0 := by
    cases invert
    · simp
    · simp only [if_true]; omega
  have hin : (if invert = true then (points.length : Int) - 2 else 0) < (points.length : Int) ∧
      0 ≤ (if invert = true then (points.length : Int) - 2 else 0) := by
    cases invert
    · simp only [Bool.false_eq_true, if_false]; omega
    · simp only [if_true]; omega
  generalize (if invert = true then (-2 : Int) else 2) = di at hdi ⊢
  generalize (if invert = true then (points.length : Int) - 2 else 0) = i0 at hi hin ⊢
  -- the first round of the loop runs
  have hfirst : ∃ res, Graphics.addPolygonLoop g.transform points di (points.length + 1) i0 []
      = .ok res ∧ 1 ≤ res.length := by
    unfold Graphics.addPolygonLoop
    rw [if_pos hin]
    obtain ⟨n, rfl⟩ := Int.eq_ofNat_of_zero_le hin.2
    have hn : n < points.length := by omega
    have hn1 : n + 1 < points.length := by omega
    have e1 : ((n : Int) + 1) = ((n + 1 : Nat) : Int) := by push_cast; ring
    rw [sliceAt_ok points n hn, e1, sliceAt_ok points (n + 1) hn1]
    dsimp only
    obtain ⟨res, hres, hl⟩ := addPolygonLoop_ok g.transform points di hlen hdi points.length
      ((n : Int) + di) ([] ++ [g.transform.transformPoint points[n] points[n + 1] []]) (by omega)
    exact ⟨res, hres, by simpa using hl⟩
  obtain ⟨res, hres, hl⟩ := hfirst
  rw [hres]
  dsimp only
  cases res with
  | nil => simp at hl
  | cons p rest =>
    simp only [SVGRenderer.addPolygon, SVGPath.addPolygon, Except.map]
    exact ⟨_, rfl, rfl, rfl⟩

theorem addCircle_ok (g : Graphics) (x y size : F32) (invert : Bool) :
    g.Keeps (g.addCircle x y size invert) := ⟨rfl, rfl⟩

theorem addRectangle_ok (g : Graphics) (x y w h : F32) (invert : Bool) :
    ∃ g1, g.addRectangle x y w h invert = .ok g1 ∧ g.Keeps g1 :=
  addPolygon_ok g _ invert (by simp) (by simp)

theorem addRhombus_ok (g : Graphics) (x y w h : F32) (invert : Bool) :
    ∃ g1, g.addRhombus x y w h invert = .ok g1 ∧ g.Keeps g1 :=
  addPolygon_ok g _ invert (by simp) (by simp)

/-- The list `addTriangle` forwards: the corners without the one at position
`int(r) % 4`. -/
theorem trianglePoints_eq (x y w h r : F32) (k : Nat) (hk : k < 4)
    (hr : goMod (F32.toInt r) 4 = (k : Int)) :
    trianglePoints x y w h r = .ok (flatPoints ((triangleCorners x y w h).eraseIdx k)) := by
  unfold trianglePoints
  rw [hr]
  interval_cases k <;> rfl

theorem addTriangle_ok (g : Graphics) (x y w h r : F32) (invert : Bool) (k : Nat) (hk : k < 4)
    (hr : goMod (F32.toInt r) 4 = (k : Int)) :
    ∃ g1, g.addTriangle x y w h r invert = .ok g1 ∧ g.Keeps g1 := by
  unfold Graphics.addTriangle
  rw [trianglePoints_eq x y w h r k hk hr]
  dsimp only
  apply addPolygon_ok
  · interval_cases k <;> simp [flatPoints, triangleCorners]
  · interval_cases k <;> simp [flatPoints, triangleCorners]

theorem goMod_lit0 : goMod (F32.toInt F32.zero) 4 = ((0 : Nat) : Int) := by decide
theorem goMod_lit1 : goMod (F32.toInt (F32.lit 1 1)) 4 = ((1 : Nat) : Int) := by decide
theorem goMod_lit2 : goMod (F32.toInt (F32.lit 2 1)) 4 = ((2 : Nat) : Int) := by decide
theorem goMod_lit3 : goMod (F32.toInt (F32.lit 3 1)) 4 = ((3 : Nat) : Int) := by decide

/-! ## The shape catalog never panics -/

theorem addPolygon_after (g0 g : Graphics) (hk : g0.Keeps g) (points : List F32)
    (invert : Bool) (hlen : points.length % 2 = 0) (hpos : 0 < points.length) :
    ∃ g1, g.addPolygon points invert = .ok g1 ∧ g0.Keeps g1 := by
  obtain ⟨g1, h1, k1⟩ := addPolygon_ok g points invert hlen hpos
  exact ⟨g1, h1, hk.trans k1⟩

theorem addRectangle_after (g0 g : Graphics) (hk : g0.Keeps g) (x y w h : F32)
    (invert : Bool) : ∃ g1, g.addRectangle x y w h invert = .ok g1 ∧ g0.Keeps g1 := by
  obtain ⟨g1, h1, k1⟩ := addRectangle_ok g x y w h invert
  exact ⟨g1, h1, hk.trans k1⟩

theorem addRhombus_after (g0 g : Graphics) (hk : g0.Keeps g) (x y w h : F32)
    (invert : Bool) : ∃ g1, g.addRhombus x y w h invert = .ok g1 ∧ g0.Keeps g1 := by
  obtain ⟨g1, h1, k1⟩ := addRhombus_ok g x y w h invert
  exact ⟨g1, h1, hk.trans k1⟩

theorem addTriangle_after (g0 g : Graphics) (hk : g0.Keeps g) (x y w h r : F32)
    (invert : Bool) (k : Nat) (hk4 : k < 4) (hr : goMod (F32.toInt r) 4 = (k : Int)) :
    ∃ g1, g.addTriangle x y w h r invert = .ok g1 ∧ g0.Keeps g1 := by
  obtain ⟨g1, h1, k1⟩ := addTriangle_ok g x y w h r invert k hk4 hr
  exact ⟨g1, h1, hk.trans k1⟩

theorem shapesCenter_ok : ∀ sh ∈ shapesCenter, ShapeOk sh := by
  intro sh hsh
  simp only [shapesCenter, List.mem_cons, List.mem_singleton, List.not_mem_nil, or_false] at hsh
  rcases hsh with rfl | rfl | rfl | rfl | rfl | rfl | rfl | rfl | rfl | rfl | rfl | rfl | rfl | rfl
  · intro g cell i
    exact addPolygon_ok _ _ _ (by simp) (by simp)
  · intro g cell i
    exact addTriangle_ok _ _ _ _ _ _ _ 2 (by norm_num) goMod_lit2
  · intro g cell i
    exact addRectangle_ok _ _ _ _ _ _
  · intro g cell i
    exact addRectangle_ok _ _ _ _ _ _
  · intro g cell i
    exact ⟨_, rfl, addCircle_ok _ _ _ _ _⟩
  · intro g cell i
    dsimp only
    obtain ⟨g1, h1, k1⟩ := addRectangle_ok g F32.zero F32.zero cell cell false
    rw [h1]
    exact addPolygon_after g g1 k1 _ _ (by simp) (by simp)
  · intro g cell i
    exact addPolygon_ok _ _ _ (by simp) (by simp)
  · intro g cell i
    exact addTriangle_ok _ _ _ _ _ _ _ 3 (by norm_num) goMod_lit3
  · intro g cell i
    dsimp only
    obtain ⟨g1, h1, k1⟩ := addRectangle_ok g F32.zero F32.zero cell (cell / F32.lit 2 1) false
    rw [h1]
    dsimp only
    obtain ⟨g2, h2, k2⟩ := addRectangle_after g g1 k1 F32.zero (cell / F32.lit 2 1)
      (cell / F32.lit 2 1) (cell / F32.lit 2 1) false
    rw [h2]
    exact addTriangle_after g g2 k2 _ _ _ _ _ _ 1 (by norm_num) goMod_lit1
  · intro g cell i
    dsimp only
    obtain ⟨g1, h1, k1⟩ := addRectangle_ok g F32.zero F32.zero cell cell false
    rw [h1]
    exact addRectangle_after g g1 k1 _ _ _ _ _
  · intro g cell i
    dsimp only
    obtain ⟨g1, h1, k1⟩ := addRectangle_ok g F32.zero F32.zero cell cell false
    rw [h1]
    exact ⟨_, rfl, k1.trans (addCircle_ok _ _ _ _ _)⟩
  · intro g cell i
    exact addTriangle_ok _ _ _ _ _ _ _ 3 (by norm_num) goMod_lit3
  · intro g cell i
    dsimp only
    obtain ⟨g1, h1, k1⟩ := addRectangle_ok g F32.zero F32.zero cell cell false
    rw [h1]
    exact addRhombus_after g g1 k1 _ _ _ _ _
  · intro g cell i
    dsimp only
    split
    · exact ⟨_, rfl, addCircle_ok _ _ _ _ _⟩
    · exact ⟨_, rfl, Graphics.Keeps.refl _⟩

theorem shapesOuter_ok : ∀ sh ∈ shapesOuter, ShapeOk sh := by
  intro sh hsh
  simp only [shapesOuter, List.mem_cons, List.mem_singleton, List.not_mem_nil, or_false] at hsh
  rcases hsh with rfl | rfl | rfl | rfl
  · intro g cell i
    exact addTriangle_ok _ _ _ _ _ _ _ 0 (by norm_num) goMod_lit0
  · intro g cell i
    exact addTriangle_ok _ _ _ _ _ _ _ 0 (by norm_num) goMod_lit0
  · intro g cell i
    exact addRhombus_ok _ _ _ _ _ _
  · intro g cell i
    exact ⟨_, rfl, addCircle_ok _ _ _ _ _⟩

theorem renderCells_ok (sh : Shape) (hsh : ShapeOk sh) (x y cell : F32) :
    ∀ (coords : List (List Int)), (∀ coord ∈ coords, 2 ≤ coord.length) →
      ∀ (i r : Int) (g : Graphics),
        ∃ g1, renderCells sh x y cell coords i r g = .ok g1 ∧ g.Keeps g1 := by
  intro coords
  induction coords with
  | nil => intro _ i r g; exact ⟨g, rfl, Graphics.Keeps.refl g⟩
  | cons coord cs ih =>
    intro hc i r g
    have hlen := hc coord (List.mem_cons_self _ _)
    have hl0 : 0 < coord.length := by omega
    have hl1 : 1 < coord.length := by omega
    have h0 : sliceAt coord 0 = .ok coord[0] := by exact_mod_cast sliceAt_ok coord 0 hl0
    have h1 : sliceAt coord 1 = .ok coord[1] := by exact_mod_cast sliceAt_ok coord 1 hl1
    unfold renderCells
    rw [h0, h1]
    dsimp only
    obtain ⟨g2, hg2, k2⟩ := hsh
      { g with transform := (Transform_new (x + F32.ofInt coord[0] * cell)
          (y + F32.ofInt coord[1] * cell) cell (F32.ofInt (goMod r 4))) } cell i
    rw [hg2]
    dsimp only
    obtain ⟨g3, hg3, k3⟩ := ih (fun c1 hc1 => hc c1 (List.mem_cons_of_mem _ hc1)) (i + 1) (r + 1) g2
    exact ⟨g3, hg3, Graphics.Keeps.trans (Graphics.Keeps.trans ⟨rfl, rfl⟩ k2) k3⟩

/-- One pass of `iconGenerator` on a validated hash records one path under the color of the
pass and does nothing else to the renderer. -/
theorem renderShape_ok (hash : String) (hs : ∀ c ∈ hash.data, isHexDigit c = true)
    (colors : List String) (cis : List Int) (x y cell : F32) (g : Graphics)
    (colorIndex : Int) (shapes : List Shape) (hshapes : ∀ sh ∈ shapes, ShapeOk sh)
    (hne : shapes ≠ []) (index rota : Nat) (hindex : index < hash.data.length)
    (hrota : rota < hash.data.length) (coords : List (List Int))
    (hcoords : ∀ coord ∈ coords, 2 ≤ coord.length) (ci : Int) (color : String)
    (hci : sliceAt cis colorIndex = .ok ci) (hcolor : sliceAt colors ci = .ok color) :
    ∃ g1 p, renderShape hash colors cis x y cell g colorIndex shapes (index : Int) (rota : Int)
        coords = .ok g1 ∧
      g1.renderer.pathsByColor = mapSet g.renderer.pathsByColor color p ∧
      g1.renderer.size = g.renderer.size := by
  unfold renderShape
  have hr : ∃ r, (if 0 < (rota : Int) then (charAt hash (rota : Int)).map ParseInt16 else .ok 0)
      = Except.ok r := by
    split
    · obtain ⟨d, _, _, hd⟩ := digitAt_ok hash hs rota hrota
      exact ⟨_, hd⟩
    · exact ⟨_, rfl⟩
  obtain ⟨r, hr⟩ := hr
  rw [hr]
  dsimp only
  obtain ⟨d, _, _, hd⟩ := digitAt_ok hash hs index hindex
  rw [hd]
  dsimp only
  have hlen : 0 < shapes.length := List.length_pos.mpr hne
  rw [if_neg (by omega)]
  have hm : goMod (d : Int) (shapes.length : Int) = ((d % shapes.length : Nat) : Int) :=
    (Int.ofNat_tmod d shapes.length).symm
  have hb : d % shapes.length < shapes.length := Nat.mod_lt _ hlen
  rw [hm, sliceAt_ok shapes _ hb]
  dsimp only
  rw [hci]
  dsimp only
  rw [hcolor]
  dsimp only
  obtain ⟨g1, hg1, k1⟩ := renderCells_ok (shapes[d % shapes.length])
    (hshapes _ (List.getElem_mem _)) x y cell coords hcoords 0 r
    { g with renderer := g.renderer.beginShape color }
  rw [hg1]
  refine ⟨_, g1.renderer.path, rfl, ?_, ?_⟩
  · show mapSet g1.renderer.pathsByColor color g1.renderer.path = _
    rw [k1.1]; rfl
  · show g1.renderer.size = _
    rw [k1.2]; rfl

/-! ## The generator on a validated hash -/

theorem sliceAt_range {α : Type} (l : List α) (k : Int) (h0 : 0 ≤ k) (h1 : k < (l.length : Int)) :
    ∃ a, sliceAt l k = .ok a ∧ a ∈ l := by
  obtain ⟨n, rfl⟩ := Int.eq_ofNat_of_zero_le h0
  have hn : n < l.length := by omega
  exact ⟨l[n], sliceAt_ok l n hn, List.getElem_mem _⟩

/-- What `iconGenerator` does on a validated hash: it returns normally, and the renderer it
leaves has received three paths, under the colors selected for sides, corners and center, in
that order. -/
theorem iconGenerator_ok (renderer : SVGRenderer) (hash : String) (size : F32)
    (config : Config) (hv : matchHex 11 hash = true) :
    ∃ (r : SVGRenderer) (colors : List String) (k0 k1 k2 : Int) (c0 c1 c2 : String)
      (p0 p1 p2 : SVGPath),
      iconGenerator renderer hash size config = .ok r ∧
      colors.length = 5 ∧ (∀ c ∈ colors, isColorString c = true) ∧
      colorIndexes hash 5 = .ok [k0, k1, k2] ∧
      sliceAt colors k0 = .ok c0 ∧ sliceAt colors k1 = .ok c1 ∧ sliceAt colors k2 = .ok c2 ∧
      r.pathsByColor = mapSet (mapSet (mapSet renderer.pathsByColor c0 p0) c1 p1) c2 p2 ∧
      r.size = renderer.size := by
  obtain ⟨hs, hl⟩ := (matchHex_iff 11 hash).mp hv
  obtain ⟨v, hv28, htail⟩ := tailValue_ok hash hs (by omega)
  obtain ⟨mh, eh, hhue, hunit⟩ := F32.hue_unit (v : Int) (by omega) (by exact_mod_cast hv28)
  obtain ⟨colors, hcolors, hlen, hcol⟩ := colorTheme_ok false mh eh (by simp) hunit config
  obtain ⟨d0, d1, d2, _, _, _, hci⟩ := colorIndexes_ok hash hs hl
  generalize hk0 : specChosenIndex [] ((d0 % 5 : Nat) : Int) = k0 at hci
  generalize hk1 : specChosenIndex [k0] ((d1 % 5 : Nat) : Int) = k1 at hci
  generalize hk2 : specChosenIndex [k0, k1] ((d2 % 5 : Nat) : Int) = k2 at hci
  have r0 := specChosenIndex_range [] ((d0 % 5 : Nat) : Int) (by omega) (by omega)
  have r1 := specChosenIndex_range [k0] ((d1 % 5 : Nat) : Int) (by omega) (by omega)
  have r2 := specChosenIndex_range [k0, k1] ((d2 % 5 : Nat) : Int) (by omega) (by omega)
  rw [hk0] at r0
  rw [hk1] at r1
  rw [hk2] at r2
  obtain ⟨c0, hc0, _⟩ := sliceAt_range colors k0 r0.1 (by rw [hlen]; exact_mod_cast r0.2)
  obtain ⟨c1, hc1, _⟩ := sliceAt_range colors k1 r1.1 (by rw [hlen]; exact_mod_cast r1.2)
  obtain ⟨c2, hc2, _⟩ := sliceAt_range colors k2 r2.1 (by rw [hlen]; exact_mod_cast r2.2)
  have houter : ∀ sh ∈ shapes "outer", ShapeOk sh := shapesOuter_ok
  have hcenter : ∀ sh ∈ shapes "center", ShapeOk sh := shapesCenter_ok
  have nouter : shapes "outer" ≠ [] := by simp [shapes, shapesOuter]
  have ncenter : shapes "center" ≠ [] := by simp [shapes, shapesCenter]
  have e0 : sliceAt [k0, k1, k2] 0 = .ok k0 := rfl
  have e1 : sliceAt [k0, k1, k2] 1 = .ok k1 := rfl
  have e2 : sliceAt [k0, k1, k2] 2 = .ok k2 := rfl
  unfold iconGenerator
  rw [hv]
  simp only [Bool.not_true, Bool.false_eq_true, if_false]
  rw [htail]
  dsimp only
  rw [hhue, hcolors]
  dsimp only
  have hlen5 : (colors.length : Int) = 5 := by rw [hlen]; rfl
  rw [hlen5, hci]
  dsimp only
  obtain ⟨g1, p0, h1, hp1, hs1⟩ := renderShape_ok hash hs colors [k0, k1, k2]
    (F32.lit 8 100 * size + (size - F32.lit 8 100 * size * F32.lit 2 1) / F32.lit 2 1 -
      (size - F32.lit 8 100 * size * F32.lit 2 1) / F32.lit 4 1 * F32.lit 2 1)
    (F32.lit 8 100 * size + (size - F32.lit 8 100 * size * F32.lit 2 1) / F32.lit 2 1 -
      (size - F32.lit 8 100 * size * F32.lit 2 1) / F32.lit 4 1 * F32.lit 2 1)
    ((size - F32.lit 8 100 * size * F32.lit 2 1) / F32.lit 4 1)
    (Graphics_new renderer) 0 (shapes "outer") houter nouter 2 3 (by omega) (by omega)
    [[1, 0], [2, 0], [2, 3], [1, 3], [0, 1], [3, 1], [3, 2], [0, 2]] (by decide) k0 c0 e0 hc0
  simp only [Nat.cast_ofNat] at h1
  rw [h1]
  dsimp only
  obtain ⟨g2, p1, h2, hp2, hs2⟩ := renderShape_ok hash hs colors [k0, k1, k2]
    (F32.lit 8 100 * size + (size - F32.lit 8 100 * size * F32.lit 2 1) / F32.lit 2 1 -
      (size - F32.lit 8 100 * size * F32.lit 2 1) / F32.lit 4 1 * F32.lit 2 1)
    (F32.lit 8 100 * size + (size - F32.lit 8 100 * size * F32.lit 2 1) / F32.lit 2 1 -
      (size - F32.lit 8 100 * size * F32.lit 2 1) / F32.lit 4 1 * F32.lit 2 1)
    ((size - F32.lit 8 100 * size * F32.lit 2 1) / F32.lit 4 1)
    g1 1 (shapes "outer") houter nouter 4 5 (by omega) (by omega)
    [[0, 0], [3, 0], [3, 3], [0, 3]] (by decide) k1 c1 e1 hc1
  simp only [Nat.cast_ofNat] at h2
  rw [h2]
  dsimp only
  obtain ⟨g3, p2, h3, hp3, hs3⟩ := renderShape_ok hash hs colors [k0, k1, k2]
    (F32.lit 8 100 * size + (size - F32.lit 8 100 * size * F32.lit 2 1) / F32.lit 2 1 -
      (size - F32.lit 8 100 * size * F32.lit 2 1) / F32.lit 4 1 * F32.lit 2 1)
    (F32.lit 8 100 * size + (size - F32.lit 8 100 * size * F32.lit 2 1) / F32.lit 2 1 -
      (size - F32.lit 8 100 * size * F32.lit 2 1) / F32.lit 4 1 * F32.lit 2 1)
    ((size - F32.lit 8 100 * size * F32.lit 2 1) / F32.lit 4 1)
    g2 2 (shapes "center") hcenter ncenter 1 0 (by omega) (by omega)
    [[1, 1], [2, 1], [2, 2], [1, 2]] (by decide) k2 c2 e2 hc2
  simp only [Nat.cast_ofNat, Nat.cast_one, Nat.cast_zero] at h3
  rw [h3]
  refine ⟨g3.renderer, colors, k0, k1, k2, c0, c1, c2, p0, p1, p2, rfl, hlen, hcol, rfl,
    hc0, hc1, hc2, ?_, ?_⟩
  · rw [hp3, hp2, hp1]; rfl
  · rw [hs3, hs2, hs1]; rfl

/-! ## Validation -/

theorem isHexDigit_iff (c : Char) :
    isHexDigit c = true ↔ c ∈ "0123456789abcdefABCDEF".data := by
  constructor
  · intro h
    simp only [isHexDigit, Bool.or_eq_true, Bool.and_eq_true, decide_eq_true_eq] at h
    have hc : c = Char.ofNat c.toNat := (Char.ofNat_toNat c).symm
    have hn : c.toNat ∈ [48, 49, 50, 51, 52, 53, 54, 55, 56, 57, 97, 98, 99, 100, 101, 102,
        65, 66, 67, 68, 69, 70] := by
      simp only [List.mem_cons, List.mem_singleton, List.not_mem_nil, or_false]
      omega
    rw [hc]
    generalize c.toNat = n at hn
    simp only [List.mem_cons, List.mem_singleton, List.not_mem_nil, or_false] at hn
    rcases hn with rfl | rfl | rfl | rfl | rfl | rfl | rfl | rfl | rfl | rfl | rfl | rfl | rfl |
      rfl | rfl | rfl | rfl | rfl | rfl | rfl | rfl | rfl <;> decide
  · revert c
    decide

theorem validHash_iff (hash : String) : ValidHash hash ↔ matchHex 11 hash = true := by
  rw [matchHex_iff]
  unfold ValidHash
  constructor
  · rintro ⟨hl, hc⟩
    exact ⟨fun c h => (isHexDigit_iff c).mpr (hc c h), hl⟩
  · rintro ⟨hc, hl⟩
    exact ⟨hl, fun c h => (isHexDigit_iff c).mp (hc c h)⟩

/-- C1: `iconGenerator` panics if and only if the hash does not consist of at least 11
characters that are all hexadecimal digits; on every hash that does, it returns normally, so
in particular it does not fail on validation. -/
theorem C1_iconGenerator_panics_iff_invalid (renderer : SVGRenderer) (hash : String)
    (size : F32) (config : Config) :
    (∃ e, iconGenerator renderer hash size config = .error e) ↔ ¬ ValidHash hash := by
  constructor
  · rintro ⟨e, he⟩ hv
    obtain ⟨r, _, _, _, _, _, _, _, _, _, _, hr, _⟩ :=
      iconGenerator_ok renderer hash size config ((validHash_iff hash).mp hv)
    rw [hr] at he
    cases he
  · intro hv
    have hm : matchHex 11 hash = false := by
      rw [validHash_iff] at hv
      exact Bool.eq_false_iff.mpr hv
    unfold iconGenerator
    rw [hm]
    simp only [Bool.not_false, if_true]
    split
    · exact ⟨_, rfl⟩
    · exact ⟨_, rfl⟩

/-- C2 as stated fails: the hash `xyz` is shorter than 11 characters, and `iconGenerator`
reports that it is not made of hex digits, not that it is too short. -/
theorem C2_counterexample :
    ¬ ∀ (renderer : SVGRenderer) (hash : String) (size : F32) (config : Config),
      hash.length < 11 →
        iconGenerator renderer hash size config = .error "Invalid hash. Too short!" := by
  intro h
  have h1 := h (SVGRenderer_new F32.zero) "xyz" F32.zero getCurrentConfig (by decide)
  have h2 : iconGenerator (SVGRenderer_new F32.zero) "xyz" F32.zero getCurrentConfig =
      .error "Invalid hash: Not consisted of hex digits." := by
    simp [iconGenerator, matchHex, isHexDigit]
  rw [h2] at h1
  exact absurd h1 (by decide)

/-- C2, amended: a hash shorter than 11 characters fails with the "too short" message when
it is non-empty and all its characters are hexadecimal digits, and with the "not hex digits"
message when one of its characters is not a hexadecimal digit. -/
theorem C2_short_hash_reason (renderer : SVGRenderer) (hash : String) (size : F32)
    (config : Config) (hlen : hash.length < 11) :
    ((hash.length ≠ 0 ∧ ∀ c ∈ hash.data, c ∈ "0123456789abcdefABCDEF".data) →
      iconGenerator renderer hash size config = .error "Invalid hash. Too short!") ∧
    ((∃ c ∈ hash.data, c ∉ "0123456789abcdefABCDEF".data) →
      iconGenerator renderer hash size config =
        .error "Invalid hash: Not consisted of hex digits.") := by
  have hl : ¬ 11 ≤ hash.data.length := by
    have : hash.length = hash.data.length := rfl
    omega
  have h11 : matchHex 11 hash = false := by
    apply Bool.eq_false_iff.mpr
    intro h
    rw [matchHex_iff] at h
    exact hl h.2
  constructor
  · rintro ⟨hne, hc⟩
    have h1 : matchHex 1 hash = true := by
      rw [matchHex_iff]
      refine ⟨fun c h => (isHexDigit_iff c).mpr (hc c h), ?_⟩
      have : hash.length = hash.data.length := rfl
      omega
    unfold iconGenerator
    rw [h11, h1]
    rfl
  · rintro ⟨c, hc, hnot⟩
    have h1 : matchHex 1 hash = false := by
      apply Bool.eq_false_iff.mpr
      intro h
      rw [matchHex_iff] at h
      exact hnot ((isHexDigit_iff c).mp (h.1 c hc))
    unfold iconGenerator
    rw [h11, h1]
    rfl

/-- The amended C2 at the short hashes `abc` (hex digits only) and `a-c` (not hex digits). -/
theorem C2_short_hash_reason_witness :
    "abc".length < 11 ∧
    iconGenerator (SVGRenderer_new F32.zero) "abc" F32.zero getCurrentConfig =
      .error "Invalid hash. Too short!" ∧
    iconGenerator (SVGRenderer_new F32.zero) "a-c" F32.zero getCurrentConfig =
      .error "Invalid hash: Not consisted of hex digits." :=
  ⟨by decide,
   (C2_short_hash_reason (SVGRenderer_new F32.zero) "abc" F32.zero getCurrentConfig
      (by decide)).1 (by decide),
   (C2_short_hash_reason (SVGRenderer_new F32.zero) "a-c" F32.zero getCurrentConfig
      (by decide)).2 (by decide)⟩

/-! ## Serialization -/

theorem foldl_append_eq (f : String × SVGPath → String) (order : List (String × SVGPath)) :
    ∀ init : String, order.foldl (fun svg entry => svg ++ f entry) init =
      init ++ String.join (order.map f) := by
  induction order with
  | nil => intro init; simp [String.join]
  | cons a rest ih =>
    intro init
    rw [List.foldl_cons, ih, List.map_cons]
    have hj : String.join (f a :: List.map f rest) = f a ++ String.join (List.map f rest) := by
      simp [String.join]
      have gen : ∀ (l : List String) (s t : String),
          List.foldl (fun r x => r ++ x) (s ++ t) l = s ++ List.foldl (fun r x => r ++ x) t l := by
        intro l
        induction l with
        | nil => intro s t; rfl
        | cons b bs ihb => intro s t; simp only [List.foldl_cons]; rw [String.append_assoc, ihb]
      have := gen (List.map f rest) (f a) ""
      simpa using this
    rw [hj, String.append_assoc]

/-- The document `toSVG` writes for a given order of the entries: the header, the path
elements in that order, the footer. -/
theorem toSVGIn_eq (sr : SVGRenderer) (order : List (String × SVGPath)) :
    sr.toSVGIn order =
      svgHeader (F32.toInt sr.size) ++ String.join (order.map svgPathElement) ++ "</svg>" := by
  unfold SVGRenderer.toSVGIn
  rw [foldl_append_eq]

/-- On the example run, ranging over the entries in the recorded order and in the reverse
order gives two different documents. -/
theorem exampleRun_orders :
    (match iconGenerator (SVGRenderer_new (F32.ofInt 256)) "0123456789abcdef0123456789abcdef"
        (F32.ofInt 256) getCurrentConfig with
      | .ok r => decide (r.toSVGIn r.pathsByColor ≠ r.toSVGIn r.pathsByColor.reverse)
      | .error _ => false) = true := by
  decide!

/-- C3 as stated fails: after `iconGenerator` has run on a fresh renderer for the hash
`0123456789abcdef0123456789abcdef`, size 256 and the default config, `toSVG` has two
possible results that differ (the map of paths is ranged over in an unspecified order). -/
theorem C3_counterexample :
    ∃ (r : SVGRenderer) (svg1 svg2 : String),
      iconGenerator (SVGRenderer_new (F32.ofInt 256)) "0123456789abcdef0123456789abcdef"
        (F32.ofInt 256) getCurrentConfig = .ok r ∧
      r.toSVG svg1 ∧ r.toSVG svg2 ∧ svg1 ≠ svg2 := by
  have key := exampleRun_orders
  cases hrun : iconGenerator (SVGRenderer_new (F32.ofInt 256))
      "0123456789abcdef0123456789abcdef" (F32.ofInt 256) getCurrentConfig with
  | error e => rw [hrun] at key; simp at key
  | ok r =>
    rw [hrun] at key
    simp only [decide_eq_true_eq] at key
    exact ⟨r, r.toSVGIn r.pathsByColor, r.toSVGIn r.pathsByColor.reverse, rfl,
      ⟨r.pathsByColor, List.Perm.refl _, rfl⟩,
      ⟨r.pathsByColor.reverse, List.reverse_perm _, rfl⟩, key⟩

/-- C3, amended: for every valid hash, size and config, `iconGenerator` on a fresh renderer
returns one renderer state, and every result of `toSVG` on it is the same header, then the
path elements of the recorded entries, each once, in some order, then the same footer; so
two results carry the same path elements, up to their order. -/
theorem C3_toSVG_determined_up_to_order (hash : String) (size0 size : F32) (config : Config)
    (hv : ValidHash hash) :
    ∃ r : SVGRenderer, iconGenerator (SVGRenderer_new size0) hash size config = .ok r ∧
      ∀ svg1 svg2 : String, r.toSVG svg1 → r.toSVG svg2 →
        ∃ order1 order2 : List (String × SVGPath),
          order1.Perm r.pathsByColor ∧ order2.Perm order1 ∧
          svg1 = svgHeader (F32.toInt size0) ++ String.join (order1.map svgPathElement)
            ++ "</svg>" ∧
          svg2 = svgHeader (F32.toInt size0) ++ String.join (order2.map svgPathElement)
            ++ "</svg>" := by
  obtain ⟨r, _, _, _, _, _, _, _, _, _, _, hr, _, _, _, _, _, _, _, hsize⟩ :=
    iconGenerator_ok (SVGRenderer_new size0) hash size config ((validHash_iff hash).mp hv)
  refine ⟨r, hr, ?_⟩
  rintro svg1 svg2 ⟨o1, hp1, rfl⟩ ⟨o2, hp2, rfl⟩
  have hs : r.size = size0 := hsize
  refine ⟨o1, o2, hp1, hp2.trans hp1.symm, ?_, ?_⟩
  · rw [toSVGIn_eq, hs]
  · rw [toSVGIn_eq, hs]

/-- The amended C3 at the hash `0123456789abcdef0123456789abcdef`, size 256, default
config. -/
theorem C3_toSVG_determined_up_to_order_witness :
    ValidHash "0123456789abcdef0123456789abcdef" ∧
    ∃ r : SVGRenderer, iconGenerator (SVGRenderer_new (F32.ofInt 256))
        "0123456789abcdef0123456789abcdef" (F32.ofInt 256) getCurrentConfig = .ok r ∧
      ∀ svg1 svg2 : String, r.toSVG svg1 → r.toSVG svg2 →
        ∃ order1 order2 : List (String × SVGPath),
          order1.Perm r.pathsByColor ∧ order2.Perm order1 ∧
          svg1 = svgHeader (F32.toInt (F32.ofInt 256)) ++
            String.join (order1.map svgPathElement) ++ "</svg>" ∧
          svg2 = svgHeader (F32.toInt (F32.ofInt 256)) ++
            String.join (order2.map svgPathElement) ++ "</svg>" :=
  ⟨by decide, C3_toSVG_determined_up_to_order "0123456789abcdef0123456789abcdef"
    (F32.ofInt 256) (F32.ofInt 256) getCurrentConfig (by decide)⟩

/-! ## The case of the hash -/

theorem parseDigits_congr : ∀ (l1 l2 : List Char) (acc : Nat),
    l1.map hexVal = l2.map hexVal → parseDigits l1 acc = parseDigits l2 acc := by
  intro l1
  induction l1 with
  | nil =>
    intro l2 acc h
    cases l2 with
    | nil => rfl
    | cons b bs => simp at h
  | cons a as ih =>
    intro l2 acc h
    cases l2 with
    | nil => simp at h
    | cons b bs =>
      simp only [List.map_cons, List.cons.injEq] at h
      unfold parseDigits
      rw [h.1]
      cases hexVal b with
      | none => rfl
      | some d => exact ih bs _ h.2

theorem digitAt_congr (h1 h2 : String) (hs1 : ∀ c ∈ h1.data, isHexDigit c = true)
    (hs2 : ∀ c ∈ h2.data, isHexDigit c = true)
    (heq : h1.data.map hexVal = h2.data.map hexVal) (i : Nat) (hi : i < h1.data.length) :
    (charAt h1 (i : Int)).map ParseInt16 = (charAt h2 (i : Int)).map ParseInt16 := by
  have hlen : h1.data.length = h2.data.length := by
    have := congrArg List.length heq
    simpa using this
  have hi2 : i < h2.data.length := by omega
  obtain ⟨d1, _, hv1, e1⟩ := digitAt_ok h1 hs1 i hi
  obtain ⟨d2, _, hv2, e2⟩ := digitAt_ok h2 hs2 i hi2
  have hget : (h1.data.map hexVal)[i]? = (h2.data.map hexVal)[i]? := by rw [heq]
  rw [List.getElem?_map, List.getElem?_map, List.getElem?_eq_getElem hi,
    List.getElem?_eq_getElem hi2] at hget
  simp only [Option.map_some'] at hget
  rw [hv1, hv2] at hget
  have : d1 = d2 := by simpa using hget
  rw [e1, e2, this]

theorem tailValue_congr (h1 h2 : String) (hs1 : ∀ c ∈ h1.data, isHexDigit c = true)
    (hs2 : ∀ c ∈ h2.data, isHexDigit c = true)
    (heq : h1.data.map hexVal = h2.data.map hexVal) (hl : 7 ≤ h1.data.length) :
    (strFrom h1 ((h1.data.length : Int) - 7)).map ParseInt16 =
      (strFrom h2 ((h2.data.length : Int) - 7)).map ParseInt16 := by
  have hlen : h1.data.length = h2.data.length := by
    have := congrArg List.length heq
    simpa using this
  have hl2 : 7 ≤ h2.data.length := by omega
  have s1 := strFrom_ok h1 7 hl
  have s2 := strFrom_ok h2 7 hl2
  simp only [Nat.cast_ofNat] at s1 s2
  rw [s1, s2]
  have hd1 : (h1.data.drop (h1.data.length - 7)).length = 7 := by rw [List.length_drop]; omega
  have hd2 : (h2.data.drop (h2.data.length - 7)).length = 7 := by rw [List.length_drop]; omega
  obtain ⟨v1, p1, _, e1⟩ := ParseInt16_hex (h1.data.drop (h1.data.length - 7))
    (by intro hn; rw [hn] at hd1; simp at hd1) (by omega)
    (fun c hc => hs1 c (List.mem_of_mem_drop hc))
  obtain ⟨v2, p2, _, e2⟩ := ParseInt16_hex (h2.data.drop (h2.data.length - 7))
    (by intro hn; rw [hn] at hd2; simp at hd2) (by omega)
    (fun c hc => hs2 c (List.mem_of_mem_drop hc))
  have hmap : (h1.data.drop (h1.data.length - 7)).map hexVal =
      (h2.data.drop (h2.data.length - 7)).map hexVal := by
    rw [List.map_drop, List.map_drop, heq, hlen]
  rw [parseDigits_congr _ _ 0 hmap, p2] at p1
  have : v1 = v2 := by simpa using p1.symm
  simp only [Except.map, e1, e2, this]

/-- The generator reads a validated hash only through the values of its hex digits. -/
theorem iconGenerator_congr (renderer : SVGRenderer) (h1 h2 : String) (size : F32)
    (config : Config) (hv1 : matchHex 11 h1 = true) (hv2 : matchHex 11 h2 = true)
    (heq : h1.data.map hexVal = h2.data.map hexVal) :
    iconGenerator renderer h1 size config = iconGenerator renderer h2 size config := by
  obtain ⟨hs1, hl1⟩ := (matchHex_iff 11 h1).mp hv1
  obtain ⟨hs2, hl2⟩ := (matchHex_iff 11 h2).mp hv2
  have key := digitAt_congr h1 h2 hs1 hs2 heq
  have k1 : (charAt h1 1).map ParseInt16 = (charAt h2 1).map ParseInt16 := by
    exact_mod_cast key 1 (by omega)
  have k2 : (charAt h1 2).map ParseInt16 = (charAt h2 2).map ParseInt16 := by
    exact_mod_cast key 2 (by omega)
  have k3 : (charAt h1 3).map ParseInt16 = (charAt h2 3).map ParseInt16 := by
    exact_mod_cast key 3 (by omega)
  have k4 : (charAt h1 4).map ParseInt16 = (charAt h2 4).map ParseInt16 := by
    exact_mod_cast key 4 (by omega)
  have k5 : (charAt h1 5).map ParseInt16 = (charAt h2 5).map ParseInt16 := by
    exact_mod_cast key 5 (by omega)
  have k8 : (charAt h1 (8 + 0)).map ParseInt16 = (charAt h2 (8 + 0)).map ParseInt16 := by
    exact_mod_cast key 8 (by omega)
  have k9 : (charAt h1 (8 + 1)).map ParseInt16 = (charAt h2 (8 + 1)).map ParseInt16 := by
    exact_mod_cast key 9 (by omega)
  have k10 : (charAt h1 (8 + 2)).map ParseInt16 = (charAt h2 (8 + 2)).map ParseInt16 := by
    exact_mod_cast key 10 (by omega)
  have kt := tailValue_congr h1 h2 hs1 hs2 heq (by omega)
  have hci : ∀ n : Int, colorIndexes h1 n = colorIndexes h2 n := by
    intro n
    simp only [colorIndexes, colorIndexStep, k8, k9, k10]
  have rs23 : ∀ colors cis x y cell g ci shapes coords,
      renderShape h1 colors cis x y cell g ci shapes 2 3 coords =
      renderShape h2 colors cis x y cell g ci shapes 2 3 coords := by
    intros
    simp only [renderShape, k2, k3]
  have rs45 : ∀ colors cis x y cell g ci shapes coords,
      renderShape h1 colors cis x y cell g ci shapes 4 5 coords =
      renderShape h2 colors cis x y cell g ci shapes 4 5 coords := by
    intros
    simp only [renderShape, k4, k5]
  have rs10 : ∀ colors cis x y cell g ci shapes coords,
      renderShape h1 colors cis x y cell g ci shapes 1 0 coords =
      renderShape h2 colors cis x y cell g ci shapes 1 0 coords := by
    intros
    simp only [renderShape, k1, lt_self_iff_false, if_false]
  unfold iconGenerator
  rw [hv1, hv2]
  simp only [Bool.not_true, Bool.false_eq_true, if_false, kt, hci, rs23, rs45, rs10]

theorem hexVal_case : ∀ c ∈ "0123456789abcdefABCDEF".data,
    hexVal c.toUpper = hexVal c ∧ hexVal c.toLower = hexVal c ∧
    isHexDigit c.toUpper = true ∧ isHexDigit c.toLower = true := by
  decide

/-- C4: the case of the hash does not matter: on the upper-cased and on the lower-cased
form of a valid hash `iconGenerator` returns normally and leaves the same renderer, hence
the same color-to-path entries. -/
theorem C4_hash_case_insensitive (renderer : SVGRenderer) (hash : String) (size : F32)
    (config : Config) (hv : ValidHash hash) :
    ∃ r : SVGRenderer,
      iconGenerator renderer (strToUpper hash) size config = .ok r ∧
      iconGenerator renderer (strToLower hash) size config = .ok r := by
  have hup : matchHex 11 (strToUpper hash) = true := by
    rw [matchHex_iff]
    constructor
    · intro c hc
      simp only [strToUpper, List.mem_map] at hc
      obtain ⟨a, ha, rfl⟩ := hc
      exact (hexVal_case a (hv.2 a ha)).2.2.1
    · simp only [strToUpper, List.length_map]
      exact hv.1
  have hlow : matchHex 11 (strToLower hash) = true := by
    rw [matchHex_iff]
    constructor
    · intro c hc
      simp only [strToLower, List.mem_map] at hc
      obtain ⟨a, ha, rfl⟩ := hc
      exact (hexVal_case a (hv.2 a ha)).2.2.2
    · simp only [strToLower, List.length_map]
      exact hv.1
  have heq : (strToUpper hash).data.map hexVal = (strToLower hash).data.map hexVal := by
    simp only [strToUpper, strToLower, List.map_map]
    apply List.map_congr_left
    intro a ha
    simp only [Function.comp]
    rw [(hexVal_case a (hv.2 a ha)).1, (hexVal_case a (hv.2 a ha)).2.1]
  obtain ⟨r, _, _, _, _, _, _, _, _, _, _, hr, _⟩ :=
    iconGenerator_ok renderer (strToUpper hash) size config hup
  exact ⟨r, hr, by rw [← iconGenerator_congr renderer _ _ size config hup hlow heq]; exact hr⟩

/-- C4 at the mixed-case hash `0123456789aBcDeF`. -/
theorem C4_hash_case_insensitive_witness :
    ValidHash "0123456789aBcDeF" ∧
    ∃ r : SVGRenderer,
      iconGenerator (SVGRenderer_new (F32.ofInt 256)) (strToUpper "0123456789aBcDeF")
        (F32.ofInt 256) getCurrentConfig = .ok r ∧
      iconGenerator (SVGRenderer_new (F32.ofInt 256)) (strToLower "0123456789aBcDeF")
        (F32.ofInt 256) getCurrentConfig = .ok r :=
  ⟨by decide, C4_hash_case_insensitive (SVGRenderer_new (F32.ofInt 256)) "0123456789aBcDeF"
    (F32.ofInt 256) getCurrentConfig (by decide)⟩

/-! ## Paths by color -/

/-- After `endShape` the path recorded for the color is the current buffer. -/
theorem endShape_overwrites (sr : SVGRenderer) (color : String) :
    mapGet (sr.endShape color).pathsByColor color = some sr.path := by
  simp only [SVGRenderer.endShape, mapSet, mapGet]
  have h1 : List.find? (fun kv => kv.1 == color)
      (List.filter (fun kv => kv.1 != color) sr.pathsByColor) = none := by
    rw [List.find?_eq_none]
    intro x hx
    rw [List.mem_filter] at hx
    simpa using hx.2
  rw [List.find?_append, h1]
  simp

/-- C5 fails on the code, at the hash `00000000000`: `endShape` replaces the path recorded
for a color by the current buffer instead of appending the buffer to it. Unit level: a
renderer that holds one triangle under `#d17575` and has another triangle in its buffer holds
only the second one after `endShape`. End to end: the color indices are 0, 1, 1, so corners
and center share the color `#d17575`; the sides pass draws 8 polygons, the corners pass 4 and
the center pass 4, yet the renderer ends with 8 polygons under the first color and only 4
under the shared one. -/
theorem C5_endShape_replaces_recorded_path :
    (SVGRenderer.endShape
        { pathsByColor := [("#d17575", "M1.0 1.0L2.0 1.0L2.0 2.0Z")],
          path := "M5.0 5.0L6.0 5.0L6.0 6.0Z", size := F32.ofInt 256 }
        "#d17575").pathsByColor = [("#d17575", "M5.0 5.0L6.0 5.0L6.0 6.0Z")] ∧
    colorIndexes "00000000000" 5 = .ok [0, 1, 1] ∧
    (iconGenerator (SVGRenderer_new (F32.ofInt 256)) "00000000000" (F32.ofInt 256)
        getCurrentConfig).map
      (fun r => r.pathsByColor.map (fun entry => (entry.1, entry.2.data.count 'M'))) =
      .ok [("#4c4c4c", 8), ("#d17575", 4)] := by
  decide!

/-! ## Color theme -/

/-- C6: for every hue in `[0,1)` and every config (any saturation, any pair of lightness
functions) `colorTheme` returns exactly 5 strings, each `#` followed by exactly 6 hexadecimal
digits; `decToHex` always yields exactly two hex digits, `00` below 0 and `ff` above 255. -/
theorem C6_colorTheme_five_hex_colors (hue : F32) (config : Config)
    (h0 : F32.le F32.zero hue = true) (h1 : F32.lt hue (F32.lit 1 1) = true) :
    (∃ l : List String, colorTheme hue config = .ok l ∧ l.length = 5 ∧
      ∀ c ∈ l, isColorString c = true) ∧
    (∀ v : Int, ∃ a b : Char, decToHex v = String.mk [a, b] ∧
      isHexDigit a = true ∧ isHexDigit b = true) ∧
    (∀ v : Int, v < 0 → decToHex v = "00") ∧
    (∀ v : Int, 255 < v → decToHex v = "ff") := by
  refine ⟨?_, decToHex_two, ?_, ?_⟩
  · have h1le : F32.le hue (F32.lit 1 1) = true := by
      unfold F32.le; rw [h1]; rfl
    obtain ⟨s, m, e, rfl, hsm, hle⟩ := F32.unit_of_le hue h0 h1le
    exact colorTheme_ok s m e hsm hle config
  · intro v hv
    simp only [decToHex, if_pos hv]
  · intro v hv
    simp only [decToHex]
    rw [if_neg (by omega), if_neg (by omega), if_neg (by omega)]

/-- C6 at the hue nearest to one third, with the default config. -/
theorem C6_colorTheme_five_hex_colors_witness :
    F32.le F32.zero (F32.lit 1 3) = true ∧ F32.lt (F32.lit 1 3) (F32.lit 1 1) = true ∧
    ((∃ l : List String, colorTheme (F32.lit 1 3) getCurrentConfig = .ok l ∧ l.length = 5 ∧
      ∀ c ∈ l, isColorString c = true) ∧
    (∀ v : Int, ∃ a b : Char, decToHex v = String.mk [a, b] ∧
      isHexDigit a = true ∧ isHexDigit b = true) ∧
    (∀ v : Int, v < 0 → decToHex v = "00") ∧
    (∀ v : Int, 255 < v → decToHex v = "ff")) :=
  ⟨by decide, by decide,
   C6_colorTheme_five_hex_colors (F32.lit 1 3) getCurrentConfig (by decide) (by decide)⟩

/-! ## Transform -/

/-- C7: `transformPoint` returns `(tx+x, ty+y)` for rotation 0, `(tx+size-y-h, ty+x)` for
rotation 1, `(tx+size-x-w, ty+size-y-h)` for rotation 2 and `(tx+y, ty+size-x-w)` for
rotation 3, with `w = h = 0` when the box is omitted; rotation 0 is the translation by
`(tx, ty)`. -/
theorem C7_transformPoint_by_rotation (tx ty size x y w h : F32) :
    (Transform_new tx ty size (F32.ofInt 0)).transformPoint x y [w, h] =
      Point_new (tx + x) (ty + y) ∧
    (Transform_new tx ty size (F32.ofInt 1)).transformPoint x y [w, h] =
      Point_new (tx + size - y - h) (ty + x) ∧
    (Transform_new tx ty size (F32.ofInt 2)).transformPoint x y [w, h] =
      Point_new (tx + size - x - w) (ty + size - y - h) ∧
    (Transform_new tx ty size (F32.ofInt 3)).transformPoint x y [w, h] =
      Point_new (tx + y) (ty + size - x - w) ∧
    (∀ rotation : F32, (Transform_new tx ty size rotation).transformPoint x y [] =
      (Transform_new tx ty size rotation).transformPoint x y [F32.zero, F32.zero]) := by
  have e01 : F32.eq (F32.ofInt 0) (F32.lit 1 1) = false := by decide
  have e02 : F32.eq (F32.ofInt 0) (F32.lit 2 1) = false := by decide
  have e03 : F32.eq (F32.ofInt 0) (F32.lit 3 1) = false := by decide
  have e11 : F32.eq (F32.ofInt 1) (F32.lit 1 1) = true := by decide
  have e21 : F32.eq (F32.ofInt 2) (F32.lit 1 1) = false := by decide
  have e22 : F32.eq (F32.ofInt 2) (F32.lit 2 1) = true := by decide
  have e31 : F32.eq (F32.ofInt 3) (F32.lit 1 1) = false := by decide
  have e32 : F32.eq (F32.ofInt 3) (F32.lit 2 1) = false := by decide
  have e33 : F32.eq (F32.ofInt 3) (F32.lit 3 1) = true := by decide
  refine ⟨?_, ?_, ?_, ?_, ?_⟩
  · simp [Transform.transformPoint, Transform_new, e01, e02, e03]
  · simp [Transform.transformPoint, Transform_new, e11]
  · simp [Transform.transformPoint, Transform_new, e21, e22]
  · simp [Transform.transformPoint, Transform_new, e31, e32, e33]
  · intro rotation
    simp [Transform.transformPoint]

/-! ## Composing rotations -/

theorem exactAdd_spec (a b : F32) (h : F32.exactAdd a b = true) :
    ∃ ua ub : Int, F32.toUnits a = some ua ∧ F32.toUnits b = some ub ∧
      F32.toUnits (a + b) = some (ua + ub) := by
  unfold F32.exactAdd at h
  split at h
  · rename_i ua ub us h1 h2 h3
    simp only [decide_eq_true_eq] at h
    exact ⟨ua, ub, h1, h2, by rw [h3, h]⟩
  · exact absurd h (by simp)

theorem exactSub_spec (a b : F32) (h : F32.exactSub a b = true) :
    ∃ ua ub : Int, F32.toUnits a = some ua ∧ F32.toUnits b = some ub ∧
      F32.toUnits (a - b) = some (ua - ub) := by
  unfold F32.exactSub at h
  split at h
  · rename_i ua ub us h1 h2 h3
    simp only [decide_eq_true_eq] at h
    exact ⟨ua, ub, h1, h2, by rw [h3, h]⟩
  · exact absurd h (by simp)

/-- C8 as stated fails in float32: in the cell at `(0, 16777216)` of side 1 the point
`(0, 1)` goes to `(1, 16777216)` through two rotation-1 transforms and to `(1, 16777215)`
through the rotation-2 transform, because `16777216 + 1` rounds to `16777216`. -/
theorem C8_counterexample :
    ¬ ∀ (tx ty size x y w h : F32),
      (Transform_new tx ty size (F32.ofInt 1)).transformPoint
          ((Transform_new F32.zero F32.zero size (F32.ofInt 1)).transformPoint x y [w, h]).x
          ((Transform_new F32.zero F32.zero size (F32.ofInt 1)).transformPoint x y [w, h]).y
          [h, w] =
        (Transform_new tx ty size (F32.ofInt 2)).transformPoint x y [w, h] := by
  intro hall
  have h1 := hall F32.zero (F32.ofInt 16777216) (F32.ofInt 1) F32.zero (F32.ofInt 1)
    F32.zero F32.zero
  revert h1
  decide!

/-- C8, amended: when none of the float32 additions and subtractions involved rounds, two
rotation-1 transforms (the inner one in the cell at the origin, the outer one in the cell at
`(tx, ty)` with the swapped box) send a point to the same coordinates as the single
rotation-2 transform in the cell at `(tx, ty)`. -/
theorem C8_two_quarter_turns_exact (tx ty size x y w h : F32)
    (e1 : F32.exactAdd F32.zero size = true)
    (e2 : F32.exactSub (F32.zero + size) y = true)
    (e3 : F32.exactSub (F32.zero + size - y) h = true)
    (e4 : F32.exactAdd F32.zero x = true)
    (e5 : F32.exactAdd tx size = true)
    (e6 : F32.exactSub (tx + size) (F32.zero + x) = true)
    (e7 : F32.exactSub (tx + size - (F32.zero + x)) w = true)
    (e8 : F32.exactAdd ty (F32.zero + size - y - h) = true)
    (e9 : F32.exactSub (tx + size) x = true)
    (e10 : F32.exactSub (tx + size - x) w = true)
    (e11 : F32.exactAdd ty size = true)
    (e12 : F32.exactSub (ty + size) y = true)
    (e13 : F32.exactSub (ty + size - y) h = true) :
    ∃ ux uy : Int,
      F32.toUnits ((Transform_new tx ty size (F32.ofInt 1)).transformPoint
          ((Transform_new F32.zero F32.zero size (F32.ofInt 1)).transformPoint x y [w, h]).x
          ((Transform_new F32.zero F32.zero size (F32.ofInt 1)).transformPoint x y [w, h]).y
          [h, w]).x = some ux ∧
      F32.toUnits ((Transform_new tx ty size (F32.ofInt 2)).transformPoint x y [w, h]).x
        = some ux ∧
      F32.toUnits ((Transform_new tx ty size (F32.ofInt 1)).transformPoint
          ((Transform_new F32.zero F32.zero size (F32.ofInt 1)).transformPoint x y [w, h]).x
          ((Transform_new F32.zero F32.zero size (F32.ofInt 1)).transformPoint x y [w, h]).y
          [h, w]).y = some uy ∧
      F32.toUnits ((Transform_new tx ty size (F32.ofInt 2)).transformPoint x y [w, h]).y
        = some uy := by
  have r11 : F32.eq (F32.ofInt 1) (F32.lit 1 1) = true := by decide
  have r21 : F32.eq (F32.ofInt 2) (F32.lit 1 1) = false := by decide
  have r22 : F32.eq (F32.ofInt 2) (F32.lit 2 1) = true := by decide
  simp only [Transform.transformPoint, Transform_new, Point_new, r11, r21, r22, if_true,
    Bool.false_eq_true, if_false]
  obtain ⟨a1, b1, ha1, hb1, hs1⟩ := exactAdd_spec _ _ e1
  obtain ⟨a2, b2, ha2, hb2, hs2⟩ := exactSub_spec _ _ e2
  obtain ⟨a3, b3, ha3, hb3, hs3⟩ := exactSub_spec _ _ e3
  obtain ⟨a4, b4, ha4, hb4, hs4⟩ := exactAdd_spec _ _ e4
  obtain ⟨a5, b5, ha5, hb5, hs5⟩ := exactAdd_spec _ _ e5
  obtain ⟨a6, b6, ha6, hb6, hs6⟩ := exactSub_spec _ _ e6
  obtain ⟨a7, b7, ha7, hb7, hs7⟩ := exactSub_spec _ _ e7
  obtain ⟨a8, b8, ha8, hb8, hs8⟩ := exactAdd_spec _ _ e8
  obtain ⟨a9, b9, ha9, hb9, hs9⟩ := exactSub_spec _ _ e9
  obtain ⟨a10, b10, ha10, hb10, hs10⟩ := exactSub_spec _ _ e10
  obtain ⟨a11, b11, ha11, hb11, hs11⟩ := exactAdd_spec _ _ e11
  obtain ⟨a12, b12, ha12, hb12, hs12⟩ := exactSub_spec _ _ e12
  obtain ⟨a13, b13, ha13, hb13, hs13⟩ := exactSub_spec _ _ e13
  -- the same float has the same number of units
  have i1 : a1 = 0 := by
    have : F32.toUnits F32.zero = some 0 := by decide
    rw [this] at ha1; exact (Option.some.inj ha1).symm
  have i4 : a4 = 0 := by
    have : F32.toUnits F32.zero = some 0 := by decide
    rw [this] at ha4; exact (Option.some.inj ha4).symm
  have j2 : a2 = a1 + b1 := Option.some.inj (ha2.symm.trans hs1)
  have j3 : a3 = a2 - b2 := Option.some.inj (ha3.symm.trans hs2)
  have j6a : a6 = a5 + b5 := Option.some.inj (ha6.symm.trans hs5)
  have j6b : b6 = a4 + b4 := Option.some.inj (hb6.symm.trans hs4)
  have j7 : a7 = a6 - b6 := Option.some.inj (ha7.symm.trans hs6)
  have j8a : a8 = a11 := Option.some.inj (ha8.symm.trans ha11)
  have j8b : b8 = a3 - b3 := Option.some.inj (hb8.symm.trans hs3)
  have j9 : a9 = a5 + b5 := Option.some.inj (ha9.symm.trans hs5)
  have j9b : b9 = b4 := Option.some.inj (hb9.symm.trans hb4)
  have j10 : a10 = a9 - b9 := Option.some.inj (ha10.symm.trans hs9)
  have j10b : b10 = b7 := Option.some.inj (hb10.symm.trans hb7)
  have j12 : a12 = a11 + b11 := Option.some.inj (ha12.symm.trans hs11)
  have j12b : b12 = b2 := Option.some.inj (hb12.symm.trans hb2)
  have j13 : a13 = a12 - b12 := Option.some.inj (ha13.symm.trans hs12)
  have j13b : b13 = b3 := Option.some.inj (hb13.symm.trans hb3)
  have j11b : b11 = b1 := Option.some.inj (hb11.symm.trans hb1)
  refine ⟨a7 - b7, a8 + b8, hs7, ?_, hs8, ?_⟩
  · rw [hs10]; congr 1; omega
  · rw [hs13]; congr 1; omega

/-- The amended C8 in the cell at `(20, 30)` of side 8, for the point `(1, 2)` with the box
`(3, 4)`: all thirteen operations are exact. -/
theorem C8_two_quarter_turns_exact_witness :
    ∃ ux uy : Int,
      F32.toUnits ((Transform_new (F32.ofInt 20) (F32.ofInt 30) (F32.ofInt 8)
          (F32.ofInt 1)).transformPoint
          ((Transform_new F32.zero F32.zero (F32.ofInt 8) (F32.ofInt 1)).transformPoint
            (F32.ofInt 1) (F32.ofInt 2) [F32.ofInt 3, F32.ofInt 4]).x
          ((Transform_new F32.zero F32.zero (F32.ofInt 8) (F32.ofInt 1)).transformPoint
            (F32.ofInt 1) (F32.ofInt 2) [F32.ofInt 3, F32.ofInt 4]).y
          [F32.ofInt 4, F32.ofInt 3]).x = some ux ∧
      F32.toUnits ((Transform_new (F32.ofInt 20) (F32.ofInt 30) (F32.ofInt 8)
          (F32.ofInt 2)).transformPoint (F32.ofInt 1) (F32.ofInt 2)
          [F32.ofInt 3, F32.ofInt 4]).x = some ux ∧
      F32.toUnits ((Transform_new (F32.ofInt 20) (F32.ofInt 30) (F32.ofInt 8)
          (F32.ofInt 1)).transformPoint
          ((Transform_new F32.zero F32.zero (F32.ofInt 8) (F32.ofInt 1)).transformPoint
            (F32.ofInt 1) (F32.ofInt 2) [F32.ofInt 3, F32.ofInt 4]).x
          ((Transform_new F32.zero F32.zero (F32.ofInt 8) (F32.ofInt 1)).transformPoint
            (F32.ofInt 1) (F32.ofInt 2) [F32.ofInt 3, F32.ofInt 4]).y
          [F32.ofInt 4, F32.ofInt 3]).y = some uy ∧
      F32.toUnits ((Transform_new (F32.ofInt 20) (F32.ofInt 30) (F32.ofInt 8)
          (F32.ofInt 2)).transformPoint (F32.ofInt 1) (F32.ofInt 2)
          [F32.ofInt 3, F32.ofInt 4]).y = some uy :=
  C8_two_quarter_turns_exact (F32.ofInt 20) (F32.ofInt 30) (F32.ofInt 8) (F32.ofInt 1)
    (F32.ofInt 2) (F32.ofInt 3) (F32.ofInt 4)
    (by decide!) (by decide!) (by decide!) (by decide!) (by decide!) (by decide!) (by decide!)
    (by decide!) (by decide!) (by decide!) (by decide!) (by decide!) (by decide!)

/-! ## Triangles -/

theorem mantissa_zero_of_nonneg (m : Nat) (e : Int)
    (h0 : F32.le F32.zero (F32.fin true m e) = true) : m = 0 := by
  simp only [F32.le, F32.lt, F32.eq, F32.zero, Bool.or_eq_true, decide_eq_true_eq] at h0
  have h1 : F32.aligned false 0 (-149) (min (-149) e) ≤ F32.aligned true m e (min (-149) e) := by
    rcases h0 with h | h
    · exact h.le
    · exact h.le
  simp only [F32.aligned] at h1
  simp at h1
  have hp : 0 < 2 ^ (e - min (-149) e).toNat := by positivity
  rcases Nat.eq_zero_or_pos m with hm | hm
  · exact hm
  · exfalso
    have : 0 < m * 2 ^ (e - min (-149) e).toNat := Nat.mul_pos hm hp
    have h3 : (0 : Int) < ((m * 2 ^ (e - min (-149) e).toNat : Nat) : Int) := by exact_mod_cast this
    push_cast at h3
    omega

/-- For a float `r >= 0` the index `int(r) % 4` is one of 0, 1, 2, 3. -/
theorem goMod_toInt_of_nonneg (r : F32) (hr : F32.le F32.zero r = true) :
    ∃ k : Nat, k < 4 ∧ goMod (F32.toInt r) 4 = (k : Int) := by
  cases r with
  | nan => simp [F32.le, F32.lt, F32.eq, F32.zero] at hr
  | inf b =>
    cases b
    · exact ⟨0, by norm_num, by decide⟩
    · simp [F32.le, F32.lt, F32.eq, F32.zero] at hr
  | fin s m e =>
    cases s
    · simp only [F32.toInt, Bool.false_eq_true, if_false]
      split
      · refine ⟨((F32.scaled m 1 e).1 / (F32.scaled m 1 e).2) % 4, Nat.mod_lt _ (by norm_num), ?_⟩
        exact (Int.ofNat_tmod _ 4).symm
      · exact ⟨0, by norm_num, by decide⟩
    · have hm := mantissa_zero_of_nonneg m e hr
      subst hm
      refine ⟨0, by norm_num, ?_⟩
      simp [F32.toInt, F32.scaled, goMod]

/-- C9: for a non-negative `r`, `addTriangle` forwards exactly 3 points to `addPolygon`: the
corners `(x+w,y), (x+w,y+h), (x,y+h), (x,y)` without the one at position `int(r) mod 4`, in
the same order; on the unit square the four values of `r mod 4` give four different right
triangles, each made of three corners of the square. -/
theorem C9_addTriangle_drops_one_corner (g : Graphics) (x y w h r : F32) (invert : Bool)
    (hr : F32.le F32.zero r = true) :
    (∃ k : Nat, k < 4 ∧ goMod (F32.toInt r) 4 = (k : Int) ∧
      trianglePoints x y w h r = .ok (flatPoints ((triangleCorners x y w h).eraseIdx k)) ∧
      ((triangleCorners x y w h).eraseIdx k).length = 3 ∧
      g.addTriangle x y w h r invert =
        g.addPolygon (flatPoints ((triangleCorners x y w h).eraseIdx k)) invert) ∧
    (trianglePoints F32.zero F32.zero (F32.lit 1 1) (F32.lit 1 1) (F32.ofInt 0) =
        .ok [F32.lit 1 1, F32.lit 1 1, F32.zero, F32.lit 1 1, F32.zero, F32.zero] ∧
     trianglePoints F32.zero F32.zero (F32.lit 1 1) (F32.lit 1 1) (F32.ofInt 1) =
        .ok [F32.lit 1 1, F32.zero, F32.zero, F32.lit 1 1, F32.zero, F32.zero] ∧
     trianglePoints F32.zero F32.zero (F32.lit 1 1) (F32.lit 1 1) (F32.ofInt 2) =
        .ok [F32.lit 1 1, F32.zero, F32.lit 1 1, F32.lit 1 1, F32.zero, F32.zero] ∧
     trianglePoints F32.zero F32.zero (F32.lit 1 1) (F32.lit 1 1) (F32.ofInt 3) =
        .ok [F32.lit 1 1, F32.zero, F32.lit 1 1, F32.lit 1 1, F32.zero, F32.lit 1 1] ∧
     [trianglePoints F32.zero F32.zero (F32.lit 1 1) (F32.lit 1 1) (F32.ofInt 0),
      trianglePoints F32.zero F32.zero (F32.lit 1 1) (F32.lit 1 1) (F32.ofInt 1),
      trianglePoints F32.zero F32.zero (F32.lit 1 1) (F32.lit 1 1) (F32.ofInt 2),
      trianglePoints F32.zero F32.zero (F32.lit 1 1) (F32.lit 1 1) (F32.ofInt 3)].Nodup) := by
  constructor
  · obtain ⟨k, hk, hmod⟩ := goMod_toInt_of_nonneg r hr
    have ht := trianglePoints_eq x y w h r k hk hmod
    refine ⟨k, hk, hmod, ht, ?_, ?_⟩
    · interval_cases k <;> rfl
    · unfold Graphics.addTriangle
      rw [ht]
  · decide!

/-- C9 at `r = 2`, for the rectangle at `(3, 4)` of width 5 and height 6. -/
theorem C9_addTriangle_drops_one_corner_witness :
    F32.le F32.zero (F32.lit 2 1) = true ∧
    ∃ k : Nat, k < 4 ∧ goMod (F32.toInt (F32.lit 2 1)) 4 = (k : Int) ∧
      trianglePoints (F32.ofInt 3) (F32.ofInt 4) (F32.ofInt 5) (F32.ofInt 6) (F32.lit 2 1) =
        .ok (flatPoints ((triangleCorners (F32.ofInt 3) (F32.ofInt 4) (F32.ofInt 5)
          (F32.ofInt 6)).eraseIdx k)) ∧
      ((triangleCorners (F32.ofInt 3) (F32.ofInt 4) (F32.ofInt 5)
          (F32.ofInt 6)).eraseIdx k).length = 3 ∧
      (Graphics_new (SVGRenderer_new (F32.ofInt 256))).addTriangle (F32.ofInt 3) (F32.ofInt 4)
          (F32.ofInt 5) (F32.ofInt 6) (F32.lit 2 1) false =
        (Graphics_new (SVGRenderer_new (F32.ofInt 256))).addPolygon
          (flatPoints ((triangleCorners (F32.ofInt 3) (F32.ofInt 4) (F32.ofInt 5)
            (F32.ofInt 6)).eraseIdx k)) false :=
  ⟨by decide, (C9_addTriangle_drops_one_corner (Graphics_new (SVGRenderer_new (F32.ofInt 256)))
    (F32.ofInt 3) (F32.ofInt 4) (F32.ofInt 5) (F32.ofInt 6) (F32.lit 2 1) false (by decide)).1⟩

/-! ## The run as three passes of shape invocations -/

theorem sliceAt_getD (l : List Int) (n : Nat) (h : n < l.length) :
    sliceAt l (n : Int) = .ok (l.getD n 0) := by
  rw [sliceAt_ok l n h]
  congr 1
  simp [List.getD, List.getElem?_eq_getElem h]

/-- The loop of `renderShape` makes the invocations listed by `cellCalls`, in order. -/
theorem renderCells_eq_runCalls (sh : Shape) (x y cell : F32) :
    ∀ (coords : List (List Int)), (∀ coord ∈ coords, 2 ≤ coord.length) →
      ∀ (i r : Int) (g : Graphics),
        renderCells sh x y cell coords i r g = runCalls sh (cellCalls x y cell coords i r) g := by
  intro coords
  induction coords with
  | nil => intro _ i r g; rfl
  | cons coord cs ih =>
    intro hc i r g
    have hlen := hc coord (List.mem_cons_self _ _)
    have h0 : sliceAt coord 0 = .ok (coord.getD 0 0) := by
      exact_mod_cast sliceAt_getD coord 0 (by omega)
    have h1 : sliceAt coord 1 = .ok (coord.getD 1 0) := by
      exact_mod_cast sliceAt_getD coord 1 (by omega)
    unfold renderCells
    rw [h0, h1]
    simp only [cellCalls, runCalls]
    cases hsh : sh { g with transform := (Transform_new (x + F32.ofInt (coord.getD 0 0) * cell)
        (y + F32.ofInt (coord.getD 1 0) * cell) cell (F32.ofInt (goMod r 4))) } cell i with
    | error e => rfl
    | ok g2 => exact ih (fun c1 hc1 => hc c1 (List.mem_cons_of_mem _ hc1)) (i + 1) (r + 1) g2

/-- One pass of `iconGenerator` on a validated hash: the shape is the one at the index
`digit mod family size`, the rotation counter starts at the digit at `rota` (at 0 when
`rota` is 0), and the path the invocations draw is recorded under the color of the pass. -/
theorem renderShape_calls (hash : String) (hs : ∀ c ∈ hash.data, isHexDigit c = true)
    (colors : List String) (cis : List Int) (x y cell : F32) (g : Graphics)
    (colorIndex : Int) (shapes : List Shape) (hshapes : ∀ sh ∈ shapes, ShapeOk sh)
    (hne : shapes ≠ []) (index rota : Nat) (hindex : index < hash.data.length)
    (hrota : rota < hash.data.length) (coords : List (List Int))
    (hcoords : ∀ coord ∈ coords, 2 ≤ coord.length) (ci : Int) (color : String)
    (hci : sliceAt cis colorIndex = .ok ci) (hcolor : sliceAt colors ci = .ok color) :
    ∃ (d dr : Nat) (sh : Shape) (g1 : Graphics),
      hexVal hash.data[index] = some d ∧ hexVal hash.data[rota] = some dr ∧
      sliceAt shapes ((d % shapes.length : Nat) : Int) = .ok sh ∧ ShapeOk sh ∧
      runCalls sh (cellCalls x y cell coords 0 (if rota = 0 then 0 else (dr : Int)))
        { g with renderer := g.renderer.beginShape color } = .ok g1 ∧
      g1.renderer.pathsByColor = g.renderer.pathsByColor ∧
      g1.renderer.size = g.renderer.size ∧
      renderShape hash colors cis x y cell g colorIndex shapes (index : Int) (rota : Int)
        coords = .ok { g1 with renderer := g1.renderer.endShape color } := by
  obtain ⟨d, _, hd, hdp⟩ := digitAt_ok hash hs index hindex
  obtain ⟨dr, _, hdr, hdrp⟩ := digitAt_ok hash hs rota hrota
  have hlen : 0 < shapes.length := List.length_pos.mpr hne
  have hb : d % shapes.length < shapes.length := Nat.mod_lt _ hlen
  have hsh : ShapeOk shapes[d % shapes.length] := hshapes _ (List.getElem_mem _)
  obtain ⟨g1, hg1, k1⟩ := renderCells_ok (shapes[d % shapes.length]) hsh x y cell coords
    hcoords 0 (if rota = 0 then 0 else (dr : Int))
    { g with renderer := g.renderer.beginShape color }
  have hrun := renderCells_eq_runCalls (shapes[d % shapes.length]) x y cell coords hcoords 0
    (if rota = 0 then 0 else (dr : Int)) { g with renderer := g.renderer.beginShape color }
  refine ⟨d, dr, shapes[d % shapes.length], g1, hd, hdr, sliceAt_ok shapes _ hb, hsh, ?_,
    k1.1, k1.2, ?_⟩
  · rw [← hrun]; exact hg1
  · unfold renderShape
    have hr : (if 0 < (rota : Int) then (charAt hash (rota : Int)).map ParseInt16 else .ok 0)
        = Except.ok (if rota = 0 then 0 else (dr : Int)) := by
      by_cases h0 : rota = 0
      · subst h0; simp
      · rw [if_pos (by omega), if_neg h0]; exact hdrp
    rw [hr]
    dsimp only
    rw [hdp]
    dsimp only
    rw [if_neg (by omega)]
    have hm : goMod (d : Int) (shapes.length : Int) = ((d % shapes.length : Nat) : Int) :=
      (Int.ofNat_tmod d shapes.length).symm
    rw [hm, sliceAt_ok shapes _ hb]
    dsimp only
    rw [hci]
    dsimp only
    rw [hcolor]
    dsimp only
    rw [hg1]

theorem hexDigitAt_of_getElem (hash : String) (i d : Nat) (h : i < hash.data.length)
    (hd : hexVal hash.data[i] = some d) : hexDigitAt hash i = some d := by
  unfold hexDigitAt
  rw [List.getElem?_eq_getElem h]
  exact hd

theorem shapes_outer_length : (shapes "outer").length = 4 := by decide

theorem shapes_center_length : (shapes "center").length = 14 := by decide

/-- A run of `iconGenerator` on a validated hash, pass by pass: the hue and the palette, the
three color indices, and for each pass the shape, the invocations and the color under which
its path is recorded. -/
theorem iconGenerator_passes (renderer : SVGRenderer) (hash : String) (size : F32)
    (config : Config) (hv : matchHex 11 hash = true) :
    ∃ (v d1 d2 d3 d4 d5 : Nat) (colors : List String) (k0 k1 k2 : Int) (c0 c1 c2 : String)
      (sh0 sh1 sh2 : Shape) (g1 g2 g3 : Graphics),
      v < 2 ^ 28 ∧
      (strFrom hash ((hash.data.length : Int) - 7)).map ParseInt16 = .ok (v : Int) ∧
      colorTheme (F32.ofInt (v : Int) / F32.lit 268435455 1) config = .ok colors ∧
      colors.length = 5 ∧
      colorIndexes hash 5 = .ok [k0, k1, k2] ∧
      sliceAt colors k0 = .ok c0 ∧ sliceAt colors k1 = .ok c1 ∧ sliceAt colors k2 = .ok c2 ∧
      hexDigitAt hash 1 = some d1 ∧ hexDigitAt hash 2 = some d2 ∧ hexDigitAt hash 3 = some d3 ∧
      hexDigitAt hash 4 = some d4 ∧ hexDigitAt hash 5 = some d5 ∧
      sliceAt (shapes "outer") ((d2 % 4 : Nat) : Int) = .ok sh0 ∧
      sliceAt (shapes "outer") ((d4 % 4 : Nat) : Int) = .ok sh1 ∧
      sliceAt (shapes "center") ((d1 % 14 : Nat) : Int) = .ok sh2 ∧
      runCalls sh0 (cellCalls (gridOrigin size) (gridOrigin size) (gridCell size) sidesCoords
          0 (d3 : Int))
        { Graphics_new renderer with renderer := (Graphics_new renderer).renderer.beginShape c0 }
        = .ok g1 ∧
      runCalls sh1 (cellCalls (gridOrigin size) (gridOrigin size) (gridCell size) cornersCoords
          0 (d5 : Int))
        { g1 with renderer := (g1.renderer.endShape c0).beginShape c1 } = .ok g2 ∧
      runCalls sh2 (cellCalls (gridOrigin size) (gridOrigin size) (gridCell size) centerCoords
          0 0)
        { g2 with renderer := (g2.renderer.endShape c1).beginShape c2 } = .ok g3 ∧
      iconGenerator renderer hash size config = .ok (g3.renderer.endShape c2) := by
  obtain ⟨hs, hl⟩ := (matchHex_iff 11 hash).mp hv
  obtain ⟨v, hv28, htail⟩ := tailValue_ok hash hs (by omega)
  obtain ⟨mh, eh, hhue, hunit⟩ := F32.hue_unit (v : Int) (by omega) (by exact_mod_cast hv28)
  obtain ⟨colors, hcolors, hlen, hcol⟩ := colorTheme_ok false mh eh (by simp) hunit config
  rw [← hhue] at hcolors
  obtain ⟨e0, e1, e2, _, _, _, hci⟩ := colorIndexes_ok hash hs hl
  generalize hk0 : specChosenIndex [] ((e0 % 5 : Nat) : Int) = k0 at hci
  generalize hk1 : specChosenIndex [k0] ((e1 % 5 : Nat) : Int) = k1 at hci
  generalize hk2 : specChosenIndex [k0, k1] ((e2 % 5 : Nat) : Int) = k2 at hci
  have r0 := specChosenIndex_range [] ((e0 % 5 : Nat) : Int) (by omega) (by omega)
  have r1 := specChosenIndex_range [k0] ((e1 % 5 : Nat) : Int) (by omega) (by omega)
  have r2 := specChosenIndex_range [k0, k1] ((e2 % 5 : Nat) : Int) (by omega) (by omega)
  rw [hk0] at r0
  rw [hk1] at r1
  rw [hk2] at r2
  obtain ⟨c0, hc0, _⟩ := sliceAt_range colors k0 r0.1 (by rw [hlen]; exact_mod_cast r0.2)
  obtain ⟨c1, hc1, _⟩ := sliceAt_range colors k1 r1.1 (by rw [hlen]; exact_mod_cast r1.2)
  obtain ⟨c2, hc2, _⟩ := sliceAt_range colors k2 r2.1 (by rw [hlen]; exact_mod_cast r2.2)
  have houter : ∀ sh ∈ shapes "outer", ShapeOk sh := shapesOuter_ok
  have hcenter : ∀ sh ∈ shapes "center", ShapeOk sh := shapesCenter_ok
  have nouter : shapes "outer" ≠ [] := by simp [shapes, shapesOuter]
  have ncenter : shapes "center" ≠ [] := by simp [shapes, shapesCenter]
  have i0 : sliceAt [k0, k1, k2] 0 = .ok k0 := rfl
  have i1 : sliceAt [k0, k1, k2] 1 = .ok k1 := rfl
  have i2 : sliceAt [k0, k1, k2] 2 = .ok k2 := rfl
  have b1 : 1 < hash.data.length := by omega
  have b2 : 2 < hash.data.length := by omega
  have b3 : 3 < hash.data.length := by omega
  have b4 : 4 < hash.data.length := by omega
  have b5 : 5 < hash.data.length := by omega
  have b0 : 0 < hash.data.length := by omega
  obtain ⟨d2, d3, sh0, g1, hd2, hd3, hsh0, _, hrun0, hp0, hs0, hrs0⟩ :=
    renderShape_calls hash hs colors [k0, k1, k2] (gridOrigin size) (gridOrigin size)
      (gridCell size) (Graphics_new renderer) 0 (shapes "outer") houter nouter 2 3 b2 b3
      sidesCoords (by decide) k0 c0 i0 hc0
  obtain ⟨d4, d5, sh1, g2, hd4, hd5, hsh1, _, hrun1, hp1, hs1, hrs1⟩ :=
    renderShape_calls hash hs colors [k0, k1, k2] (gridOrigin size) (gridOrigin size)
      (gridCell size) { g1 with renderer := g1.renderer.endShape c0 } 1 (shapes "outer")
      houter nouter 4 5 b4 b5 cornersCoords (by decide) k1 c1 i1 hc1
  obtain ⟨d1, d0, sh2, g3, hd1, _, hsh2, _, hrun2, hp2, hs2, hrs2⟩ :=
    renderShape_calls hash hs colors [k0, k1, k2] (gridOrigin size) (gridOrigin size)
      (gridCell size) { g2 with renderer := g2.renderer.endShape c1 } 2 (shapes "center")
      hcenter ncenter 1 0 b1 b0 centerCoords (by decide) k2 c2 i2 hc2
  rw [shapes_outer_length] at hsh0 hsh1
  rw [shapes_center_length] at hsh2
  simp only [Nat.cast_ofNat, Nat.cast_one, Nat.cast_zero, OfNat.ofNat_ne_zero, if_false,
    if_true] at hrun0 hrun1 hrun2 hrs0 hrs1 hrs2
  refine ⟨v, d1, d2, d3, d4, d5, colors, k0, k1, k2, c0, c1, c2, sh0, sh1, sh2, g1, g2, g3,
    hv28, htail, hcolors, hlen, hci, hc0, hc1, hc2,
    hexDigitAt_of_getElem hash 1 d1 b1 hd1, hexDigitAt_of_getElem hash 2 d2 b2 hd2,
    hexDigitAt_of_getElem hash 3 d3 b3 hd3, hexDigitAt_of_getElem hash 4 d4 b4 hd4,
    hexDigitAt_of_getElem hash 5 d5 b5 hd5, hsh0, hsh1, hsh2, hrun0, hrun1, hrun2, ?_⟩
  unfold iconGenerator
  rw [hv]
  simp only [Bool.not_true, Bool.false_eq_true, if_false]
  rw [htail]
  dsimp only
  rw [hcolors]
  dsimp only
  have hlen5 : (colors.length : Int) = 5 := by rw [hlen]; rfl
  rw [hlen5, hci]
  dsimp only
  unfold gridOrigin gridCell sidesCoords at hrs0
  unfold gridOrigin gridCell cornersCoords at hrs1
  unfold gridOrigin gridCell centerCoords at hrs2
  rw [hrs0]
  dsimp only
  rw [hrs1]
  dsimp only
  rw [hrs2]

/-! ## The trace of a run -/

theorem goMod_natCast (d n : Nat) : goMod (d : Int) (n : Int) = ((d % n : Nat) : Int) :=
  (Int.ofNat_tmod d n).symm

theorem except_ok_inj {α : Type} {a b : α} (h : (Except.ok a : Except Panic α) = .ok b) :
    a = b := by
  cases h
  rfl

theorem except_bind_ok {α β : Type} {x : Except Panic α} {f : α → Except Panic β} {b : β}
    (h : x.bind f = .ok b) : ∃ a, x = .ok a ∧ f a = .ok b := by
  cases x with
  | error e => cases h
  | ok a => exact ⟨a, rfl, h⟩

/-- Every run on a validated hash has a trace; its palette has 5 colors, and no pass
touches the paths recorded before it. -/
theorem isRunTrace_exists (renderer : SVGRenderer) (hash : String) (size : F32)
    (config : Config) (hv : matchHex 11 hash = true) :
    ∃ t : RunTrace, IsRunTrace renderer hash size config t ∧ t.hueValue < 2 ^ 28 ∧
      t.colors.length = 5 ∧
      t.g1.renderer.pathsByColor = renderer.pathsByColor ∧
      t.g2.renderer.pathsByColor = mapSet renderer.pathsByColor t.c0 t.g1.renderer.path ∧
      t.g3.renderer.pathsByColor =
        mapSet (mapSet renderer.pathsByColor t.c0 t.g1.renderer.path) t.c1
          t.g2.renderer.path := by
  obtain ⟨hs, hl⟩ := (matchHex_iff 11 hash).mp hv
  obtain ⟨v, hv28, htail⟩ := tailValue_ok hash hs (by omega)
  obtain ⟨mh, eh, hhue, hunit⟩ := F32.hue_unit (v : Int) (by omega) (by exact_mod_cast hv28)
  obtain ⟨colors, hcolors, hlen, hcol⟩ := colorTheme_ok false mh eh (by simp) hunit config
  rw [← hhue] at hcolors
  obtain ⟨e0, e1, e2, _, _, _, hci⟩ := colorIndexes_ok hash hs hl
  generalize hk0 : specChosenIndex [] ((e0 % 5 : Nat) : Int) = k0 at hci
  generalize hk1 : specChosenIndex [k0] ((e1 % 5 : Nat) : Int) = k1 at hci
  generalize hk2 : specChosenIndex [k0, k1] ((e2 % 5 : Nat) : Int) = k2 at hci
  have r0 := specChosenIndex_range [] ((e0 % 5 : Nat) : Int) (by omega) (by omega)
  have r1 := specChosenIndex_range [k0] ((e1 % 5 : Nat) : Int) (by omega) (by omega)
  have r2 := specChosenIndex_range [k0, k1] ((e2 % 5 : Nat) : Int) (by omega) (by omega)
  rw [hk0] at r0
  rw [hk1] at r1
  rw [hk2] at r2
  obtain ⟨c0, hc0, _⟩ := sliceAt_range colors k0 r0.1 (by rw [hlen]; exact_mod_cast r0.2)
  obtain ⟨c1, hc1, _⟩ := sliceAt_range colors k1 r1.1 (by rw [hlen]; exact_mod_cast r1.2)
  obtain ⟨c2, hc2, _⟩ := sliceAt_range colors k2 r2.1 (by rw [hlen]; exact_mod_cast r2.2)
  have houter : ∀ sh ∈ shapes "outer", ShapeOk sh := shapesOuter_ok
  have hcenter : ∀ sh ∈ shapes "center", ShapeOk sh := shapesCenter_ok
  have nouter : shapes "outer" ≠ [] := by simp [shapes, shapesOuter]
  have ncenter : shapes "center" ≠ [] := by simp [shapes, shapesCenter]
  have i0 : sliceAt [k0, k1, k2] 0 = .ok k0 := rfl
  have i1 : sliceAt [k0, k1, k2] 1 = .ok k1 := rfl
  have i2 : sliceAt [k0, k1, k2] 2 = .ok k2 := rfl
  have b1 : 1 < hash.data.length := by omega
  have b2 : 2 < hash.data.length := by omega
  have b3 : 3 < hash.data.length := by omega
  have b4 : 4 < hash.data.length := by omega
  have b5 : 5 < hash.data.length := by omega
  have b0 : 0 < hash.data.length := by omega
  obtain ⟨d2, d3, sh0, g1, hd2, hd3, hsh0, _, hrun0, hp0, _, hrs0⟩ :=
    renderShape_calls hash hs colors [k0, k1, k2] (gridOrigin size) (gridOrigin size)
      (gridCell size) (Graphics_new renderer) 0 (shapes "outer") houter nouter 2 3 b2 b3
      sidesCoords (by decide) k0 c0 i0 hc0
  obtain ⟨d4, d5, sh1, g2, hd4, hd5, hsh1, _, hrun1, hp1, _, hrs1⟩ :=
    renderShape_calls hash hs colors [k0, k1, k2] (gridOrigin size) (gridOrigin size)
      (gridCell size) { g1 with renderer := g1.renderer.endShape c0 } 1 (shapes "outer")
      houter nouter 4 5 b4 b5 cornersCoords (by decide) k1 c1 i1 hc1
  obtain ⟨d1, d0, sh2, g3, hd1, _, hsh2, _, hrun2, hp2, _, hrs2⟩ :=
    renderShape_calls hash hs colors [k0, k1, k2] (gridOrigin size) (gridOrigin size)
      (gridCell size) { g2 with renderer := g2.renderer.endShape c1 } 2 (shapes "center")
      hcenter ncenter 1 0 b1 b0 centerCoords (by decide) k2 c2 i2 hc2
  rw [← renderCells_eq_runCalls _ _ _ _ _ (by decide)] at hrun0 hrun1 hrun2
  rw [← goMod_natCast] at hsh0 hsh1 hsh2
  simp only [Nat.cast_ofNat, Nat.cast_one, Nat.cast_zero, OfNat.ofNat_ne_zero, if_false,
    if_true] at hrun0 hrun1 hrun2 hrs0 hrs1 hrs2
  have hlen5 : (colors.length : Int) = 5 := by rw [hlen]; rfl
  have hres : iconGenerator renderer hash size config = .ok (g3.renderer.endShape c2) := by
    unfold iconGenerator
    rw [hv]
    simp only [Bool.not_true, Bool.false_eq_true, if_false]
    rw [htail]
    dsimp only
    rw [hcolors]
    dsimp only
    rw [hlen5, hci]
    dsimp only
    have hrs0b := hrs0
    have hrs1b := hrs1
    have hrs2b := hrs2
    unfold gridOrigin gridCell sidesCoords at hrs0b
    unfold gridOrigin gridCell cornersCoords at hrs1b
    unfold gridOrigin gridCell centerCoords at hrs2b
    rw [hrs0b]
    dsimp only
    rw [hrs1b]
    dsimp only
    rw [hrs2b]
  have hq0 : g1.renderer.pathsByColor = renderer.pathsByColor := hp0
  have hq1 : g2.renderer.pathsByColor = mapSet renderer.pathsByColor c0 g1.renderer.path := by
    rw [hp1]
    show mapSet g1.renderer.pathsByColor c0 g1.renderer.path = _
    rw [hq0]
  have hq2 : g3.renderer.pathsByColor =
      mapSet (mapSet renderer.pathsByColor c0 g1.renderer.path) c1 g2.renderer.path := by
    rw [hp2]
    show mapSet g2.renderer.pathsByColor c1 g2.renderer.path = _
    rw [hq1]
  exact ⟨⟨v, d1, d2, d3, d4, d5, colors, k0, k1, k2, c0, c1, c2, sh0, sh1, sh2, g1, g2, g3⟩,
    ⟨htail, hcolors, by rw [hlen5]; exact hci, hc0, hc1, hc2,
      hexDigitAt_of_getElem hash 1 d1 b1 hd1, hexDigitAt_of_getElem hash 2 d2 b2 hd2,
      hexDigitAt_of_getElem hash 3 d3 b3 hd3, hexDigitAt_of_getElem hash 4 d4 b4 hd4,
      hexDigitAt_of_getElem hash 5 d5 b5 hd5, hsh0, hsh1, hsh2, hrun0, hrs0, hrun1, hrs1,
      hrun2, hrs2, hres⟩, hv28, hlen, hq0, hq1, hq2⟩

/-! ## The loop of a pass, for any shape procedure -/


theorem cellCalls_at (x y cell : F32) :
    ∀ (coords : List (List Int)) (i r : Int) (j : Nat) (coord : List Int),
      coords[j]? = some coord →
      (cellCalls x y cell coords i r)[j]? = some
        { transform := Transform_new (x + F32.ofInt (coord.getD 0 0) * cell)
            (y + F32.ofInt (coord.getD 1 0) * cell) cell (F32.ofInt (goMod (r + j) 4)),
          cell := cell, index := i + j } := by
  intro coords
  induction coords with
  | nil => intro i r j coord h; simp at h
  | cons c0 cs ih =>
    intro i r j coord h
    cases j with
    | zero =>
      simp only [List.getElem?_cons_zero, Option.some.injEq] at h
      subst h
      simp [cellCalls]
    | succ n =>
      simp only [List.getElem?_cons_succ] at h
      have := ih (i + 1) (r + 1) n coord h
      simp only [cellCalls, List.getElem?_cons_succ]
      rw [this]
      have e1 : r + 1 + (n : Int) = r + ((n + 1 : Nat) : Int) := by push_cast; ring
      have e2 : i + 1 + (n : Int) = i + ((n + 1 : Nat) : Int) := by push_cast; ring
      rw [e1, e2]


theorem cellCalls_length (x y cell : F32) : ∀ (coords : List (List Int)) (i r : Int),
    (cellCalls x y cell coords i r).length = coords.length := by
  intro coords
  induction coords with
  | nil => intro i r; rfl
  | cons c0 cs ih => intro i r; simp only [cellCalls, List.length_cons, ih]

theorem cellCalls_eq_spec (x y cell : F32) (coords : List (List Int)) (d : Nat) :
    cellCalls x y cell coords 0 (d : Int) = specCellCalls x y cell d coords := by
  apply List.ext_getElem?
  intro n
  by_cases hn : n < coords.length
  · rw [cellCalls_at x y cell coords 0 (d : Int) n coords[n] (List.getElem?_eq_getElem hn)]
    unfold specCellCalls
    rw [List.getElem?_map, List.getElem?_range hn]
    have hg : coords.getD n [] = coords[n] := by
      simp [List.getD, List.getElem?_eq_getElem hn]
    have hm : goMod ((d : Int) + (n : Int)) 4 = (((d + n) % 4 : Nat) : Int) := by
      have := goMod_natCast (d + n) 4
      simpa using this
    simp only [Option.map_some', hg, hm, zero_add]
  · have h1 : (cellCalls x y cell coords 0 (d : Int)).length ≤ n := by
      rw [cellCalls_length]; omega
    have h2 : (specCellCalls x y cell d coords).length ≤ n := by
      unfold specCellCalls
      rw [List.length_map, List.length_range]; omega
    rw [List.getElem?_eq_none h1, List.getElem?_eq_none h2]

/-- The loop of `renderShape`, for any shape procedure, makes the invocations the
specification words, one after the other. -/
theorem renderCells_spec (shape : Shape) (x y cell : F32) (coords : List (List Int))
    (hcoords : ∀ coord ∈ coords, 2 ≤ coord.length) (d : Nat) (g : Graphics) :
    renderCells shape x y cell coords 0 (d : Int) g =
      runCalls shape (specCellCalls x y cell d coords) g := by
  rw [renderCells_eq_runCalls shape x y cell coords hcoords, cellCalls_eq_spec]

/-- The loop of the center pass, for any shape procedure: four invocations, with the
rotations 0, 1, 2, 3. -/
theorem renderCells_center (shape : Shape) (x y cell : F32) (g : Graphics) :
    renderCells shape x y cell centerCoords 0 0 g =
      (shape (Graphics.mk g.renderer (Transform_new (x + F32.ofInt 1 * cell)
          (y + F32.ofInt 1 * cell) cell (F32.ofInt 0))) cell 0).bind (fun ga =>
        (shape (Graphics.mk ga.renderer (Transform_new (x + F32.ofInt 2 * cell)
            (y + F32.ofInt 1 * cell) cell (F32.ofInt 1))) cell 1).bind (fun gb =>
          (shape (Graphics.mk gb.renderer (Transform_new (x + F32.ofInt 2 * cell)
              (y + F32.ofInt 2 * cell) cell (F32.ofInt 2))) cell 2).bind (fun gc =>
            shape (Graphics.mk gc.renderer (Transform_new (x + F32.ofInt 1 * cell)
              (y + F32.ofInt 2 * cell) cell (F32.ofInt 3))) cell 3))) := by
  rw [renderCells_eq_runCalls shape x y cell centerCoords (by decide)]
  have hl : cellCalls x y cell centerCoords 0 0 =
      [ShapeCall.mk (Transform_new (x + F32.ofInt 1 * cell) (y + F32.ofInt 1 * cell) cell
          (F32.ofInt 0)) cell 0,
       ShapeCall.mk (Transform_new (x + F32.ofInt 2 * cell) (y + F32.ofInt 1 * cell) cell
          (F32.ofInt 1)) cell 1,
       ShapeCall.mk (Transform_new (x + F32.ofInt 2 * cell) (y + F32.ofInt 2 * cell) cell
          (F32.ofInt 2)) cell 2,
       ShapeCall.mk (Transform_new (x + F32.ofInt 1 * cell) (y + F32.ofInt 2 * cell) cell
          (F32.ofInt 3)) cell 3] := rfl
  rw [hl]
  simp only [runCalls]
  cases shape (Graphics.mk g.renderer (Transform_new (x + F32.ofInt 1 * cell)
      (y + F32.ofInt 1 * cell) cell (F32.ofInt 0))) cell 0 with
  | error e => rfl
  | ok ga =>
    simp only [Except.bind]
    cases shape (Graphics.mk ga.renderer (Transform_new (x + F32.ofInt 2 * cell)
        (y + F32.ofInt 1 * cell) cell (F32.ofInt 1))) cell 1 with
    | error e => rfl
    | ok gb =>
      simp only
      cases shape (Graphics.mk gb.renderer (Transform_new (x + F32.ofInt 2 * cell)
          (y + F32.ofInt 2 * cell) cell (F32.ofInt 2))) cell 2 with
      | error e => rfl
      | ok gc =>
        simp only
        cases shape (Graphics.mk gc.renderer (Transform_new (x + F32.ofInt 1 * cell)
            (y + F32.ofInt 2 * cell) cell (F32.ofInt 3))) cell 3 with
        | error e => rfl
        | ok gd => rfl

/-! ## Color indices of a hash -/

/-- C10: for a valid hash the candidate for `i = 0, 1, 2` is the hex digit at position
`8 + i` modulo 5, and the index chosen is 1 when the candidate lies in `{0,4}` (or `{2,3}`)
together with an index chosen earlier, the candidate otherwise; exactly 3 indices are
chosen. In the run of `iconGenerator` they are used for sides, corners and center in that
order: the palette is the one `colorTheme` returns, pass number `j` is drawn and recorded
under the palette color at the `j`-th chosen index, and the renderer returned holds the
paths of the three passes under these colors, recorded in that order. -/
theorem C10_color_index_selection (renderer : SVGRenderer) (hash : String) (size : F32)
    (config : Config) (hv : ValidHash hash) :
    ∃ (ch0 ch1 ch2 : Char) (d0 d1 d2 : Nat) (t : RunTrace),
      hash.data[8]? = some ch0 ∧ hash.data[9]? = some ch1 ∧ hash.data[10]? = some ch2 ∧
      hexVal ch0 = some d0 ∧ hexVal ch1 = some d1 ∧ hexVal ch2 = some d2 ∧
      t.k0 = specChosenIndex [] ((d0 % 5 : Nat) : Int) ∧
      t.k1 = specChosenIndex [t.k0] ((d1 % 5 : Nat) : Int) ∧
      t.k2 = specChosenIndex [t.k0, t.k1] ((d2 % 5 : Nat) : Int) ∧
      colorIndexes hash 5 = .ok [t.k0, t.k1, t.k2] ∧
      IsRunTrace renderer hash size config t ∧
      colorTheme (F32.ofInt (t.hueValue : Int) / F32.lit 268435455 1) config = .ok t.colors ∧
      t.colors.length = 5 ∧
      sliceAt t.colors t.k0 = .ok t.c0 ∧ sliceAt t.colors t.k1 = .ok t.c1 ∧
      sliceAt t.colors t.k2 = .ok t.c2 ∧
      renderCells t.sh0 (gridOrigin size) (gridOrigin size) (gridCell size) sidesCoords 0
        (t.d3 : Int) (Graphics.mk ((Graphics_new renderer).renderer.beginShape t.c0)
          (Graphics_new renderer).transform) = .ok t.g1 ∧
      renderShape hash t.colors [t.k0, t.k1, t.k2] (gridOrigin size) (gridOrigin size)
        (gridCell size) (Graphics_new renderer) 0 (shapes "outer") 2 3 sidesCoords =
        .ok (Graphics.mk (t.g1.renderer.endShape t.c0) t.g1.transform) ∧
      renderCells t.sh1 (gridOrigin size) (gridOrigin size) (gridCell size) cornersCoords 0
        (t.d5 : Int) (Graphics.mk ((t.g1.renderer.endShape t.c0).beginShape t.c1)
          t.g1.transform) = .ok t.g2 ∧
      renderShape hash t.colors [t.k0, t.k1, t.k2] (gridOrigin size) (gridOrigin size)
        (gridCell size) (Graphics.mk (t.g1.renderer.endShape t.c0) t.g1.transform) 1
        (shapes "outer") 4 5 cornersCoords =
        .ok (Graphics.mk (t.g2.renderer.endShape t.c1) t.g2.transform) ∧
      renderCells t.sh2 (gridOrigin size) (gridOrigin size) (gridCell size) centerCoords 0 0
        (Graphics.mk ((t.g2.renderer.endShape t.c1).beginShape t.c2) t.g2.transform) =
        .ok t.g3 ∧
      renderShape hash t.colors [t.k0, t.k1, t.k2] (gridOrigin size) (gridOrigin size)
        (gridCell size) (Graphics.mk (t.g2.renderer.endShape t.c1) t.g2.transform) 2
        (shapes "center") 1 0 centerCoords =
        .ok (Graphics.mk (t.g3.renderer.endShape t.c2) t.g3.transform) ∧
      ∃ r : SVGRenderer,
        iconGenerator renderer hash size config = .ok r ∧
        r.pathsByColor =
          mapSet (mapSet (mapSet renderer.pathsByColor t.c0 t.g1.renderer.path) t.c1
            t.g2.renderer.path) t.c2 t.g3.renderer.path := by
  have hm := (validHash_iff hash).mp hv
  obtain ⟨hs, hl⟩ := (matchHex_iff 11 hash).mp hm
  obtain ⟨d0, d1, d2, hv0, hv1, hv2, hci⟩ := colorIndexes_ok hash hs hl
  obtain ⟨t, ht, _, hlen, _, _, hq3⟩ := isRunTrace_exists renderer hash size config hm
  have hidx := ht.indexes
  have hlen5 : (t.colors.length : Int) = 5 := by rw [hlen]; rfl
  rw [hlen5, hci] at hidx
  have hlist := except_ok_inj hidx
  have e0 : specChosenIndex [] ((d0 % 5 : Nat) : Int) = t.k0 := (List.cons.inj hlist).1
  have e1 := (List.cons.inj (List.cons.inj hlist).2).1
  have e2 := (List.cons.inj (List.cons.inj (List.cons.inj hlist).2).2).1
  rw [e0] at e1 e2
  rw [e1] at e2
  have hci2 : colorIndexes hash 5 = .ok [t.k0, t.k1, t.k2] := by
    rw [hci, e0, e1, e2]
  have b8 : 8 < hash.data.length := by omega
  have b9 : 9 < hash.data.length := by omega
  have b10 : 10 < hash.data.length := by omega
  refine ⟨hash.data[8], hash.data[9], hash.data[10], d0, d1, d2, t,
    List.getElem?_eq_getElem b8, List.getElem?_eq_getElem b9, List.getElem?_eq_getElem b10,
    hv0, hv1, hv2, e0.symm, e1.symm, e2.symm, hci2, ht, ht.palette, hlen, ht.color0,
    ht.color1, ht.color2, ht.sidesLoop, ht.sides, ht.cornersLoop, ht.corners, ht.centerLoop,
    ht.center, _, ht.result, ?_⟩
  show mapSet t.g3.renderer.pathsByColor t.c2 t.g3.renderer.path = _
  rw [hq3]

/-- C10 at the hash `0123456789abcdef0123456789abcdef`: the chosen indices are 3, 4, 1. -/
theorem C10_color_index_selection_witness :
    ValidHash "0123456789abcdef0123456789abcdef" ∧
    ∃ t : RunTrace,
      IsRunTrace (SVGRenderer_new (F32.ofInt 256)) "0123456789abcdef0123456789abcdef"
        (F32.ofInt 256) getCurrentConfig t ∧
      colorIndexes "0123456789abcdef0123456789abcdef" 5 = .ok [t.k0, t.k1, t.k2] ∧
      [t.k0, t.k1, t.k2] = [3, 4, 1] ∧
      t.colors.length = 5 ∧
      sliceAt t.colors t.k0 = .ok t.c0 ∧ sliceAt t.colors t.k1 = .ok t.c1 ∧
      sliceAt t.colors t.k2 = .ok t.c2 ∧
      ∃ r : SVGRenderer,
        iconGenerator (SVGRenderer_new (F32.ofInt 256)) "0123456789abcdef0123456789abcdef"
          (F32.ofInt 256) getCurrentConfig = .ok r ∧
        r.pathsByColor =
          mapSet (mapSet (mapSet (SVGRenderer_new (F32.ofInt 256)).pathsByColor t.c0
            t.g1.renderer.path) t.c1 t.g2.renderer.path) t.c2 t.g3.renderer.path := by
  refine ⟨by decide, ?_⟩
  obtain ⟨_, _, _, _, _, _, t, _, _, _, _, _, _, _, _, _, hci, ht, _, hlen, hc0, hc1, hc2, _,
    _, _, _, _, _, hr⟩ := C10_color_index_selection (SVGRenderer_new (F32.ofInt 256))
    "0123456789abcdef0123456789abcdef" (F32.ofInt 256) getCurrentConfig (by decide)
  refine ⟨t, ht, hci, ?_, hlen, hc0, hc1, hc2, hr⟩
  have h1 : colorIndexes "0123456789abcdef0123456789abcdef" 5 = .ok [3, 4, 1] := by decide!
  rw [h1] at hci
  exact (except_ok_inj hci).symm

/-! ## The example document -/

theorem le_of_unit (m : Nat) (e : Int) (h : (m : ℚ) * (2 : ℚ) ^ e ≤ 1) :
    F32.le F32.zero (F32.fin false m e) = true ∧
    F32.le (F32.fin false m e) (F32.lit 1 1) = true := by
  constructor
  · simp only [F32.le, F32.lt, F32.eq, F32.zero, Bool.or_eq_true, decide_eq_true_eq]
    have h0 : F32.aligned false 0 (-149) (min (-149) e) = 0 := by simp [F32.aligned]
    have h1 : (0 : Int) ≤ F32.aligned false m e (min (-149) e) := by
      simp [F32.aligned]
    rw [h0]
    omega
  · rw [F32.lit_1]
    simp only [F32.le, F32.lt, F32.eq, Bool.or_eq_true, decide_eq_true_eq]
    have hp := F32.two_zpow_pos (min e (-23))
    have v1 := F32.aligned_val false m e (min e (-23)) (min_le_left _ _)
    have v2 := F32.aligned_val false 8388608 (-23) (min e (-23)) (min_le_right _ _)
    rw [F32.toRat_one] at v2
    have v1' : F32.toRat (F32.fin false m e) = (m : ℚ) * (2 : ℚ) ^ e := by simp [F32.toRat]
    rw [v1'] at v1
    have hq : ((F32.aligned false m e (min e (-23)) : Int) : ℚ) ≤
        ((F32.aligned false 8388608 (-23) (min e (-23)) : Int) : ℚ) := by
      by_contra hcon
      push_neg at hcon
      have := mul_lt_mul_of_pos_right hcon hp
      rw [v1, v2] at this
      linarith
    have hz : F32.aligned false m e (min e (-23)) ≤
        F32.aligned false 8388608 (-23) (min e (-23)) := by exact_mod_cast hq
    omega

/-- C12 as stated fails: the valid hash `0000fffffff` ends in `fffffff`, whose value is
`0xfffffff`; in its run `_hue` is `0xfffffff`, the hue handed to `colorTheme` is exactly 1,
not less than 1, and the palette of the run is the one of the hue 1. -/
theorem C12_counterexample :
    ValidHash "0000fffffff" ∧
    ∃ t : RunTrace,
      IsRunTrace (SVGRenderer_new (F32.ofInt 256)) "0000fffffff" (F32.ofInt 256)
        getCurrentConfig t ∧
      t.hueValue = 268435455 ∧
      F32.ofInt (t.hueValue : Int) / F32.lit 268435455 1 = F32.lit 1 1 ∧
      F32.lt (F32.ofInt (t.hueValue : Int) / F32.lit 268435455 1) (F32.lit 1 1) = false ∧
      colorTheme (F32.lit 1 1) getCurrentConfig = .ok t.colors := by
  refine ⟨by decide, ?_⟩
  obtain ⟨t, ht, _⟩ := isRunTrace_exists (SVGRenderer_new (F32.ofInt 256)) "0000fffffff"
    (F32.ofInt 256) getCurrentConfig (by decide)
  have hv : t.hueValue = 268435455 := by
    have h1 : (strFrom "0000fffffff" ((("0000fffffff".data.length : Nat) : Int) - 7)).map
        ParseInt16 = .ok (((268435455 : Nat) : Int)) := by decide!
    have h2 := ht.tail
    rw [h1] at h2
    exact (Int.ofNat.inj (except_ok_inj h2)).symm
  have hp := ht.palette
  rw [hv] at hp
  have hone : F32.ofInt ((268435455 : Nat) : Int) / F32.lit 268435455 1 = F32.lit 1 1 := by
    decide!
  rw [hone] at hp
  exact ⟨t, ht, hv, by rw [hv]; exact hone, by rw [hv, hone]; decide!, hp⟩

/-- C12, amended: for every valid hash the hue that `iconGenerator` computes and hands to
`colorTheme`, the value `_hue` of the last 7 hex characters divided by `0xfffffff`, lies in
the closed interval `[0,1]`: `_hue` is at most `0xfffffff`, the hue is at least 0 and at
most 1, and it is exactly 1 when the last 7 characters are `fffffff`. -/
theorem C12_hue_in_unit_interval (renderer : SVGRenderer) (hash : String) (size : F32)
    (config : Config) (hv : ValidHash hash) :
    ∃ t : RunTrace,
      IsRunTrace renderer hash size config t ∧
      (strFrom hash ((hash.data.length : Int) - 7)).map ParseInt16 = .ok (t.hueValue : Int) ∧
      colorTheme (F32.ofInt (t.hueValue : Int) / F32.lit 268435455 1) config = .ok t.colors ∧
      t.hueValue ≤ 268435455 ∧
      F32.le F32.zero (F32.ofInt (t.hueValue : Int) / F32.lit 268435455 1) = true ∧
      F32.le (F32.ofInt (t.hueValue : Int) / F32.lit 268435455 1) (F32.lit 1 1) = true ∧
      (strFrom hash ((hash.data.length : Int) - 7) = .ok "fffffff" →
        t.hueValue = 268435455 ∧
        F32.ofInt (t.hueValue : Int) / F32.lit 268435455 1 = F32.lit 1 1) := by
  obtain ⟨t, ht, hv28, _⟩ :=
    isRunTrace_exists renderer hash size config ((validHash_iff hash).mp hv)
  obtain ⟨m, e, hhue, hunit⟩ := F32.hue_unit (t.hueValue : Int) (by omega)
    (by exact_mod_cast hv28)
  have hle := le_of_unit m e hunit
  rw [← hhue] at hle
  refine ⟨t, ht, ht.tail, ht.palette, by norm_num at hv28; omega, hle.1, hle.2, ?_⟩
  intro htl
  have h2 := ht.tail
  rw [htl] at h2
  have h1 : (Except.ok "fffffff" : Except Panic String).map ParseInt16 =
      .ok (((268435455 : Nat) : Int)) := by decide!
  rw [h1] at h2
  have hval : t.hueValue = 268435455 := (Int.ofNat.inj (except_ok_inj h2)).symm
  refine ⟨hval, ?_⟩
  rw [hval]
  decide!

/-- The amended C12 at the hash `0000fffffff`, whose last 7 characters are `fffffff`: the
hue of the run is exactly 1. -/
theorem C12_hue_in_unit_interval_witness :
    ValidHash "0000fffffff" ∧
    ∃ t : RunTrace,
      IsRunTrace (SVGRenderer_new (F32.ofInt 256)) "0000fffffff" (F32.ofInt 256)
        getCurrentConfig t ∧
      F32.le F32.zero (F32.ofInt (t.hueValue : Int) / F32.lit 268435455 1) = true ∧
      F32.le (F32.ofInt (t.hueValue : Int) / F32.lit 268435455 1) (F32.lit 1 1) = true ∧
      F32.ofInt (t.hueValue : Int) / F32.lit 268435455 1 = F32.lit 1 1 := by
  refine ⟨by decide, ?_⟩
  obtain ⟨t, ht, _, _, _, h0, h1, hf⟩ := C12_hue_in_unit_interval
    (SVGRenderer_new (F32.ofInt 256)) "0000fffffff" (F32.ofInt 256) getCurrentConfig
    (by decide)
  exact ⟨t, ht, h0, h1, (hf (by decide)).2⟩

/-! ## The passes: rotation, placement, shape selection -/

/-- The center pass of a run, invocation by invocation. -/
theorem center_pass_calls (renderer : SVGRenderer) (hash : String) (size : F32)
    (config : Config) (t : RunTrace) (ht : IsRunTrace renderer hash size config t) :
    ∃ ga gb gc : Graphics,
      t.sh2 (Graphics.mk ((t.g2.renderer.endShape t.c1).beginShape t.c2)
        (Transform_new (gridOrigin size + F32.ofInt 1 * gridCell size)
          (gridOrigin size + F32.ofInt 1 * gridCell size) (gridCell size) (F32.ofInt 0)))
        (gridCell size) 0 = .ok ga ∧
      t.sh2 (Graphics.mk ga.renderer
        (Transform_new (gridOrigin size + F32.ofInt 2 * gridCell size)
          (gridOrigin size + F32.ofInt 1 * gridCell size) (gridCell size) (F32.ofInt 1)))
        (gridCell size) 1 = .ok gb ∧
      t.sh2 (Graphics.mk gb.renderer
        (Transform_new (gridOrigin size + F32.ofInt 2 * gridCell size)
          (gridOrigin size + F32.ofInt 2 * gridCell size) (gridCell size) (F32.ofInt 2)))
        (gridCell size) 2 = .ok gc ∧
      t.sh2 (Graphics.mk gc.renderer
        (Transform_new (gridOrigin size + F32.ofInt 1 * gridCell size)
          (gridOrigin size + F32.ofInt 2 * gridCell size) (gridCell size) (F32.ofInt 3)))
        (gridCell size) 3 = .ok t.g3 := by
  have h := ht.centerLoop
  rw [renderCells_center] at h
  obtain ⟨ga, ha, h⟩ := except_bind_ok h
  obtain ⟨gb, hb, h⟩ := except_bind_ok h
  obtain ⟨gc, hc, h⟩ := except_bind_ok h
  exact ⟨ga, gb, gc, ha, hb, hc, h⟩

/-- C13, amended: for every valid hash the center pass draws its four cells `(1,1)`,
`(2,1)`, `(2,2)`, `(1,2)` with the rotations 0, 1, 2, 3 in this order. The loop of
`renderShape`, entered for the center coordinates with the rotation counter 0 and any
shape procedure, invokes the procedure four times, one after the other, under the
Transforms `(x + col*cell, y + row*cell, cell, i)` for `i = 0, 1, 2, 3`; and in the run of
`iconGenerator` the center shape is invoked under exactly these Transforms, the last
invocation leaving the state whose path `endShape` records. -/
theorem C13_center_pass_rotations (renderer : SVGRenderer) (hash : String) (size : F32)
    (config : Config) (hv : ValidHash hash) :
    (∀ (shape : Shape) (x y cell : F32) (g : Graphics),
      renderCells shape x y cell centerCoords 0 0 g =
        (shape (Graphics.mk g.renderer (Transform_new (x + F32.ofInt 1 * cell)
            (y + F32.ofInt 1 * cell) cell (F32.ofInt 0))) cell 0).bind (fun ga =>
          (shape (Graphics.mk ga.renderer (Transform_new (x + F32.ofInt 2 * cell)
              (y + F32.ofInt 1 * cell) cell (F32.ofInt 1))) cell 1).bind (fun gb =>
            (shape (Graphics.mk gb.renderer (Transform_new (x + F32.ofInt 2 * cell)
                (y + F32.ofInt 2 * cell) cell (F32.ofInt 2))) cell 2).bind (fun gc =>
              shape (Graphics.mk gc.renderer (Transform_new (x + F32.ofInt 1 * cell)
                (y + F32.ofInt 2 * cell) cell (F32.ofInt 3))) cell 3)))) ∧
    ∃ (t : RunTrace) (ga gb gc : Graphics),
      IsRunTrace renderer hash size config t ∧
      t.sh2 (Graphics.mk ((t.g2.renderer.endShape t.c1).beginShape t.c2)
        (Transform_new (gridOrigin size + F32.ofInt 1 * gridCell size)
          (gridOrigin size + F32.ofInt 1 * gridCell size) (gridCell size) (F32.ofInt 0)))
        (gridCell size) 0 = .ok ga ∧
      t.sh2 (Graphics.mk ga.renderer
        (Transform_new (gridOrigin size + F32.ofInt 2 * gridCell size)
          (gridOrigin size + F32.ofInt 1 * gridCell size) (gridCell size) (F32.ofInt 1)))
        (gridCell size) 1 = .ok gb ∧
      t.sh2 (Graphics.mk gb.renderer
        (Transform_new (gridOrigin size + F32.ofInt 2 * gridCell size)
          (gridOrigin size + F32.ofInt 2 * gridCell size) (gridCell size) (F32.ofInt 2)))
        (gridCell size) 2 = .ok gc ∧
      t.sh2 (Graphics.mk gc.renderer
        (Transform_new (gridOrigin size + F32.ofInt 1 * gridCell size)
          (gridOrigin size + F32.ofInt 2 * gridCell size) (gridCell size) (F32.ofInt 3)))
        (gridCell size) 3 = .ok t.g3 ∧
      iconGenerator renderer hash size config = .ok (t.g3.renderer.endShape t.c2) := by
  refine ⟨renderCells_center, ?_⟩
  obtain ⟨t, ht, _⟩ :=
    isRunTrace_exists renderer hash size config ((validHash_iff hash).mp hv)
  obtain ⟨ga, gb, gc, ha, hb, hc, hd⟩ := center_pass_calls renderer hash size config t ht
  exact ⟨t, ga, gb, gc, ht, ha, hb, hc, hd, ht.result⟩

/-- The amended C13 at the hash `0123456789abcdef0123456789abcdef`, size 256. -/
theorem C13_center_pass_rotations_witness :
    ValidHash "0123456789abcdef0123456789abcdef" ∧
    ∃ (t : RunTrace) (ga gb gc : Graphics),
      IsRunTrace (SVGRenderer_new (F32.ofInt 256)) "0123456789abcdef0123456789abcdef"
        (F32.ofInt 256) getCurrentConfig t ∧
      t.sh2 (Graphics.mk ((t.g2.renderer.endShape t.c1).beginShape t.c2)
        (Transform_new (gridOrigin (F32.ofInt 256) + F32.ofInt 1 * gridCell (F32.ofInt 256))
          (gridOrigin (F32.ofInt 256) + F32.ofInt 1 * gridCell (F32.ofInt 256))
          (gridCell (F32.ofInt 256)) (F32.ofInt 0)))
        (gridCell (F32.ofInt 256)) 0 = .ok ga ∧
      t.sh2 (Graphics.mk ga.renderer
        (Transform_new (gridOrigin (F32.ofInt 256) + F32.ofInt 2 * gridCell (F32.ofInt 256))
          (gridOrigin (F32.ofInt 256) + F32.ofInt 1 * gridCell (F32.ofInt 256))
          (gridCell (F32.ofInt 256)) (F32.ofInt 1)))
        (gridCell (F32.ofInt 256)) 1 = .ok gb ∧
      t.sh2 (Graphics.mk gb.renderer
        (Transform_new (gridOrigin (F32.ofInt 256) + F32.ofInt 2 * gridCell (F32.ofInt 256))
          (gridOrigin (F32.ofInt 256) + F32.ofInt 2 * gridCell (F32.ofInt 256))
          (gridCell (F32.ofInt 256)) (F32.ofInt 2)))
        (gridCell (F32.ofInt 256)) 2 = .ok gc ∧
      t.sh2 (Graphics.mk gc.renderer
        (Transform_new (gridOrigin (F32.ofInt 256) + F32.ofInt 1 * gridCell (F32.ofInt 256))
          (gridOrigin (F32.ofInt 256) + F32.ofInt 2 * gridCell (F32.ofInt 256))
          (gridCell (F32.ofInt 256)) (F32.ofInt 3)))
        (gridCell (F32.ofInt 256)) 3 = .ok t.g3 ∧
      iconGenerator (SVGRenderer_new (F32.ofInt 256)) "0123456789abcdef0123456789abcdef"
        (F32.ofInt 256) getCurrentConfig = .ok (t.g3.renderer.endShape t.c2) :=
  ⟨by decide, (C13_center_pass_rotations (SVGRenderer_new (F32.ofInt 256))
    "0123456789abcdef0123456789abcdef" (F32.ofInt 256) getCurrentConfig (by decide)).2⟩

/-- C13 as stated fails: in the run on the hash `0123456789abcdef0123456789abcdef` at
size 256 the center shape is invoked under the rotations 0, 1, 2, 3, so the cell `(2,1)`
is drawn under rotation 1, which is not 0; and for the center shape of this run the
rotation shows: on the grid of the run the loop of `renderShape` draws another path than
four invocations under rotation 0 would. -/
theorem C13_counterexample :
    ∃ (t : RunTrace) (ga gb gc : Graphics),
      IsRunTrace (SVGRenderer_new (F32.ofInt 256)) "0123456789abcdef0123456789abcdef"
        (F32.ofInt 256) getCurrentConfig t ∧
      t.sh2 (Graphics.mk ((t.g2.renderer.endShape t.c1).beginShape t.c2)
        (Transform_new (gridOrigin (F32.ofInt 256) + F32.ofInt 1 * gridCell (F32.ofInt 256))
          (gridOrigin (F32.ofInt 256) + F32.ofInt 1 * gridCell (F32.ofInt 256))
          (gridCell (F32.ofInt 256)) (F32.ofInt 0)))
        (gridCell (F32.ofInt 256)) 0 = .ok ga ∧
      t.sh2 (Graphics.mk ga.renderer
        (Transform_new (gridOrigin (F32.ofInt 256) + F32.ofInt 2 * gridCell (F32.ofInt 256))
          (gridOrigin (F32.ofInt 256) + F32.ofInt 1 * gridCell (F32.ofInt 256))
          (gridCell (F32.ofInt 256)) (F32.ofInt 1)))
        (gridCell (F32.ofInt 256)) 1 = .ok gb ∧
      t.sh2 (Graphics.mk gb.renderer
        (Transform_new (gridOrigin (F32.ofInt 256) + F32.ofInt 2 * gridCell (F32.ofInt 256))
          (gridOrigin (F32.ofInt 256) + F32.ofInt 2 * gridCell (F32.ofInt 256))
          (gridCell (F32.ofInt 256)) (F32.ofInt 2)))
        (gridCell (F32.ofInt 256)) 2 = .ok gc ∧
      t.sh2 (Graphics.mk gc.renderer
        (Transform_new (gridOrigin (F32.ofInt 256) + F32.ofInt 1 * gridCell (F32.ofInt 256))
          (gridOrigin (F32.ofInt 256) + F32.ofInt 2 * gridCell (F32.ofInt 256))
          (gridCell (F32.ofInt 256)) (F32.ofInt 3)))
        (gridCell (F32.ofInt 256)) 3 = .ok t.g3 ∧
      iconGenerator (SVGRenderer_new (F32.ofInt 256)) "0123456789abcdef0123456789abcdef"
        (F32.ofInt 256) getCurrentConfig = .ok (t.g3.renderer.endShape t.c2) ∧
      F32.eq (F32.ofInt 1) (F32.ofInt 0) = false ∧
      (renderCells t.sh2 (gridOrigin (F32.ofInt 256)) (gridOrigin (F32.ofInt 256))
          (gridCell (F32.ofInt 256)) centerCoords 0 0
          (Graphics_new (SVGRenderer_new (F32.ofInt 256)))).map (fun g => g.renderer.path) ≠
        (runCalls t.sh2
          [ShapeCall.mk (Transform_new
              (gridOrigin (F32.ofInt 256) + F32.ofInt 1 * gridCell (F32.ofInt 256))
              (gridOrigin (F32.ofInt 256) + F32.ofInt 1 * gridCell (F32.ofInt 256))
              (gridCell (F32.ofInt 256)) (F32.ofInt 0)) (gridCell (F32.ofInt 256)) 0,
            ShapeCall.mk (Transform_new
              (gridOrigin (F32.ofInt 256) + F32.ofInt 2 * gridCell (F32.ofInt 256))
              (gridOrigin (F32.ofInt 256) + F32.ofInt 1 * gridCell (F32.ofInt 256))
              (gridCell (F32.ofInt 256)) (F32.ofInt 0)) (gridCell (F32.ofInt 256)) 1,
            ShapeCall.mk (Transform_new
              (gridOrigin (F32.ofInt 256) + F32.ofInt 2 * gridCell (F32.ofInt 256))
              (gridOrigin (F32.ofInt 256) + F32.ofInt 2 * gridCell (F32.ofInt 256))
              (gridCell (F32.ofInt 256)) (F32.ofInt 0)) (gridCell (F32.ofInt 256)) 2,
            ShapeCall.mk (Transform_new
              (gridOrigin (F32.ofInt 256) + F32.ofInt 1 * gridCell (F32.ofInt 256))
              (gridOrigin (F32.ofInt 256) + F32.ofInt 2 * gridCell (F32.ofInt 256))
              (gridCell (F32.ofInt 256)) (F32.ofInt 0)) (gridCell (F32.ofInt 256)) 3]
          (Graphics_new (SVGRenderer_new (F32.ofInt 256)))).map (fun g => g.renderer.path) := by
  obtain ⟨t, ht, _⟩ := isRunTrace_exists (SVGRenderer_new (F32.ofInt 256))
    "0123456789abcdef0123456789abcdef" (F32.ofInt 256) getCurrentConfig (by decide)
  obtain ⟨ga, gb, gc, ha, hb, hc, hd⟩ := center_pass_calls _ _ _ _ t ht
  refine ⟨t, ga, gb, gc, ht, ha, hb, hc, hd, ht.result, by decide, ?_⟩
  have hd1 : t.d1 = 1 := by
    have h1 : hexDigitAt "0123456789abcdef0123456789abcdef" 1 = some 1 := by decide
    have h2 := ht.digit1
    rw [h1] at h2
    exact (Option.some.inj h2).symm
  have hs := ht.shape2
  rw [hd1] at hs
  generalize t.sh2 = sh at hs ⊢
  change Except.ok _ = Except.ok sh at hs
  have hs2 := except_ok_inj hs
  subst hs2
  decide!

theorem specCellCalls_at (x y cell : F32) (d : Nat) (coords : List (List Int)) (i : Nat)
    (col row : Int) (h : coords[i]? = some [col, row]) :
    (specCellCalls x y cell d coords)[i]? = some
      (ShapeCall.mk (Transform_new (x + F32.ofInt col * cell) (y + F32.ofInt row * cell)
        cell (F32.ofInt (((d + i) % 4 : Nat) : Int))) cell (i : Int)) := by
  have hi : i < coords.length := by
    by_contra hn
    rw [List.getElem?_eq_none (by omega)] at h
    cases h
  have hg : coords.getD i [] = [col, row] := by
    simp [List.getD, h]
  unfold specCellCalls
  rw [List.getElem?_map, List.getElem?_range hi]
  simp only [Option.map_some', hg]
  rfl

/-- C14 as stated fails on the cell size: in the run on the hash
`0123456789abcdef0123456789abcdef` at size 256 the loop of the sides pass is entered with
the origin `10737416 * 2^-19` and the cell side `14092862 * 2^-18`, the float32 value of
`(256 - 0.08*256*2) / 4`, so every cell of the pass has this side. It is neither the
float32 value of `0.84 * 256 / 4` (`14092861 * 2^-18`, in either order of the operations)
nor the number `0.84 * 256 / 4 = 53.76` itself. -/
theorem C14_counterexample :
    ∃ t : RunTrace,
      IsRunTrace (SVGRenderer_new (F32.ofInt 256)) "0123456789abcdef0123456789abcdef"
        (F32.ofInt 256) getCurrentConfig t ∧
      t.d3 = 3 ∧
      renderCells t.sh0 (F32.fin false 10737416 (-19)) (F32.fin false 10737416 (-19))
        (F32.fin false 14092862 (-18)) sidesCoords 0 3
        (Graphics.mk ((Graphics_new (SVGRenderer_new (F32.ofInt 256))).renderer.beginShape
          t.c0) (Graphics_new (SVGRenderer_new (F32.ofInt 256))).transform) = .ok t.g1 ∧
      runCalls t.sh0 (specCellCalls (F32.fin false 10737416 (-19))
        (F32.fin false 10737416 (-19)) (F32.fin false 14092862 (-18)) 3 sidesCoords)
        (Graphics.mk ((Graphics_new (SVGRenderer_new (F32.ofInt 256))).renderer.beginShape
          t.c0) (Graphics_new (SVGRenderer_new (F32.ofInt 256))).transform) = .ok t.g1 ∧
      (∀ call ∈ specCellCalls (F32.fin false 10737416 (-19)) (F32.fin false 10737416 (-19))
          (F32.fin false 14092862 (-18)) 3 sidesCoords,
        call.cell = F32.fin false 14092862 (-18) ∧
        call.transform.size = F32.fin false 14092862 (-18)) ∧
      gridCell (F32.ofInt 256) = F32.fin false 14092862 (-18) ∧
      F32.lit 84 100 * F32.ofInt 256 / F32.lit 4 1 = F32.fin false 14092861 (-18) ∧
      F32.lit 84 100 * (F32.ofInt 256 / F32.lit 4 1) = F32.fin false 14092861 (-18) ∧
      F32.toRat (F32.fin false 14092862 (-18)) ≠ 84 / 100 * 256 / 4 := by
  obtain ⟨t, ht, _⟩ := isRunTrace_exists (SVGRenderer_new (F32.ofInt 256))
    "0123456789abcdef0123456789abcdef" (F32.ofInt 256) getCurrentConfig (by decide)
  have hd3 : t.d3 = 3 := by
    have h1 : hexDigitAt "0123456789abcdef0123456789abcdef" 3 = some 3 := by decide
    have h2 := ht.digit3
    rw [h1] at h2
    exact (Option.some.inj h2).symm
  have hcell : gridCell (F32.ofInt 256) = F32.fin false 14092862 (-18) := by decide!
  have horig : gridOrigin (F32.ofInt 256) = F32.fin false 10737416 (-19) := by decide!
  have hloop := ht.sidesLoop
  rw [hcell, horig, hd3] at hloop
  have hspec := hloop
  rw [renderCells_spec _ _ _ _ sidesCoords (by decide) 3] at hspec
  refine ⟨t, ht, hd3, hloop, hspec, by decide!, hcell, by decide!, by decide!, ?_⟩
  simp only [F32.toRat]
  rw [show (-18 : Int) = -(18 : ℕ) by norm_num, zpow_neg, zpow_natCast]
  norm_num

/-- C14, amended: per-cell placement in the sides and corners passes. The loop of
`renderShape`, for any shape procedure, invokes it for the `i`-th coordinate pair
`(col, row)` under the Transform `(x + col*cell, y + row*cell, cell, (d + i) mod 4)` with
the arguments `(cell, i)`, one pair after the other, where `d` is the value the rotation
counter starts from; in the run of `iconGenerator` on a valid hash the sides pass does so
with `d` the hex value of `hash[3]` and the corners pass with `d` the hex value of
`hash[5]`, with `cell = (size - 0.08*size*2) / 4` and
`x = y = 0.08*size + (size - 0.08*size*2)/2 - cell*2` as float32 computes them. -/
theorem C14_cell_placement (renderer : SVGRenderer) (hash : String) (size : F32)
    (config : Config) (hv : ValidHash hash) :
    (∀ (shape : Shape) (x y cell : F32) (coords : List (List Int)) (d : Nat) (g : Graphics),
      (∀ coord ∈ coords, 2 ≤ coord.length) →
      renderCells shape x y cell coords 0 (d : Int) g =
        runCalls shape (specCellCalls x y cell d coords) g) ∧
    (∀ (x y cell : F32) (d : Nat) (coords : List (List Int)) (i : Nat) (col row : Int),
      coords[i]? = some [col, row] →
      (specCellCalls x y cell d coords)[i]? = some
        (ShapeCall.mk (Transform_new (x + F32.ofInt col * cell) (y + F32.ofInt row * cell)
          cell (F32.ofInt (((d + i) % 4 : Nat) : Int))) cell (i : Int))) ∧
    gridCell size = (size - F32.lit 8 100 * size * F32.lit 2 1) / F32.lit 4 1 ∧
    gridOrigin size = F32.lit 8 100 * size +
      (size - F32.lit 8 100 * size * F32.lit 2 1) / F32.lit 2 1 - gridCell size * F32.lit 2 1 ∧
    ∃ t : RunTrace,
      IsRunTrace renderer hash size config t ∧
      hexDigitAt hash 3 = some t.d3 ∧ hexDigitAt hash 5 = some t.d5 ∧
      runCalls t.sh0
        (specCellCalls (gridOrigin size) (gridOrigin size) (gridCell size) t.d3 sidesCoords)
        (Graphics.mk ((Graphics_new renderer).renderer.beginShape t.c0)
          (Graphics_new renderer).transform) = .ok t.g1 ∧
      renderShape hash t.colors [t.k0, t.k1, t.k2] (gridOrigin size) (gridOrigin size)
        (gridCell size) (Graphics_new renderer) 0 (shapes "outer") 2 3 sidesCoords =
        .ok (Graphics.mk (t.g1.renderer.endShape t.c0) t.g1.transform) ∧
      runCalls t.sh1
        (specCellCalls (gridOrigin size) (gridOrigin size) (gridCell size) t.d5 cornersCoords)
        (Graphics.mk ((t.g1.renderer.endShape t.c0).beginShape t.c1) t.g1.transform) =
        .ok t.g2 ∧
      renderShape hash t.colors [t.k0, t.k1, t.k2] (gridOrigin size) (gridOrigin size)
        (gridCell size) (Graphics.mk (t.g1.renderer.endShape t.c0) t.g1.transform) 1
        (shapes "outer") 4 5 cornersCoords =
        .ok (Graphics.mk (t.g2.renderer.endShape t.c1) t.g2.transform) ∧
      iconGenerator renderer hash size config = .ok (t.g3.renderer.endShape t.c2) := by
  refine ⟨fun shape x y cell coords d g hc => renderCells_spec shape x y cell coords hc d g,
    specCellCalls_at, rfl, rfl, ?_⟩
  obtain ⟨t, ht, _⟩ :=
    isRunTrace_exists renderer hash size config ((validHash_iff hash).mp hv)
  have h0 := ht.sidesLoop
  rw [renderCells_spec _ _ _ _ sidesCoords (by decide)] at h0
  have h1 := ht.cornersLoop
  rw [renderCells_spec _ _ _ _ cornersCoords (by decide)] at h1
  exact ⟨t, ht, ht.digit3, ht.digit5, h0, ht.sides, h1, ht.corners, ht.result⟩

/-- The amended C14 at the hash `0123456789abcdef0123456789abcdef`, size 256. -/
theorem C14_cell_placement_witness :
    ValidHash "0123456789abcdef0123456789abcdef" ∧
    ∃ t : RunTrace,
      IsRunTrace (SVGRenderer_new (F32.ofInt 256)) "0123456789abcdef0123456789abcdef"
        (F32.ofInt 256) getCurrentConfig t ∧
      hexDigitAt "0123456789abcdef0123456789abcdef" 3 = some t.d3 ∧
      hexDigitAt "0123456789abcdef0123456789abcdef" 5 = some t.d5 ∧
      runCalls t.sh0
        (specCellCalls (gridOrigin (F32.ofInt 256)) (gridOrigin (F32.ofInt 256))
          (gridCell (F32.ofInt 256)) t.d3 sidesCoords)
        (Graphics.mk ((Graphics_new (SVGRenderer_new (F32.ofInt 256))).renderer.beginShape
          t.c0) (Graphics_new (SVGRenderer_new (F32.ofInt 256))).transform) = .ok t.g1 ∧
      renderShape "0123456789abcdef0123456789abcdef" t.colors [t.k0, t.k1, t.k2]
        (gridOrigin (F32.ofInt 256)) (gridOrigin (F32.ofInt 256)) (gridCell (F32.ofInt 256))
        (Graphics_new (SVGRenderer_new (F32.ofInt 256))) 0 (shapes "outer") 2 3 sidesCoords =
        .ok (Graphics.mk (t.g1.renderer.endShape t.c0) t.g1.transform) ∧
      runCalls t.sh1
        (specCellCalls (gridOrigin (F32.ofInt 256)) (gridOrigin (F32.ofInt 256))
          (gridCell (F32.ofInt 256)) t.d5 cornersCoords)
        (Graphics.mk ((t.g1.renderer.endShape t.c0).beginShape t.c1) t.g1.transform) =
        .ok t.g2 ∧
      renderShape "0123456789abcdef0123456789abcdef" t.colors [t.k0, t.k1, t.k2]
        (gridOrigin (F32.ofInt 256)) (gridOrigin (F32.ofInt 256)) (gridCell (F32.ofInt 256))
        (Graphics.mk (t.g1.renderer.endShape t.c0) t.g1.transform) 1
        (shapes "outer") 4 5 cornersCoords =
        .ok (Graphics.mk (t.g2.renderer.endShape t.c1) t.g2.transform) ∧
      iconGenerator (SVGRenderer_new (F32.ofInt 256)) "0123456789abcdef0123456789abcdef"
        (F32.ofInt 256) getCurrentConfig = .ok (t.g3.renderer.endShape t.c2) :=
  ⟨by decide, (C14_cell_placement (SVGRenderer_new (F32.ofInt 256))
    "0123456789abcdef0123456789abcdef" (F32.ofInt 256) getCurrentConfig
    (by decide)).2.2.2.2⟩

theorem pairsOf_length : ∀ (l : List F32), (pairsOf l).length = l.length / 2
  | [] => rfl
  | [_] => by simp [pairsOf]
  | _ :: _ :: rest => by
    simp only [pairsOf, List.length_cons, pairsOf_length rest]
    omega

theorem pairsOf_getElem : ∀ (l : List F32) (k : Nat),
    (pairsOf l)[k]? = (l[2 * k]?).bind (fun a => (l[2 * k + 1]?).map (fun b => (a, b)))
  | [], _ => by simp [pairsOf]
  | [_], 0 => by simp [pairsOf]
  | [_], k + 1 => by
    have e : 2 * (k + 1) = (2 * k + 1) + 1 := by ring
    simp [pairsOf, e]
  | _ :: _ :: _, 0 => by simp [pairsOf]
  | _ :: _ :: rest, k + 1 => by
    have e : 2 * (k + 1) = (2 * k + 1) + 1 := by ring
    simp only [pairsOf, e, List.getElem?_cons_succ]
    exact pairsOf_getElem rest k

theorem pairsOf_at (l : List F32) (hev : l.length % 2 = 0) (k : Nat) (hk : 2 * k < l.length) :
    ∃ (h0 : 2 * k < l.length) (h1 : 2 * k + 1 < l.length) (hp : k < (pairsOf l).length),
      (pairsOf l)[k] = (l[2 * k], l[2 * k + 1]) := by
  have h1 : 2 * k + 1 < l.length := by omega
  have hp : k < (pairsOf l).length := by rw [pairsOf_length]; omega
  refine ⟨hk, h1, hp, ?_⟩
  have h := pairsOf_getElem l k
  rw [List.getElem?_eq_getElem hp, List.getElem?_eq_getElem hk,
    List.getElem?_eq_getElem h1] at h
  simpa using h

theorem addPolygonLoop_forward (t : Transform) (points : List F32)
    (hev : points.length % 2 = 0) :
    ∀ (fuel k : Nat) (acc : List Point), 2 * k ≤ points.length →
      points.length < 2 * k + 2 * fuel →
      Graphics.addPolygonLoop t points 2 fuel ((2 * k : Nat) : Int) acc =
        .ok (acc ++ ((pairsOf points).drop k).map (fun p => t.transformPoint p.1 p.2 [])) := by
  intro fuel
  induction fuel with
  | zero => intro k acc h1 h2; omega
  | succ n ih =>
    intro k acc h1 h2
    unfold Graphics.addPolygonLoop
    by_cases hc : 2 * k < points.length
    · rw [if_pos ⟨by exact_mod_cast hc, by positivity⟩]
      obtain ⟨h0, h1b, hp, hval⟩ := pairsOf_at points hev k hc
      have e1 : (((2 * k : Nat) : Int) + 1) = ((2 * k + 1 : Nat) : Int) := by push_cast; ring
      have e2 : (((2 * k : Nat) : Int) + 2) = ((2 * (k + 1) : Nat) : Int) := by push_cast; ring
      rw [sliceAt_ok points (2 * k) h0, e1, sliceAt_ok points (2 * k + 1) h1b]
      dsimp only
      rw [e2, ih (k + 1) _ (by omega) (by omega)]
      congr 1
      rw [List.drop_eq_getElem_cons hp, List.map_cons, hval, List.append_assoc]
      rfl
    · rw [if_neg (by intro h; exact hc (by exact_mod_cast h.1))]
      have hk : (pairsOf points).length ≤ k := by rw [pairsOf_length]; omega
      rw [List.drop_eq_nil_of_le hk]
      simp

theorem addPolygonLoop_inverted (t : Transform) (points : List F32)
    (hev : points.length % 2 = 0) :
    ∀ (k fuel : Nat) (acc : List Point), 2 * k ≤ points.length → k < fuel →
      Graphics.addPolygonLoop t points (-2) fuel (((2 * k : Nat) : Int) - 2) acc =
        .ok (acc ++
          (((pairsOf points).take k).map (fun p => t.transformPoint p.1 p.2 [])).reverse) := by
  intro k
  induction k with
  | zero =>
    intro fuel acc _ hf
    obtain ⟨n, rfl⟩ : ∃ n, fuel = n + 1 := ⟨fuel - 1, by omega⟩
    unfold Graphics.addPolygonLoop
    rw [if_neg (by intro h; have := h.2; omega)]
    simp
  | succ k ih =>
    intro fuel acc hk hf
    obtain ⟨n, rfl⟩ : ∃ n, fuel = n + 1 := ⟨fuel - 1, by omega⟩
    have e0 : (((2 * (k + 1) : Nat) : Int) - 2) = ((2 * k : Nat) : Int) := by push_cast; ring
    rw [e0]
    unfold Graphics.addPolygonLoop
    have hc : 2 * k < points.length := by omega
    rw [if_pos ⟨by exact_mod_cast hc, by positivity⟩]
    obtain ⟨h0, h1b, hp, hval⟩ := pairsOf_at points hev k hc
    have e1 : (((2 * k : Nat) : Int) + 1) = ((2 * k + 1 : Nat) : Int) := by push_cast; ring
    have e2 : (((2 * k : Nat) : Int) + -2) = ((2 * k : Nat) : Int) - 2 := by ring
    rw [sliceAt_ok points (2 * k) h0, e1, sliceAt_ok points (2 * k + 1) h1b]
    dsimp only
    rw [e2, ih n _ (by omega) (by omega)]
    congr 1
    rw [List.take_succ, List.getElem?_eq_getElem hp, hval]
    simp

/-- C16: for a flat coordinate list of even, non-zero length and any active transform, the
point list `Graphics.addPolygon` builds without `invert` is the list of `(x, y)` pairs in
order, each mapped by `transformPoint` with `w = h = 0` (the box is omitted, which is the
same as a box of zeros); with `invert` it builds exactly the reverse of that list; both
have `len(points)/2` points, and `addPolygon` hands exactly these lists to the renderer,
which accepts them. -/
theorem C16_addPolygon_invert_reverses (g : Graphics) (points : List F32)
    (hne : points ≠ []) (hev : points.length % 2 = 0) :
    Graphics.addPolygonLoop g.transform points 2 (points.length + 1) 0 [] =
      .ok ((pairsOf points).map
        (fun p => g.transform.transformPoint p.1 p.2 [F32.zero, F32.zero])) ∧
    Graphics.addPolygonLoop g.transform points (-2) (points.length + 1)
        ((points.length : Int) - 2) [] =
      .ok ((pairsOf points).map
        (fun p => g.transform.transformPoint p.1 p.2 [F32.zero, F32.zero])).reverse ∧
    ((pairsOf points).map
      (fun p => g.transform.transformPoint p.1 p.2 [F32.zero, F32.zero])).length =
        points.length / 2 ∧
    ((pairsOf points).map
      (fun p => g.transform.transformPoint p.1 p.2 [F32.zero, F32.zero])).reverse.length =
        points.length / 2 ∧
    g.addPolygon points false =
      (g.renderer.addPolygon ((pairsOf points).map
        (fun p => g.transform.transformPoint p.1 p.2 [F32.zero, F32.zero]))).map
        (fun r => { g with renderer := r }) ∧
    g.addPolygon points true =
      (g.renderer.addPolygon ((pairsOf points).map
        (fun p => g.transform.transformPoint p.1 p.2 [F32.zero, F32.zero])).reverse).map
        (fun r => { g with renderer := r }) ∧
    (∃ g1, g.addPolygon points false = .ok g1) ∧ (∃ g2, g.addPolygon points true = .ok g2) := by
  have hbox : (fun p : F32 × F32 => g.transform.transformPoint p.1 p.2 [F32.zero, F32.zero]) =
      (fun p : F32 × F32 => g.transform.transformPoint p.1 p.2 []) := rfl
  rw [hbox]
  have hpos : 0 < points.length := List.length_pos.mpr hne
  have hf := addPolygonLoop_forward g.transform points hev (points.length + 1) 0 []
    (by omega) (by omega)
  have hi := addPolygonLoop_inverted g.transform points hev (points.length / 2)
    (points.length + 1) [] (by omega) (by omega)
  have e : (((2 * (points.length / 2) : Nat) : Int) - 2) = (points.length : Int) - 2 := by
    have : 2 * (points.length / 2) = points.length := by omega
    rw [this]
  rw [e] at hi
  have ht : (pairsOf points).take (points.length / 2) = pairsOf points := by
    rw [← pairsOf_length]; exact List.take_length _
  rw [ht] at hi
  simp only [Nat.mul_zero, Nat.cast_zero, List.drop_zero, List.nil_append] at hf hi
  refine ⟨hf, hi, by rw [List.length_map, pairsOf_length],
    by rw [List.length_reverse, List.length_map, pairsOf_length], ?_, ?_,
    (addPolygon_ok g points false hev hpos).imp (fun _ h => h.1),
    (addPolygon_ok g points true hev hpos).imp (fun _ h => h.1)⟩
  · simp only [Graphics.addPolygon, Bool.false_eq_true, if_false, hf]
  · simp only [Graphics.addPolygon, if_true, hi]

/-- C16 at the square `(0,0), (1,0), (1,1), (0,1)` in a cell of rotation 1. -/
theorem C16_addPolygon_invert_reverses_witness :
    ([F32.zero, F32.zero, F32.lit 1 1, F32.zero, F32.lit 1 1, F32.lit 1 1, F32.zero,
        F32.lit 1 1] : List F32) ≠ [] ∧
    (Graphics.mk (SVGRenderer_new (F32.lit 4 1))
        (Transform_new F32.zero F32.zero (F32.lit 4 1) (F32.lit 1 1))).addPolygon
      [F32.zero, F32.zero, F32.lit 1 1, F32.zero, F32.lit 1 1, F32.lit 1 1, F32.zero,
        F32.lit 1 1] true =
      ((SVGRenderer_new (F32.lit 4 1)).addPolygon ((pairsOf
        [F32.zero, F32.zero, F32.lit 1 1, F32.zero, F32.lit 1 1, F32.lit 1 1, F32.zero,
          F32.lit 1 1]).map
        (fun p => (Transform_new F32.zero F32.zero (F32.lit 4 1)
          (F32.lit 1 1)).transformPoint p.1 p.2 [F32.zero, F32.zero])).reverse).map
        (fun r => Graphics.mk r (Transform_new F32.zero F32.zero (F32.lit 4 1) (F32.lit 1 1))) :=
  ⟨by decide, (C16_addPolygon_invert_reverses
    (Graphics.mk (SVGRenderer_new (F32.lit 4 1))
      (Transform_new F32.zero F32.zero (F32.lit 4 1) (F32.lit 1 1)))
    [F32.zero, F32.zero, F32.lit 1 1, F32.zero, F32.lit 1 1, F32.lit 1 1, F32.zero,
      F32.lit 1 1] (by decide) (by decide)).2.2.2.2.2.1⟩

/-- C17 as stated fails: the "center" family has 14 procedures, not 13. In the run on the
valid hash `0d000000000`, whose digit at position 1 is 13, the center pass selects and
invokes the procedure at index 13; the index `13 mod 13 = 0` of the claim names another
procedure, which draws something else in a cell. -/
theorem C17_counterexample :
    (shapes "center").length = 14 ∧ (shapes "center").length ≠ 13 ∧
    ValidHash "0d000000000" ∧
    ∃ t : RunTrace,
      IsRunTrace (SVGRenderer_new (F32.ofInt 256)) "0d000000000" (F32.ofInt 256)
        getCurrentConfig t ∧
      t.d1 = 13 ∧
      sliceAt (shapes "center") 13 = .ok t.sh2 ∧
      goMod 13 13 = 0 ∧
      ∀ sh : Shape, sliceAt (shapes "center") (goMod 13 13) = .ok sh →
        (sh (Graphics_new (SVGRenderer_new (F32.ofInt 256))) (F32.ofInt 50) 0).map
            (fun g => g.renderer.path) ≠
          (t.sh2 (Graphics_new (SVGRenderer_new (F32.ofInt 256))) (F32.ofInt 50) 0).map
            (fun g => g.renderer.path) := by
  refine ⟨by decide, by decide, by decide, ?_⟩
  obtain ⟨t, ht, _⟩ := isRunTrace_exists (SVGRenderer_new (F32.ofInt 256)) "0d000000000"
    (F32.ofInt 256) getCurrentConfig (by decide)
  have hd1 : t.d1 = 13 := by
    have h1 : hexDigitAt "0d000000000" 1 = some 13 := by decide
    have h2 := ht.digit1
    rw [h1] at h2
    exact (Option.some.inj h2).symm
  have hs := ht.shape2
  rw [hd1] at hs
  refine ⟨t, ht, hd1, hs, by decide, ?_⟩
  intro sh hsh
  generalize t.sh2 = sh2 at hs ⊢
  change Except.ok _ = Except.ok sh2 at hs
  have e2 := except_ok_inj hs
  subst e2
  change Except.ok _ = Except.ok sh at hsh
  have e1 := except_ok_inj hsh
  subst e1
  decide!

/-- C17, amended: the shape catalog has exactly 14 procedures in the "center" family
(indices 0 to 13) and exactly 4 in the "outer" family (indices 0 to 3); in the run of
`iconGenerator` on a valid hash the shape of the sides pass is the outer procedure at
index `hexDigit(hash[2]) mod 4`, the shape of the corners pass the outer procedure at index
`hexDigit(hash[4]) mod 4` and the shape of the center pass the center procedure at index
`hexDigit(hash[1]) mod 14`, and the loops of the three passes invoke these procedures. -/
theorem C17_shape_selection (renderer : SVGRenderer) (hash : String) (size : F32)
    (config : Config) (hv : ValidHash hash) :
    (shapes "center").length = 14 ∧ (shapes "outer").length = 4 ∧
    ∃ t : RunTrace,
      IsRunTrace renderer hash size config t ∧
      hexDigitAt hash 1 = some t.d1 ∧ hexDigitAt hash 2 = some t.d2 ∧
      hexDigitAt hash 4 = some t.d4 ∧
      sliceAt (shapes "outer") ((t.d2 % 4 : Nat) : Int) = .ok t.sh0 ∧
      sliceAt (shapes "outer") ((t.d4 % 4 : Nat) : Int) = .ok t.sh1 ∧
      sliceAt (shapes "center") ((t.d1 % 14 : Nat) : Int) = .ok t.sh2 ∧
      renderCells t.sh0 (gridOrigin size) (gridOrigin size) (gridCell size) sidesCoords 0
        (t.d3 : Int) (Graphics.mk ((Graphics_new renderer).renderer.beginShape t.c0)
          (Graphics_new renderer).transform) = .ok t.g1 ∧
      renderShape hash t.colors [t.k0, t.k1, t.k2] (gridOrigin size) (gridOrigin size)
        (gridCell size) (Graphics_new renderer) 0 (shapes "outer") 2 3 sidesCoords =
        .ok (Graphics.mk (t.g1.renderer.endShape t.c0) t.g1.transform) ∧
      renderCells t.sh1 (gridOrigin size) (gridOrigin size) (gridCell size) cornersCoords 0
        (t.d5 : Int) (Graphics.mk ((t.g1.renderer.endShape t.c0).beginShape t.c1)
          t.g1.transform) = .ok t.g2 ∧
      renderShape hash t.colors [t.k0, t.k1, t.k2] (gridOrigin size) (gridOrigin size)
        (gridCell size) (Graphics.mk (t.g1.renderer.endShape t.c0) t.g1.transform) 1
        (shapes "outer") 4 5 cornersCoords =
        .ok (Graphics.mk (t.g2.renderer.endShape t.c1) t.g2.transform) ∧
      renderCells t.sh2 (gridOrigin size) (gridOrigin size) (gridCell size) centerCoords 0 0
        (Graphics.mk ((t.g2.renderer.endShape t.c1).beginShape t.c2) t.g2.transform) =
        .ok t.g3 ∧
      renderShape hash t.colors [t.k0, t.k1, t.k2] (gridOrigin size) (gridOrigin size)
        (gridCell size) (Graphics.mk (t.g2.renderer.endShape t.c1) t.g2.transform) 2
        (shapes "center") 1 0 centerCoords =
        .ok (Graphics.mk (t.g3.renderer.endShape t.c2) t.g3.transform) ∧
      iconGenerator renderer hash size config = .ok (t.g3.renderer.endShape t.c2) := by
  refine ⟨shapes_center_length, shapes_outer_length, ?_⟩
  obtain ⟨t, ht, _⟩ :=
    isRunTrace_exists renderer hash size config ((validHash_iff hash).mp hv)
  have h0 := ht.shape0
  have h1 := ht.shape1
  have h2 := ht.shape2
  rw [shapes_outer_length, goMod_natCast] at h0 h1
  rw [shapes_center_length, goMod_natCast] at h2
  exact ⟨t, ht, ht.digit1, ht.digit2, ht.digit4, h0, h1, h2, ht.sidesLoop, ht.sides,
    ht.cornersLoop, ht.corners, ht.centerLoop, ht.center, ht.result⟩

/-- The amended C17 at the hash `0d000000000`, size 256. -/
theorem C17_shape_selection_witness :
    ValidHash "0d000000000" ∧
    ∃ t : RunTrace,
      IsRunTrace (SVGRenderer_new (F32.ofInt 256)) "0d000000000" (F32.ofInt 256)
        getCurrentConfig t ∧
      hexDigitAt "0d000000000" 1 = some t.d1 ∧ hexDigitAt "0d000000000" 2 = some t.d2 ∧
      hexDigitAt "0d000000000" 4 = some t.d4 ∧
      sliceAt (shapes "outer") ((t.d2 % 4 : Nat) : Int) = .ok t.sh0 ∧
      sliceAt (shapes "outer") ((t.d4 % 4 : Nat) : Int) = .ok t.sh1 ∧
      sliceAt (shapes "center") ((t.d1 % 14 : Nat) : Int) = .ok t.sh2 ∧
      renderCells t.sh2 (gridOrigin (F32.ofInt 256)) (gridOrigin (F32.ofInt 256))
        (gridCell (F32.ofInt 256)) centerCoords 0 0
        (Graphics.mk ((t.g2.renderer.endShape t.c1).beginShape t.c2) t.g2.transform) =
        .ok t.g3 ∧
      iconGenerator (SVGRenderer_new (F32.ofInt 256)) "0d000000000" (F32.ofInt 256)
        getCurrentConfig = .ok (t.g3.renderer.endShape t.c2) := by
  refine ⟨by decide, ?_⟩
  obtain ⟨t, ht, h1, h2, h4, s0, s1, s2, _, _, _, _, hc, _, hr⟩ := (C17_shape_selection
    (SVGRenderer_new (F32.ofInt 256)) "0d000000000" (F32.ofInt 256) getCurrentConfig
    (by decide)).2.2
  exact ⟨t, ht, h1, h2, h4, s0, s1, s2, hc, hr⟩

/-! ## Boxes and cells -/

theorem exactAdd_units (a b : F32) (ua ub : Int) (ha : F32.toUnits a = some ua)
    (hb : F32.toUnits b = some ub) (h : F32.exactAdd a b = true) :
    F32.toUnits (a + b) = some (ua + ub) := by
  obtain ⟨a1, b1, ha1, hb1, hs⟩ := exactAdd_spec a b h
  rw [hs, Option.some.inj (ha.symm.trans ha1), Option.some.inj (hb.symm.trans hb1)]

theorem exactSub_units (a b : F32) (ua ub : Int) (ha : F32.toUnits a = some ua)
    (hb : F32.toUnits b = some ub) (h : F32.exactSub a b = true) :
    F32.toUnits (a - b) = some (ua - ub) := by
  obtain ⟨a1, b1, ha1, hb1, hs⟩ := exactSub_spec a b h
  rw [hs, Option.some.inj (ha.symm.trans ha1), Option.some.inj (hb.symm.trans hb1)]

/-- C18 as stated fails in float32: in a 256-pixel icon, take the grid cell in column 3,
row 0 (origin `tx = x + 3*cell`, side `cell`) with rotation 1 and the local box that fills
the cell (`x = y = 0`, `w = h = cell`). The box satisfies the conditions of the claim, yet
`transformPoint` returns `p.x = 11911822 * 2^-16`, one unit in the last place below
`tx = 11911823 * 2^-16`, because `tx + cell` is rounded. -/
theorem C18_counterexample :
    gridOrigin (F32.ofInt 256) + F32.ofInt 3 * gridCell (F32.ofInt 256) =
      F32.fin false 11911823 (-16) ∧
    F32.le F32.zero F32.zero = true ∧ F32.le F32.zero (gridCell (F32.ofInt 256)) = true ∧
    F32.le (F32.zero + gridCell (F32.ofInt 256)) (gridCell (F32.ofInt 256)) = true ∧
    ((Transform_new (gridOrigin (F32.ofInt 256) + F32.ofInt 3 * gridCell (F32.ofInt 256))
      (gridOrigin (F32.ofInt 256) + F32.ofInt 0 * gridCell (F32.ofInt 256))
      (gridCell (F32.ofInt 256)) (F32.ofInt 1)).transformPoint F32.zero F32.zero
      [gridCell (F32.ofInt 256), gridCell (F32.ofInt 256)]).x =
      F32.fin false 11911822 (-16) ∧
    F32.le (gridOrigin (F32.ofInt 256) + F32.ofInt 3 * gridCell (F32.ofInt 256))
      ((Transform_new (gridOrigin (F32.ofInt 256) + F32.ofInt 3 * gridCell (F32.ofInt 256))
        (gridOrigin (F32.ofInt 256) + F32.ofInt 0 * gridCell (F32.ofInt 256))
        (gridCell (F32.ofInt 256)) (F32.ofInt 1)).transformPoint F32.zero F32.zero
        [gridCell (F32.ofInt 256), gridCell (F32.ofInt 256)]).x = false ∧
    F32.lt (F32.fin false 11911822 (-16)) (F32.fin false 11911823 (-16)) = true := by
  decide!

/-- C18, amended: `transformPoint` keeps a box inside its cell when its float32 additions
and subtractions do not round. For a Transform `(tx, ty, size, rotation)` with rotation in
`{0,1,2,3}` and a local box with `x >= 0`, `y >= 0`, `x + w <= size`, `y + h <= size` (as
exact values, in units of `2^-149`; the signs of `w` and `h` play no part), if every
addition and subtraction `transformPoint` performs is exact then the returned point `p` satisfies `tx <= p.x`,
`p.x + w' <= tx + size`, `ty <= p.y` and `p.y + h' <= ty + size` as exact values, where
`(w', h') = (w, h)` for rotations 0 and 2 and `(h, w)` for rotations 1 and 3. -/
theorem C18_box_stays_in_cell_exact (tx ty size x y w h : F32) (k : Nat) (hk : k < 4)
    (utx uty us ux uy uw uh : Int)
    (htx : F32.toUnits tx = some utx) (hty : F32.toUnits ty = some uty)
    (hs : F32.toUnits size = some us) (hx : F32.toUnits x = some ux)
    (hy : F32.toUnits y = some uy) (hw : F32.toUnits w = some uw)
    (hh : F32.toUnits h = some uh)
    (x0 : 0 ≤ ux) (y0 : 0 ≤ uy)
    (hxw : ux + uw ≤ us) (hyh : uy + uh ≤ us)
    (hex : (Transform_new tx ty size (F32.ofInt (k : Int))).exactAt x y [w, h] = true) :
    ∃ px py : Int,
      F32.toUnits ((Transform_new tx ty size (F32.ofInt (k : Int))).transformPoint x y
        [w, h]).x = some px ∧
      F32.toUnits ((Transform_new tx ty size (F32.ofInt (k : Int))).transformPoint x y
        [w, h]).y = some py ∧
      utx ≤ px ∧ px + (if k % 2 = 0 then uw else uh) ≤ utx + us ∧
      uty ≤ py ∧ py + (if k % 2 = 0 then uh else uw) ≤ uty + us := by
  have r01 : F32.eq (F32.ofInt ((0 : Nat) : Int)) (F32.lit 1 1) = false := by decide
  have r02 : F32.eq (F32.ofInt ((0 : Nat) : Int)) (F32.lit 2 1) = false := by decide
  have r03 : F32.eq (F32.ofInt ((0 : Nat) : Int)) (F32.lit 3 1) = false := by decide
  have r11 : F32.eq (F32.ofInt ((1 : Nat) : Int)) (F32.lit 1 1) = true := by decide
  have r21 : F32.eq (F32.ofInt ((2 : Nat) : Int)) (F32.lit 1 1) = false := by decide
  have r22 : F32.eq (F32.ofInt ((2 : Nat) : Int)) (F32.lit 2 1) = true := by decide
  have r31 : F32.eq (F32.ofInt ((3 : Nat) : Int)) (F32.lit 1 1) = false := by decide
  have r32 : F32.eq (F32.ofInt ((3 : Nat) : Int)) (F32.lit 2 1) = false := by decide
  have r33 : F32.eq (F32.ofInt ((3 : Nat) : Int)) (F32.lit 3 1) = true := by decide
  have hk4 : k = 0 ∨ k = 1 ∨ k = 2 ∨ k = 3 := by omega
  rcases hk4 with rfl | rfl | rfl | rfl
  · simp only [Transform.exactAt, Transform.transformPoint, Transform_new, Point_new, r01,
      r02, r03, Bool.false_eq_true, if_false, Bool.and_eq_true] at hex ⊢
    obtain ⟨e1, e2⟩ := hex
    refine ⟨utx + ux, uty + uy, exactAdd_units _ _ _ _ htx hx e1,
      exactAdd_units _ _ _ _ hty hy e2, ?_, ?_, ?_, ?_⟩ <;> (try norm_num) <;> omega
  · simp only [Transform.exactAt, Transform.transformPoint, Transform_new, Point_new, r11,
      if_true, Bool.and_eq_true] at hex ⊢
    obtain ⟨⟨⟨e1, e2⟩, e3⟩, e4⟩ := hex
    have s1 := exactAdd_units _ _ _ _ htx hs e1
    have s2 := exactSub_units _ _ _ _ s1 hy e2
    have s3 := exactSub_units _ _ _ _ s2 hh e3
    refine ⟨utx + us - uy - uh, uty + ux, s3, exactAdd_units _ _ _ _ hty hx e4,
      ?_, ?_, ?_, ?_⟩ <;> (try norm_num) <;> omega
  · simp only [Transform.exactAt, Transform.transformPoint, Transform_new, Point_new, r21,
      r22, if_true, Bool.false_eq_true, if_false, Bool.and_eq_true] at hex ⊢
    obtain ⟨⟨⟨⟨⟨e1, e2⟩, e3⟩, e4⟩, e5⟩, e6⟩ := hex
    have s1 := exactAdd_units _ _ _ _ htx hs e1
    have s2 := exactSub_units _ _ _ _ s1 hx e2
    have s3 := exactSub_units _ _ _ _ s2 hw e3
    have s4 := exactAdd_units _ _ _ _ hty hs e4
    have s5 := exactSub_units _ _ _ _ s4 hy e5
    have s6 := exactSub_units _ _ _ _ s5 hh e6
    refine ⟨utx + us - ux - uw, uty + us - uy - uh, s3, s6, ?_, ?_, ?_, ?_⟩ <;>
      (try norm_num) <;> omega
  · simp only [Transform.exactAt, Transform.transformPoint, Transform_new, Point_new, r31,
      r32, r33, if_true, Bool.false_eq_true, if_false, Bool.and_eq_true] at hex ⊢
    obtain ⟨⟨⟨e1, e2⟩, e3⟩, e4⟩ := hex
    have s2 := exactAdd_units _ _ _ _ hty hs e2
    have s3 := exactSub_units _ _ _ _ s2 hx e3
    have s4 := exactSub_units _ _ _ _ s3 hw e4
    refine ⟨utx + uy, uty + us - ux - uw, exactAdd_units _ _ _ _ htx hy e1, s4,
      ?_, ?_, ?_, ?_⟩ <;> (try norm_num) <;> omega

/-- The amended C18 in the cell at `(20, 30)` of side 8 with rotation 1, for the box at
`(1, 2)` of width 3 and height 4, in units of `2^-149`. -/
theorem C18_box_stays_in_cell_exact_witness :
    F32.toUnits (F32.ofInt 20) = some (20 * 2 ^ 149) ∧
    (Transform_new (F32.ofInt 20) (F32.ofInt 30) (F32.ofInt 8)
      (F32.ofInt ((1 : Nat) : Int))).exactAt (F32.ofInt 1) (F32.ofInt 2)
      [F32.ofInt 3, F32.ofInt 4] = true ∧
    ∃ px py : Int,
      F32.toUnits ((Transform_new (F32.ofInt 20) (F32.ofInt 30) (F32.ofInt 8)
        (F32.ofInt ((1 : Nat) : Int))).transformPoint (F32.ofInt 1) (F32.ofInt 2)
        [F32.ofInt 3, F32.ofInt 4]).x = some px ∧
      F32.toUnits ((Transform_new (F32.ofInt 20) (F32.ofInt 30) (F32.ofInt 8)
        (F32.ofInt ((1 : Nat) : Int))).transformPoint (F32.ofInt 1) (F32.ofInt 2)
        [F32.ofInt 3, F32.ofInt 4]).y = some py ∧
      (20 * 2 ^ 149 : Int) ≤ px ∧
      px + (if 1 % 2 = 0 then (3 * 2 ^ 149 : Int) else 4 * 2 ^ 149) ≤
        20 * 2 ^ 149 + 8 * 2 ^ 149 ∧
      (30 * 2 ^ 149 : Int) ≤ py ∧
      py + (if 1 % 2 = 0 then (4 * 2 ^ 149 : Int) else 3 * 2 ^ 149) ≤
        30 * 2 ^ 149 + 8 * 2 ^ 149 :=
  ⟨by decide!, by decide!,
    C18_box_stays_in_cell_exact (F32.ofInt 20) (F32.ofInt 30) (F32.ofInt 8) (F32.ofInt 1)
      (F32.ofInt 2) (F32.ofInt 3) (F32.ofInt 4) 1 (by decide)
      (20 * 2 ^ 149) (30 * 2 ^ 149) (8 * 2 ^ 149) (1 * 2 ^ 149) (2 * 2 ^ 149) (3 * 2 ^ 149)
      (4 * 2 ^ 149) (by decide!) (by decide!) (by decide!) (by decide!) (by decide!)
      (by decide!) (by decide!) (by norm_num) (by norm_num) (by norm_num) (by norm_num)
      (by decide!)⟩

/-! ## Index safety of a run -/

theorem addPolygonLoop_nonempty (t : Transform) (points : List F32) (invert : Bool)
    (hev : points.length % 2 = 0) (hpos : 0 < points.length) :
    ∃ pts, Graphics.addPolygonLoop t points (if invert then -2 else 2) (points.length + 1)
        (if invert then (points.length : Int) - 2 else 0) [] = .ok pts ∧
      pts.length = points.length / 2 ∧ 1 ≤ pts.length := by
  cases invert
  · have hf := addPolygonLoop_forward t points hev (points.length + 1) 0 [] (by omega)
      (by omega)
    simp only [Nat.mul_zero, Nat.cast_zero, List.drop_zero, List.nil_append] at hf
    exact ⟨_, hf, by rw [List.length_map, pairsOf_length],
      by rw [List.length_map, pairsOf_length]; omega⟩
  · have hi := addPolygonLoop_inverted t points hev (points.length / 2)
      (points.length + 1) [] (by omega) (by omega)
    have e : (((2 * (points.length / 2) : Nat) : Int) - 2) = (points.length : Int) - 2 := by
      have : 2 * (points.length / 2) = points.length := by omega
      rw [this]
    rw [e] at hi
    refine ⟨_, hi, ?_, ?_⟩ <;>
      simp only [List.nil_append, List.length_reverse, List.length_map, List.length_take,
        pairsOf_length] <;> omega

/-- C19: no out-of-range access on valid input. For every hash that passes validation,
every size (positive or not) and every config, `iconGenerator` runs to completion without
a panic; the hash positions 1 to 5 and 8 to 10 and the last 7 characters exist; each
selected color index is at least 0 and below the palette length 5; each selected shape
index is at least 0 and below its family's length; the corrector-table index
`int(hue*6 + 0.5)` is between 0 and 6 and the table has 7 entries; every catalog shape
returns normally; and every polygon built from an even, non-empty coordinate list (the only
lists the shapes pass) has at least one point, an empty polygon being the only way
`SVGPath.addPolygon` panics. -/
theorem C19_no_out_of_range (renderer : SVGRenderer) (hash : String) (size : F32)
    (config : Config) (hv : ValidHash hash) :
    (∃ r, iconGenerator renderer hash size config = .ok r) ∧
    (∀ i ∈ [1, 2, 3, 4, 5, 8, 9, 10], ∃ s, charAt hash ((i : Nat) : Int) = .ok s) ∧
    (∃ s, strFrom hash ((hash.data.length : Int) - 7) = .ok s ∧ s.data.length = 7) ∧
    (∃ (v : Nat) (colors : List String) (k0 k1 k2 : Int) (d1 d2 d4 idx : Nat),
      (strFrom hash ((hash.data.length : Int) - 7)).map ParseInt16 = .ok (v : Int) ∧
      colorTheme (F32.ofInt (v : Int) / F32.lit 268435455 1) config = .ok colors ∧
      colors.length = 5 ∧
      colorIndexes hash (colors.length : Int) = .ok [k0, k1, k2] ∧
      (∀ k ∈ [k0, k1, k2], 0 ≤ k ∧ k < (colors.length : Int)) ∧
      hexDigitAt hash 1 = some d1 ∧ hexDigitAt hash 2 = some d2 ∧
      hexDigitAt hash 4 = some d4 ∧
      (0 ≤ goMod (d2 : Int) ((shapes "outer").length : Int) ∧
        goMod (d2 : Int) ((shapes "outer").length : Int) < ((shapes "outer").length : Int)) ∧
      (0 ≤ goMod (d4 : Int) ((shapes "outer").length : Int) ∧
        goMod (d4 : Int) ((shapes "outer").length : Int) < ((shapes "outer").length : Int)) ∧
      (0 ≤ goMod (d1 : Int) ((shapes "center").length : Int) ∧
        goMod (d1 : Int) ((shapes "center").length : Int) <
          ((shapes "center").length : Int)) ∧
      F32.toInt (F32.ofInt (v : Int) / F32.lit 268435455 1 * F32.lit 6 1 + F32.lit 5 10) =
        (idx : Int) ∧
      idx ≤ 6 ∧ correctors.length = 7) ∧
    (∀ sh ∈ shapes "center" ++ shapes "outer", ShapeOk sh) ∧
    (∀ sp : SVGPath, SVGPath.addPolygon sp [] = .error indexOutOfRange) ∧
    (∀ (sp : SVGPath) (p : Point) (ps : List Point),
      ∃ sp1, SVGPath.addPolygon sp (p :: ps) = .ok sp1) ∧
    (∀ (g : Graphics) (points : List F32) (invert : Bool), points.length % 2 = 0 →
      0 < points.length →
      ∃ pts g1, Graphics.addPolygonLoop g.transform points (if invert then -2 else 2)
          (points.length + 1) (if invert then (points.length : Int) - 2 else 0) [] = .ok pts ∧
        1 ≤ pts.length ∧ g.addPolygon points invert = .ok g1) := by
  have hm := (validHash_iff hash).mp hv
  obtain ⟨hs, hl⟩ := (matchHex_iff 11 hash).mp hm
  obtain ⟨v, d1, d2, _, d4, _, colors, k0, k1, k2, c0, c1, c2, _, _, _, _, _, _, hv28, htail,
    hcolors, hlen, hki, hc0, hc1, hc2, hd1, hd2, _, hd4, _, _, _, _, _, _, _, hrun⟩ :=
    iconGenerator_passes renderer hash size config hm
  refine ⟨⟨_, hrun⟩, ?_, ?_, ?_, ?_, fun _ => rfl, fun _ _ _ => ⟨_, rfl⟩, ?_⟩
  · intro i hi
    have hi11 : i < hash.data.length := by
      have : i ≤ 10 := by
        simp only [List.mem_cons, List.mem_singleton, List.not_mem_nil, or_false] at hi
        omega
      omega
    exact ⟨_, charAt_ok hash i hi11⟩
  · refine ⟨_, strFrom_ok hash 7 (by omega), ?_⟩
    show (hash.data.drop (hash.data.length - 7)).length = 7
    rw [List.length_drop]
    omega
  · obtain ⟨mh, eh, hhue, hunit⟩ := F32.hue_unit (v : Int) (by omega) (by exact_mod_cast hv28)
    obtain ⟨idx, hidx6, hidx⟩ := F32.hueIndex_lt false mh eh (by simp) hunit
    rw [← hhue] at hidx
    have inRange : ∀ (k : Int) (c : String), sliceAt colors k = .ok c →
        0 ≤ k ∧ k < (colors.length : Int) := by
      intro k c hc
      unfold sliceAt at hc
      by_cases hneg : k < 0
      · rw [if_pos hneg] at hc; cases hc
      · rw [if_neg hneg] at hc
        refine ⟨by omega, ?_⟩
        by_contra hge
        have : colors.length ≤ k.toNat := by omega
        rw [List.getElem?_eq_none this] at hc
        cases hc
    have hmod : ∀ d n : Nat, 0 < n → 0 ≤ goMod (d : Int) (n : Int) ∧
        goMod (d : Int) (n : Int) < (n : Int) := by
      intro d n hn
      have e : goMod (d : Int) (n : Int) = ((d % n : Nat) : Int) := (Int.ofNat_tmod d n).symm
      rw [e]
      have := Nat.mod_lt d hn
      omega
    refine ⟨v, colors, k0, k1, k2, d1, d2, d4, idx, htail, hcolors, hlen, ?_, ?_, hd1, hd2,
      hd4, hmod _ _ (by rw [shapes_outer_length]; decide),
      hmod _ _ (by rw [shapes_outer_length]; decide),
      hmod _ _ (by rw [shapes_center_length]; decide), hidx, hidx6, rfl⟩
    · rw [hlen]; exact hki
    · intro k hk
      simp only [List.mem_cons, List.mem_singleton, List.not_mem_nil, or_false] at hk
      rcases hk with rfl | rfl | rfl
      · exact inRange _ _ hc0
      · exact inRange _ _ hc1
      · exact inRange _ _ hc2
  · intro sh hsh
    rcases List.mem_append.mp hsh with h | h
    · exact shapesCenter_ok sh h
    · exact shapesOuter_ok sh h
  · intro g points invert hev hpos
    obtain ⟨pts, hp, _, h1⟩ := addPolygonLoop_nonempty g.transform points invert hev hpos
    obtain ⟨g1, hg1, _⟩ := addPolygon_ok g points invert hev hpos
    exact ⟨pts, g1, hp, h1, hg1⟩

/-- C19 at the hash `0123456789abcdef0123456789abcdef`, size 256: the run completes. -/
theorem C19_no_out_of_range_witness :
    ValidHash "0123456789abcdef0123456789abcdef" ∧
    ∃ r, iconGenerator (SVGRenderer_new (F32.ofInt 256)) "0123456789abcdef0123456789abcdef"
      (F32.ofInt 256) getCurrentConfig = .ok r :=
  ⟨by decide, (C19_no_out_of_range (SVGRenderer_new (F32.ofInt 256))
    "0123456789abcdef0123456789abcdef" (F32.ofInt 256) getCurrentConfig (by decide)).1⟩

/-! ## The chosen color indices -/

/-- The invariant of three color indices: all in `0..4`, at most one in `{0,4}`, at most
one in `{2,3}`, and two equal indices are both `1`. -/
theorem specChosenIndex_invariant : ∀ a b c : Fin 5,
    (∀ k ∈ [specChosenIndex [] ((a : Nat) : Int),
        specChosenIndex [specChosenIndex [] ((a : Nat) : Int)] ((b : Nat) : Int),
        specChosenIndex [specChosenIndex [] ((a : Nat) : Int),
          specChosenIndex [specChosenIndex [] ((a : Nat) : Int)] ((b : Nat) : Int)]
          ((c : Nat) : Int)], k ∈ [(0 : Int), 1, 2, 3, 4]) ∧
    ([specChosenIndex [] ((a : Nat) : Int),
        specChosenIndex [specChosenIndex [] ((a : Nat) : Int)] ((b : Nat) : Int),
        specChosenIndex [specChosenIndex [] ((a : Nat) : Int),
          specChosenIndex [specChosenIndex [] ((a : Nat) : Int)] ((b : Nat) : Int)]
          ((c : Nat) : Int)].filter (fun k => decide (k ∈ [(0 : Int), 4]))).length ≤ 1 ∧
    ([specChosenIndex [] ((a : Nat) : Int),
        specChosenIndex [specChosenIndex [] ((a : Nat) : Int)] ((b : Nat) : Int),
        specChosenIndex [specChosenIndex [] ((a : Nat) : Int),
          specChosenIndex [specChosenIndex [] ((a : Nat) : Int)] ((b : Nat) : Int)]
          ((c : Nat) : Int)].filter (fun k => decide (k ∈ [(2 : Int), 3]))).length ≤ 1 ∧
    (specChosenIndex [] ((a : Nat) : Int) =
        specChosenIndex [specChosenIndex [] ((a : Nat) : Int)] ((b : Nat) : Int) →
      specChosenIndex [] ((a : Nat) : Int) = 1) ∧
    (specChosenIndex [] ((a : Nat) : Int) =
        specChosenIndex [specChosenIndex [] ((a : Nat) : Int),
          specChosenIndex [specChosenIndex [] ((a : Nat) : Int)] ((b : Nat) : Int)]
          ((c : Nat) : Int) →
      specChosenIndex [] ((a : Nat) : Int) = 1) ∧
    (specChosenIndex [specChosenIndex [] ((a : Nat) : Int)] ((b : Nat) : Int) =
        specChosenIndex [specChosenIndex [] ((a : Nat) : Int),
          specChosenIndex [specChosenIndex [] ((a : Nat) : Int)] ((b : Nat) : Int)]
          ((c : Nat) : Int) →
      specChosenIndex [specChosenIndex [] ((a : Nat) : Int)] ((b : Nat) : Int) = 1) := by
  decide

/-- C20: for every valid hash, the three color indices chosen by `iconGenerator` (the
list `color_indexs`, from which the passes take their colors) all lie in `{0,1,2,3,4}`, at
most one of them lies in `{0,4}` and at most one in `{2,3}`; hence two passes that share a
color index share the index 1. -/
theorem C20_color_index_invariant (renderer : SVGRenderer) (hash : String) (size : F32)
    (config : Config) (hv : ValidHash hash) :
    ∃ (colors : List String) (k0 k1 k2 : Int) (c0 c1 c2 : String) (r : SVGRenderer),
      colors.length = 5 ∧ colorIndexes hash (colors.length : Int) = .ok [k0, k1, k2] ∧
      sliceAt colors k0 = .ok c0 ∧ sliceAt colors k1 = .ok c1 ∧ sliceAt colors k2 = .ok c2 ∧
      iconGenerator renderer hash size config = .ok r ∧
      (∀ k ∈ [k0, k1, k2], k ∈ [(0 : Int), 1, 2, 3, 4]) ∧
      ([k0, k1, k2].filter (fun k => decide (k ∈ [(0 : Int), 4]))).length ≤ 1 ∧
      ([k0, k1, k2].filter (fun k => decide (k ∈ [(2 : Int), 3]))).length ≤ 1 ∧
      (k0 = k1 → k0 = 1) ∧ (k0 = k2 → k0 = 1) ∧ (k1 = k2 → k1 = 1) := by
  have hm := (validHash_iff hash).mp hv
  obtain ⟨_, _, _, _, _, _, colors, k0, k1, k2, c0, c1, c2, _, _, _, _, _, _, _, _, _, hlen,
    hki, hc0, hc1, hc2, _, _, _, _, _, _, _, _, _, _, _, hrun⟩ :=
    iconGenerator_passes renderer hash size config hm
  obtain ⟨hs, hl⟩ := (matchHex_iff 11 hash).mp hm
  obtain ⟨d0, d1, d2, _, _, _, hci⟩ := colorIndexes_ok hash hs hl
  rw [hki] at hci
  have hlist := Except.ok.inj hci
  have e0 : k0 = _ := (List.cons.inj hlist).1
  have e1 : k1 = _ := (List.cons.inj (List.cons.inj hlist).2).1
  have e2 : k2 = _ := (List.cons.inj (List.cons.inj (List.cons.inj hlist).2).2).1
  have hinv := specChosenIndex_invariant ⟨d0 % 5, Nat.mod_lt _ (by decide)⟩
    ⟨d1 % 5, Nat.mod_lt _ (by decide)⟩ ⟨d2 % 5, Nat.mod_lt _ (by decide)⟩
  subst e0 e1 e2
  refine ⟨colors, _, _, _, c0, c1, c2, _, hlen, ?_, hc0, hc1, hc2, hrun, hinv⟩
  rw [hlen]
  exact hki

/-- C20 at the hash `0123456789abcdef0123456789abcdef`, size 256. -/
theorem C20_color_index_invariant_witness :
    ValidHash "0123456789abcdef0123456789abcdef" ∧
    ∃ (colors : List String) (k0 k1 k2 : Int) (c0 c1 c2 : String) (r : SVGRenderer),
      colors.length = 5 ∧
      colorIndexes "0123456789abcdef0123456789abcdef" (colors.length : Int) =
        .ok [k0, k1, k2] ∧
      sliceAt colors k0 = .ok c0 ∧ sliceAt colors k1 = .ok c1 ∧ sliceAt colors k2 = .ok c2 ∧
      iconGenerator (SVGRenderer_new (F32.ofInt 256)) "0123456789abcdef0123456789abcdef"
        (F32.ofInt 256) getCurrentConfig = .ok r ∧
      (∀ k ∈ [k0, k1, k2], k ∈ [(0 : Int), 1, 2, 3, 4]) ∧
      ([k0, k1, k2].filter (fun k => decide (k ∈ [(0 : Int), 4]))).length ≤ 1 ∧
      ([k0, k1, k2].filter (fun k => decide (k ∈ [(2 : Int), 3]))).length ≤ 1 ∧
      (k0 = k1 → k0 = 1) ∧ (k0 = k2 → k0 = 1) ∧ (k1 = k2 → k1 = 1) :=
  ⟨by decide, C20_color_index_invariant (SVGRenderer_new (F32.ofInt 256))
    "0123456789abcdef0123456789abcdef" (F32.ofInt 256) getCurrentConfig (by decide)⟩
